import Mathlib

/-!
# Chipmunk2D narrow phase: a shallow embedding of `src/cpCollision.c`

Conventions of the embedding.

* `cpFloat` is an arbitrary linearly ordered field `K` (exact arithmetic, no rounding).  The
  three divisions of the source whose divisor can be zero on ordinary inputs, in `ClosestT`,
  `ContactPoints` and `circle2segment`, are evaluated in `cpFloatX` with their IEEE 754
  results (an infinity or a NaN), which the clamp that follows each of them turns into a
  number again; the other divisions have a non-zero divisor where their result is used
  (`CPFLOAT_MIN > 0` in the C code, and see C24).
  The square root and the constant `CPFLOAT_MIN` are fields of `cpEnv`; theorems that need
  an exact square root say so through `cpEnv.ExactSqrt`.  The two places where the C code
  starts a running extremum at an infinity use `Option K` (`none` is the infinity).
* `int` is `Int` (all indices stay far from the machine bounds), `%` on `int` is `Int.tmod`.
  `cpCollisionID` is a `Nat` kept below `2 ^ 32`.
* A C array passed as a pointer (`const cpVect *verts`) is the memory seen from that pointer,
  `Int → cpVect K`, next to its separately passed element count: reading `verts[i]` is
  `verts i`, whatever `i` is.
* Soft assertions and warnings have no effect on the values computed and are not modelled;
  the conditions they assert are stated as theorems.
-/

namespace Chipmunk

/-! ## Vectors and scalar helpers (declared in headers that are not part of `src/`) -/

/-- Modelled from the spec: the type `cpVect` of `cpVect.h`/`chipmunk_types.h`, a 2D vector of
two `cpFloat` coordinates. -/
@[ext]
structure cpVect (K : Type) where
  x : K
  y : K
deriving DecidableEq

/-- Modelled from the spec: the constants and primitives of the platform headers that
`cpCollision.c` uses (`cpfsqrt`, `CPFLOAT_MIN` and the macro `CP_HASH_PAIR`), taken as
parameters, and the one piece of floating-point state that exact arithmetic does not carry,
the sign of a zero: `negZero a b n` tells whether the floating-point value of
`cpvcross(b, n) - cpvcross(a, n)`, when it is zero, is the negative zero (IEEE 754: only
`(-0) - (+0)` is `-0`).  `ContactPoints` divides by that difference.  The theorems hold for
every value of this field. -/
structure cpEnv (K : Type) where
  cpfsqrt : K → K
  CPFLOAT_MIN : K
  CP_HASH_PAIR : Nat → Nat → Nat
  negZero : cpVect K → cpVect K → cpVect K → Bool

variable {K : Type} [LinearOrderedField K]

/-- The square root of the environment is the exact one on non-negative numbers. -/
def cpEnv.ExactSqrt (F : cpEnv K) : Prop :=
  ∀ x : K, 0 ≤ x → 0 ≤ F.cpfsqrt x ∧ F.cpfsqrt x * F.cpfsqrt x = x

/-- Modelled from the spec: `cpfmax` of `chipmunk_types.h`, `(a > b) ? a : b`. -/
def cpfmax (a b : K) : K := if a > b then a else b

/-- Modelled from the spec: `cpfmin` of `chipmunk_types.h`, `(a < b) ? a : b`. -/
def cpfmin (a b : K) : K := if a < b then a else b

/-- Modelled from the spec: `cpfclamp` of `chipmunk_types.h`, `cpfmin(cpfmax(f, min), max)`. -/
def cpfclamp (f lo hi : K) : K := cpfmin (cpfmax f lo) hi

/-- Modelled from the spec: `cpfclamp01` of `chipmunk_types.h`,
`cpfmax(0, cpfmin(f, 1))`. -/
def cpfclamp01 (f : K) : K := cpfmax 0 (cpfmin f 1)

/-- A `cpFloat` that may be one of the special values of IEEE 754 arithmetic.  The three
divisions of `cpCollision.c` whose divisor can be zero (`ClosestT`, `ContactPoints`,
`circle2segment`) produce such a value and pass it to a clamp. -/
inductive cpFloatX (K : Type) where
  | fin (x : K)
  | posInf
  | negInf
  | nan
deriving DecidableEq

/-- The quotient `x / y` of C for a divisor that is a squared length, whose zero is the
positive zero: `0/0` is NaN, and `x/0` is `+inf` or `-inf` by the sign of `x`. -/
def cpfdivSq (x y : K) : cpFloatX K :=
  if y = 0 then
    if x = 0 then .nan else if 0 < x then .posInf else .negInf
  else .fin (x / y)

/-- The reciprocal `1.0f/z` of C; `neg` tells whether a zero `z` is the negative zero:
`1/(+0)` is `+inf` and `1/(-0)` is `-inf`. -/
def cpfrecip (z : K) (neg : Bool) : cpFloatX K :=
  if z = 0 then (if neg then .negInf else .posInf) else .fin (1 / z)

/-- The product `x*d` of C for a number `x` and a possibly infinite `d`: `0*inf` is NaN and
`x*inf` is an infinity with the product of the signs. -/
def cpfmulX (x : K) : cpFloatX K → cpFloatX K
  | .fin d => .fin (x * d)
  | .posInf => if x = 0 then .nan else if 0 < x then .posInf else .negInf
  | .negInf => if x = 0 then .nan else if 0 < x then .negInf else .posInf
  | .nan => .nan

/-- Modelled from the spec: `cpfclamp` of `chipmunk_types.h` on a possibly special value,
`cpfmin(cpfmax(f, min), max)` with `cpfmax(a, b) = (a > b) ? a : b` and
`cpfmin(a, b) = (a < b) ? a : b`.  A comparison with NaN is false, so `cpfmax(NaN, min)` is
`min`; `cpfmax(+inf, min)` is `+inf` and `cpfmin(+inf, max)` is `max`; `cpfmax(-inf, min)` is
`min`. -/
def cpfclampX (f : cpFloatX K) (lo hi : K) : K :=
  match f with
  | .fin x => cpfclamp x lo hi
  | .posInf => hi
  | .negInf => cpfmin lo hi
  | .nan => cpfmin lo hi

/-- Modelled from the spec: `cpfclamp01` of `chipmunk_types.h` on a possibly special value,
`cpfmax(0, cpfmin(f, 1))`.  A comparison with NaN is false, so `cpfmin(NaN, 1)` is 1;
`cpfmin(+inf, 1)` is 1; `cpfmin(-inf, 1)` is `-inf` and `cpfmax(0, -inf)` is 0. -/
def cpfclamp01X (f : cpFloatX K) : K :=
  match f with
  | .fin x => cpfclamp01 x
  | .posInf => 1
  | .negInf => 0
  | .nan => 1

/-- Modelled from the spec: the constructor `cpv` of `cpVect.h`. -/
def cpv (x y : K) : cpVect K := ⟨x, y⟩

/-- Modelled from the spec: the constant `cpvzero` of `cpVect.h`. -/
def cpvzero : cpVect K := ⟨0, 0⟩

/-- Modelled from the spec: `cpveql` of `cpVect.h`, coordinate-wise equality. -/
def cpveql (v1 v2 : cpVect K) : Bool := decide (v1.x = v2.x) && decide (v1.y = v2.y)

/-- Modelled from the spec: `cpvadd` of `cpVect.h`. -/
def cpvadd (v1 v2 : cpVect K) : cpVect K := ⟨v1.x + v2.x, v1.y + v2.y⟩

/-- Modelled from the spec: `cpvsub` of `cpVect.h`. -/
def cpvsub (v1 v2 : cpVect K) : cpVect K := ⟨v1.x - v2.x, v1.y - v2.y⟩

/-- Modelled from the spec: `cpvneg` of `cpVect.h`. -/
def cpvneg (v : cpVect K) : cpVect K := ⟨-v.x, -v.y⟩

/-- Modelled from the spec: `cpvmult` of `cpVect.h`, multiplication by a scalar. -/
def cpvmult (v : cpVect K) (s : K) : cpVect K := ⟨v.x * s, v.y * s⟩

/-- Modelled from the spec: `cpvdot` of `cpVect.h`. -/
def cpvdot (v1 v2 : cpVect K) : K := v1.x * v2.x + v1.y * v2.y

/-- Modelled from the spec: `cpvcross` of `cpVect.h`, the z component of the 3D cross
product. -/
def cpvcross (v1 v2 : cpVect K) : K := v1.x * v2.y - v1.y * v2.x

/-- Modelled from the spec: `cpvperp` of `cpVect.h`, the rotation by 90 degrees
counter-clockwise. -/
def cpvperp (v : cpVect K) : cpVect K := ⟨-v.y, v.x⟩

/-- Modelled from the spec: `cpvrotate` of `cpVect.h`, complex multiplication. -/
def cpvrotate (v1 v2 : cpVect K) : cpVect K :=
  ⟨v1.x * v2.x - v1.y * v2.y, v1.x * v2.y + v1.y * v2.x⟩

/-- Modelled from the spec: `cpvlengthsq` of `cpVect.h`. -/
def cpvlengthsq (v : cpVect K) : K := cpvdot v v

/-- Modelled from the spec: `cpvlength` of `cpVect.h`, `cpfsqrt(cpvdot(v, v))`. -/
def cpvlength (F : cpEnv K) (v : cpVect K) : K := F.cpfsqrt (cpvdot v v)

/-- Modelled from the spec: `cpvlerp` of `cpVect.h`,
`cpvadd(cpvmult(v1, 1 - t), cpvmult(v2, t))`. -/
def cpvlerp (v1 v2 : cpVect K) (t : K) : cpVect K :=
  cpvadd (cpvmult v1 (1 - t)) (cpvmult v2 t)

/-- Modelled from the spec: `cpvnormalize` of `cpVect.h`, which the spec requires to use the
small epsilon `CPFLOAT_MIN`: `cpvmult(v, 1/(cpvlength(v) + CPFLOAT_MIN))`. -/
def cpvnormalize (F : cpEnv K) (v : cpVect K) : cpVect K :=
  cpvmult v (1 / (cpvlength F v + F.CPFLOAT_MIN))

/-! ## Shapes, bodies and the collision info record (declared in `chipmunk_private.h`) -/

/-- Modelled from the spec: the part of `cpBody` the narrow phase reads, the world position
`p` and the rotation `rot`. -/
structure cpBody (K : Type) where
  p : cpVect K
  rot : cpVect K

/-- Modelled from the spec: the bounding box `cpBB`. -/
structure cpBB (K : Type) where
  l : K
  b : K
  r : K
  t : K

/-- Modelled from the spec: `cpBBCenter` of `cpBB.h`, the midpoint of the box. -/
def cpBBCenter (bb : cpBB K) : cpVect K :=
  cpvlerp (cpv bb.l bb.b) (cpv bb.r bb.t) (1 / 2)

/-- Modelled from the spec: the half-plane `cpSplittingPlane` of a polygon edge. -/
structure cpSplittingPlane (K : Type) where
  n : cpVect K
  d : K
deriving DecidableEq

/-- Modelled from the spec: `cpSplittingPlaneCompare`, the signed distance
`cpvdot(plane.n, v) - plane.d` of `v` to the half-plane. -/
def cpSplittingPlaneCompare (plane : cpSplittingPlane K) (v : cpVect K) : K :=
  cpvdot plane.n v - plane.d

/-- Modelled from the spec: the header `cpShape` shared by all shapes: the address of the
shape (its identity, which `CP_HASH_PAIR` hashes), its body and its cached bounding box. -/
structure cpShape (K : Type) where
  addr : Nat
  body : cpBody K
  bb : cpBB K

/-- Modelled from the spec: `cpCircleShape`, world centre `tc` and radius `r`. -/
structure cpCircleShape (K : Type) where
  shape : cpShape K
  tc : cpVect K
  r : K

/-- Modelled from the spec: `cpSegmentShape`, world endpoints `ta`, `tb`, world normal `tn`,
radius and the two rejection tangents.  `ta` and `tb` are adjacent in the struct and
`&seg->ta` is used as an array of two vertices; `after_tb` is what that pointer reads at the
other indices. -/
structure cpSegmentShape (K : Type) where
  shape : cpShape K
  ta : cpVect K
  tb : cpVect K
  tn : cpVect K
  r : K
  a_tangent : cpVect K
  b_tangent : cpVect K
  after_tb : Int → cpVect K

/-- Modelled from the spec: `cpPolyShape`, the vertex count, the world vertices `tVerts`, the
world half-planes `tPlanes` (plane `i` is the edge from vertex `i - 1` to vertex `i`) and the
radius. -/
structure cpPolyShape (K : Type) where
  shape : cpShape K
  numVerts : Int
  tVerts : Int → cpVect K
  tPlanes : Int → cpSplittingPlane K
  r : K

/-- Modelled from the spec: a `cpShape *`, the tagged variant of the three shape structs; the
constructor is the tag `klass->type`. -/
inductive cpShapePtr (K : Type) where
  | circle (c : cpCircleShape K)
  | segment (s : cpSegmentShape K)
  | poly (p : cpPolyShape K)

/-- Modelled from the spec: the number of shape types, `CP_NUM_SHAPES`. -/
def CP_NUM_SHAPES : Int := 3

/-- Modelled from the spec: the capacity of the contact buffer,
`CP_MAX_CONTACTS_PER_ARBITER`. -/
def CP_MAX_CONTACTS_PER_ARBITER : Int := 2

/-- Modelled from the spec: `klass->type`, with `CP_CIRCLE_SHAPE = 0`,
`CP_SEGMENT_SHAPE = 1`, `CP_POLY_SHAPE = 2`. -/
def cpShapePtr.type : cpShapePtr K → Int
  | .circle _ => 0
  | .segment _ => 1
  | .poly _ => 2

/-- The header of the shape a `cpShape *` points to. -/
def cpShapePtr.hdr : cpShapePtr K → cpShape K
  | .circle c => c.shape
  | .segment s => s.shape
  | .poly p => p.shape

/-- The body of the shape, `shape->body`. -/
def cpShapePtr.body (s : cpShapePtr K) : cpBody K := s.hdr.body

/-- Modelled from the spec: a contact record, the fields `{r1, r2, dist, hash}` the narrow
phase writes. -/
structure cpContact (K : Type) where
  r1 : cpVect K
  r2 : cpVect K
  dist : K
  hash : Nat
deriving DecidableEq

/-- Modelled from the spec: `cpCollisionInfo`: the two shapes, the warm-start id, the shared
normal, the contact count and the caller's contact buffer (the memory seen from `arr`). -/
structure cpCollisionInfo (K : Type) where
  a : cpShapePtr K
  b : cpShapePtr K
  id : Nat
  n : cpVect K
  count : Int
  arr : Int → cpContact K

/-- Modelled from the spec: `cpCollisionInfoPushContact` of `chipmunk_private.h`: set the
shared normal, write the record `{r1, r2, dist, hash}` at `arr[count]` and increment
`count`. -/
def cpCollisionInfoPushContact (info : cpCollisionInfo K) (p1 p2 n : cpVect K) (dist : K)
    (hash : Nat) : cpCollisionInfo K :=
  { info with
    n := n
    arr := Function.update info.arr info.count ⟨p1, p2, dist, hash⟩
    count := info.count + 1 }

/-! ## `cpCollision.c` -/

def MAX_GJK_ITERATIONS : Int := 30

def MAX_EPA_ITERATIONS : Int := 30

/-- The function `circle2circleQuery` of the source. -/
def circle2circleQuery (F : cpEnv K) (p1 p2 : cpVect K) (r1 r2 : K) (hash : Nat)
    (info : cpCollisionInfo K) : cpCollisionInfo K :=
  let mindist := r1 + r2
  let delta := cpvsub p2 p1
  let distsq := cpvlengthsq delta
  if distsq < mindist * mindist then
    let dist := F.cpfsqrt distsq
    let n := if dist ≠ 0 then cpvmult delta (1 / dist) else cpv 1 0
    let p := cpvlerp p1 p2 (r1 / (r1 + r2))
    cpCollisionInfoPushContact info (cpvsub p info.a.body.p) (cpvsub p info.b.body.p) n
      (dist - mindist) hash
  else info

/-! ### Support points and edges -/

/-- The test `d > max` of the support scan, where `max` starts at `-INFINITY` (`none`). -/
def gtMax (d : K) : Option K → Bool
  | none => true
  | some m => decide (d > m)

/-- The pair `(max, index)` of the loop of `cpSupportPointIndex` after its first `k`
iterations. -/
def cpSupportPointIndexLoop (verts : Int → cpVect K) (n : cpVect K) : Nat → Option K × Int
  | 0 => (none, 0)
  | k + 1 =>
    let s := cpSupportPointIndexLoop verts n k
    let d := cpvdot (verts (k : Int)) n
    if gtMax d s.1 then (some d, (k : Int)) else s

/-- The function `cpSupportPointIndex` of the source: the loop runs for `i = 0 .. count-1`. -/
def cpSupportPointIndex (count : Int) (verts : Int → cpVect K) (n : cpVect K) : Int :=
  (cpSupportPointIndexLoop verts n count.toNat).2

/-- The conversion of an `int` to the unsigned 32-bit `cpCollisionID`. -/
def toCollisionID (i : Int) : Nat := (i % 2 ^ 32).toNat

structure SupportPoint (K : Type) where
  p : cpVect K
  id : Nat

def SupportPointNew (p : cpVect K) (id : Nat) : SupportPoint K := ⟨p, id⟩

def cpSupportPoint (count : Int) (verts : Int → cpVect K) (n : cpVect K) : SupportPoint K :=
  let i := cpSupportPointIndex count verts n
  SupportPointNew (verts i) (toCollisionID i)

structure MinkowskiPoint (K : Type) where
  a : cpVect K
  b : cpVect K
  ab : cpVect K
  id : Nat
deriving DecidableEq

instance : Inhabited (MinkowskiPoint K) := ⟨⟨cpvzero, cpvzero, cpvzero, 0⟩⟩

/-- The function `MinkoskiPointNew` of the source; the id is computed in 32 bits. -/
def MinkoskiPointNew (a b : SupportPoint K) : MinkowskiPoint K :=
  ⟨a.p, b.p, cpvsub b.p a.p, (((a.id &&& 0xFF) <<< 8) % 2 ^ 32) ||| (b.id &&& 0xFF)⟩

structure SupportContext (K : Type) where
  shape1 : cpShapePtr K
  shape2 : cpShapePtr K
  count1 : Int
  count2 : Int
  verts1 : Int → cpVect K
  verts2 : Int → cpVect K

def Support (ctx : SupportContext K) (n : cpVect K) : MinkowskiPoint K :=
  let a := cpSupportPoint ctx.count1 ctx.verts1 (cpvneg n)
  let b := cpSupportPoint ctx.count2 ctx.verts2 n
  MinkoskiPointNew a b

structure EdgePoint (K : Type) where
  p : cpVect K
  hash : Nat

structure Edge (K : Type) where
  a : EdgePoint K
  b : EdgePoint K
  r : K
  n : cpVect K

def EdgeNew (F : cpEnv K) (va vb : cpVect K) (ha hb : Nat) (r : K) : Edge K :=
  ⟨⟨va, ha⟩, ⟨vb, hb⟩, r, cpvnormalize F (cpvperp (cpvsub vb va))⟩

def SupportEdgeForPoly (F : cpEnv K) (poly : cpPolyShape K) (n : cpVect K) : Edge K :=
  let numVerts := poly.numVerts
  let i1 := cpSupportPointIndex poly.numVerts poly.tVerts n
  let i0 := (i1 - 1 + numVerts).tmod numVerts
  let i2 := (i1 + 1).tmod numVerts
  let verts := poly.tVerts
  if cpvdot n (poly.tPlanes i1).n > cpvdot n (poly.tPlanes i2).n then
    ⟨⟨verts i0, F.CP_HASH_PAIR poly.shape.addr i0.toNat⟩,
     ⟨verts i1, F.CP_HASH_PAIR poly.shape.addr i1.toNat⟩, poly.r, (poly.tPlanes i1).n⟩
  else
    ⟨⟨verts i1, F.CP_HASH_PAIR poly.shape.addr i1.toNat⟩,
     ⟨verts i2, F.CP_HASH_PAIR poly.shape.addr i2.toNat⟩, poly.r, (poly.tPlanes i2).n⟩

def SupportEdgeForSegment (F : cpEnv K) (seg : cpSegmentShape K) (n : cpVect K) : Edge K :=
  if cpvdot seg.tn n > 0 then
    ⟨⟨seg.ta, F.CP_HASH_PAIR seg.shape.addr 0⟩, ⟨seg.tb, F.CP_HASH_PAIR seg.shape.addr 1⟩,
     seg.r, seg.tn⟩
  else
    ⟨⟨seg.tb, F.CP_HASH_PAIR seg.shape.addr 1⟩, ⟨seg.ta, F.CP_HASH_PAIR seg.shape.addr 0⟩,
     seg.r, cpvneg seg.tn⟩

/-- The function `ClosestT` of the source.  For `a = b` the quotient is `0/0`, a NaN, which
`cpfclamp` turns into `-1`. -/
def ClosestT (a b : cpVect K) : K :=
  let delta := cpvsub b a;
  -cpfclampX (cpfdivSq (cpvdot delta (cpvadd a b)) (cpvlengthsq delta)) (-1) 1

def LerpT (a b : cpVect K) (t : K) : cpVect K :=
  let ht := (1 / 2) * t
  cpvadd (cpvmult a (1 / 2 - ht)) (cpvmult b (1 / 2 + ht))

structure ClosestPoints (K : Type) where
  a : cpVect K
  b : cpVect K
  n : cpVect K
  d : K
  id : Nat

/-- The function `ClosestPointsNew` of the source; the id is computed in 32 bits. -/
def ClosestPointsNew (F : cpEnv K) (v0 v1 : MinkowskiPoint K) : ClosestPoints K :=
  let t := ClosestT v0.ab v1.ab
  let p := LerpT v0.ab v1.ab t
  let pa := LerpT v0.a v1.a t
  let pb := LerpT v0.b v1.b t
  let id := (((v0.id &&& 0xFFFF) <<< 16) % 2 ^ 32) ||| (v1.id &&& 0xFFFF)
  let delta := cpvsub v1.ab v0.ab
  let n := cpvnormalize F (cpvperp delta)
  let d := -cpvdot n p
  if d ≤ 0 ∨ (0 < t ∧ t < 1) then
    ⟨pa, pb, cpvneg n, d, id⟩
  else
    let d2 := cpvlength F p
    let n := cpvmult p (1 / (d2 + F.CPFLOAT_MIN))
    ⟨pa, pb, n, d2, id⟩

/-! ### EPA -/

def ClosestDist (v0 v1 : cpVect K) : K :=
  cpvlengthsq (LerpT v0 v1 (ClosestT v0 v1))

/-- The test `d < minDist` of the EPA scan, where `minDist` starts at `INFINITY` (`none`). -/
def ltMin (d : K) : Option K → Bool
  | none => true
  | some m => decide (d < m)

/-- The element `hull[i]` of a hull held in a list. -/
def hullAt (hull : List (MinkowskiPoint K)) (i : Int) : MinkowskiPoint K :=
  hull.getD i.toNat default

/-- The pair `(minDist, mini)` of the first loop of `EPARecurse` after its first `k`
iterations: iteration `j` compares the edge from `hull[i]` to `hull[j]`, where `i = count - 1`
when `j = 0` and `i = j - 1` afterwards. -/
def EPAScanLoop (count : Int) (hull : List (MinkowskiPoint K)) : Nat → Option K × Int
  | 0 => (none, 0)
  | k + 1 =>
    let s := EPAScanLoop count hull k
    let j : Int := k
    let i : Int := if k = 0 then count - 1 else j - 1
    let d := ClosestDist (hullAt hull i).ab (hullAt hull j).ab
    if ltMin d s.1 then (some d, i) else s

/-- The array `hull2` (its first `count2` entries) of the second loop of `EPARecurse` after
its first `k` iterations; it starts as `[p]`. -/
def EPAHullLoop (count : Int) (hull : List (MinkowskiPoint K)) (mini : Int)
    (p : MinkowskiPoint K) : Nat → List (MinkowskiPoint K)
  | 0 => [p]
  | k + 1 =>
    let hull2 := EPAHullLoop count hull mini p k
    let i : Int := k
    let index := (mini + 1 + i).tmod count
    let h0 := (hull2.getLastD default).ab
    let h1 := (hullAt hull index).ab
    let h2 := (if i + 1 < count then hullAt hull ((index + 1).tmod count) else p).ab
    if cpvcross (cpvsub h2 h0) (cpvsub h1 h0) > 0 then hull2 ++ [hullAt hull index] else hull2

/-- The function `EPARecurse` of the source.  The hull is a list whose length is the `count`
argument of the C function. -/
def EPARecurse (F : cpEnv K) (ctx : SupportContext K) (hull : List (MinkowskiPoint K))
    (i : Int) : ClosestPoints K :=
  let count : Int := hull.length
  let mini := (EPAScanLoop count hull count.toNat).2
  let v0 := hullAt hull mini
  let v1 := hullAt hull ((mini + 1).tmod count)
  let p := Support ctx (cpvperp (cpvsub v1.ab v0.ab))
  let area2x := cpvcross (cpvsub v1.ab v0.ab) (cpvadd (cpvsub p.ab v0.ab) (cpvsub p.ab v1.ab))
  if h : area2x > 0 ∧ i < MAX_EPA_ITERATIONS then
    EPARecurse F ctx (EPAHullLoop count hull mini p count.toNat) (i + 1)
  else
    ClosestPointsNew F v0 v1
termination_by (MAX_EPA_ITERATIONS - i).toNat
decreasing_by
  have h2 := h.2
  simp only [MAX_EPA_ITERATIONS] at h2 ⊢
  omega

def EPA (F : cpEnv K) (ctx : SupportContext K) (v0 v1 v2 : MinkowskiPoint K) :
    ClosestPoints K :=
  EPARecurse F ctx [v0, v1, v2] 1

/-! ### GJK -/

/-- The function `GJKRecurse` of the source. -/
def GJKRecurse (F : cpEnv K) (ctx : SupportContext K) (v0 v1 : MinkowskiPoint K) (i : Int) :
    ClosestPoints K :=
  if h : i > MAX_GJK_ITERATIONS then
    ClosestPointsNew F v0 v1
  else
    let delta := cpvsub v1.ab v0.ab
    if cpvcross delta (cpvadd v0.ab v1.ab) > 0 then
      GJKRecurse F ctx v1 v0 (i + 1)
    else
      let t := ClosestT v0.ab v1.ab
      let n := if -1 < t ∧ t < 1 then cpvperp delta else cpvneg (LerpT v0.ab v1.ab t)
      let p := Support ctx n
      if cpvcross (cpvsub v1.ab p.ab) (cpvadd v1.ab p.ab) > 0 ∧
          cpvcross (cpvsub v0.ab p.ab) (cpvadd v0.ab p.ab) < 0 then
        EPA F ctx v0 p v1
      else
        if cpvdot p.ab n ≤ cpfmax (cpvdot v0.ab n) (cpvdot v1.ab n) then
          ClosestPointsNew F v0 v1
        else
          if ClosestDist v0.ab p.ab < ClosestDist p.ab v1.ab then
            GJKRecurse F ctx v0 p (i + 1)
          else
            GJKRecurse F ctx p v1 (i + 1)
termination_by (MAX_GJK_ITERATIONS + 1 - i).toNat
decreasing_by
  all_goals
    simp only [MAX_GJK_ITERATIONS] at h ⊢
    omega

def ShapePoint (count : Int) (verts : Int → cpVect K) (i : Int) : SupportPoint K :=
  let index := if i < count then i else 0
  SupportPointNew (verts i) (toCollisionID index)

/-- The function `GJK` of the source (`ENABLE_CACHING` is 1); the second component is the
value left in `*id`. -/
def GJK (F : cpEnv K) (ctx : SupportContext K) (id : Nat) : ClosestPoints K × Nat :=
  let v :=
    if id ≠ 0 then
      (MinkoskiPointNew
          (ShapePoint ctx.count1 ctx.verts1 (((id >>> 24) &&& 0xFF : Nat) : Int))
          (ShapePoint ctx.count2 ctx.verts2 (((id >>> 16) &&& 0xFF : Nat) : Int)),
       MinkoskiPointNew
          (ShapePoint ctx.count1 ctx.verts1 (((id >>> 8) &&& 0xFF : Nat) : Int))
          (ShapePoint ctx.count2 ctx.verts2 ((id &&& 0xFF : Nat) : Int)))
    else
      let axis := cpvperp (cpvsub (cpBBCenter ctx.shape1.hdr.bb) (cpBBCenter ctx.shape2.hdr.bb))
      (Support ctx axis, Support ctx (cpvneg axis))
  let points := GJKRecurse F ctx v.1 v.2 1
  (points, points.id)

/-! ### Instrumented runs of `EPARecurse` and `GJKRecurse`

The two recursive functions once more, with the same tests and the same recursive calls, and
ghost outputs next to the value returned: the arguments of the invocation that returned and
the number of invocations made. -/

/-- The record of a run of `EPARecurse`: the value returned, the hull and the counter `i` of
the invocation that returned, and the number of invocations made. -/
structure EPARun (K : Type) where
  points : ClosestPoints K
  hull : List (MinkowskiPoint K)
  i : Int
  calls : Nat

/-- The function `EPARecurse` of the source with ghost outputs. -/
def EPARecurseRun (F : cpEnv K) (ctx : SupportContext K) (hull : List (MinkowskiPoint K))
    (i : Int) : EPARun K :=
  let count : Int := hull.length
  let mini := (EPAScanLoop count hull count.toNat).2
  let v0 := hullAt hull mini
  let v1 := hullAt hull ((mini + 1).tmod count)
  let p := Support ctx (cpvperp (cpvsub v1.ab v0.ab))
  let area2x := cpvcross (cpvsub v1.ab v0.ab) (cpvadd (cpvsub p.ab v0.ab) (cpvsub p.ab v1.ab))
  if h : area2x > 0 ∧ i < MAX_EPA_ITERATIONS then
    let r := EPARecurseRun F ctx (EPAHullLoop count hull mini p count.toNat) (i + 1)
    { r with calls := r.calls + 1 }
  else
    ⟨ClosestPointsNew F v0 v1, hull, i, 1⟩
termination_by (MAX_EPA_ITERATIONS - i).toNat
decreasing_by
  have h2 := h.2
  simp only [MAX_EPA_ITERATIONS] at h2 ⊢
  omega

/-- The three ways `GJKRecurse` returns: at the iteration cap, through `EPA`, or with the
closest features of the current simplex. -/
inductive GJKExit where
  | cap
  | epa
  | closest
deriving DecidableEq

/-- The record of a run of `GJKRecurse`: the value returned, the simplex `(v0, v1)` and the
counter `i` of the invocation that returned, the number of invocations made, and the way it
returned. -/
structure GJKRun (K : Type) where
  points : ClosestPoints K
  v0 : MinkowskiPoint K
  v1 : MinkowskiPoint K
  i : Int
  calls : Nat
  exit : GJKExit

/-- The function `GJKRecurse` of the source with ghost outputs. -/
def GJKRecurseRun (F : cpEnv K) (ctx : SupportContext K) (v0 v1 : MinkowskiPoint K)
    (i : Int) : GJKRun K :=
  if h : i > MAX_GJK_ITERATIONS then
    ⟨ClosestPointsNew F v0 v1, v0, v1, i, 1, .cap⟩
  else
    let delta := cpvsub v1.ab v0.ab
    if cpvcross delta (cpvadd v0.ab v1.ab) > 0 then
      let r := GJKRecurseRun F ctx v1 v0 (i + 1)
      { r with calls := r.calls + 1 }
    else
      let t := ClosestT v0.ab v1.ab
      let n := if -1 < t ∧ t < 1 then cpvperp delta else cpvneg (LerpT v0.ab v1.ab t)
      let p := Support ctx n
      if cpvcross (cpvsub v1.ab p.ab) (cpvadd v1.ab p.ab) > 0 ∧
          cpvcross (cpvsub v0.ab p.ab) (cpvadd v0.ab p.ab) < 0 then
        ⟨EPA F ctx v0 p v1, v0, v1, i, 1, .epa⟩
      else
        if cpvdot p.ab n ≤ cpfmax (cpvdot v0.ab n) (cpvdot v1.ab n) then
          ⟨ClosestPointsNew F v0 v1, v0, v1, i, 1, .closest⟩
        else
          if ClosestDist v0.ab p.ab < ClosestDist p.ab v1.ab then
            let r := GJKRecurseRun F ctx v0 p (i + 1)
            { r with calls := r.calls + 1 }
          else
            let r := GJKRecurseRun F ctx p v1 (i + 1)
            { r with calls := r.calls + 1 }
termination_by (MAX_GJK_ITERATIONS + 1 - i).toNat
decreasing_by
  all_goals
    simp only [MAX_GJK_ITERATIONS] at h ⊢
    omega

/-- The function `ContactPoints` of the source (the active one).  For an edge parallel to
`n` the difference `d_b - d_a` is zero: `e_denom` is then an infinity and the clip parameter,
`cpfclamp01` of an infinity or of the NaN `0*inf`, is 0 or 1. -/
def ContactPoints (F : cpEnv K) (e1 e2 : Edge K) (points : ClosestPoints K)
    (info : cpCollisionInfo K) : cpCollisionInfo K :=
  let mindist := e1.r + e2.r
  if points.d ≤ mindist then
    let n := points.n
    let d_e1_a := cpvcross e1.a.p n
    let d_e1_b := cpvcross e1.b.p n
    let d_e2_a := cpvcross e2.a.p n
    let d_e2_b := cpvcross e2.b.p n
    let e1_denom := cpfrecip (d_e1_b - d_e1_a) (F.negZero e1.a.p e1.b.p n)
    let e2_denom := cpfrecip (d_e2_b - d_e2_a) (F.negZero e2.a.p e2.b.p n)
    let hash_1a2b := F.CP_HASH_PAIR e1.a.hash e2.b.hash
    let hash_1b2a := F.CP_HASH_PAIR e1.b.hash e2.a.hash
    let info1 :=
      let r1 := cpvadd (cpvmult n e1.r)
        (cpvlerp e1.a.p e1.b.p (cpfclamp01X (cpfmulX (d_e2_b - d_e1_a) e1_denom)))
      let r2 := cpvadd (cpvmult n (-e2.r))
        (cpvlerp e2.a.p e2.b.p (cpfclamp01X (cpfmulX (d_e1_a - d_e2_a) e2_denom)))
      let dist := cpvdot (cpvsub r2 r1) n
      if dist ≤ 0 then
        cpCollisionInfoPushContact info (cpvsub r1 info.a.body.p) (cpvsub r2 info.b.body.p) n
          dist hash_1a2b
      else info
    let r1 := cpvadd (cpvmult n e1.r)
      (cpvlerp e1.a.p e1.b.p (cpfclamp01X (cpfmulX (d_e2_a - d_e1_a) e1_denom)))
    let r2 := cpvadd (cpvmult n (-e2.r))
      (cpvlerp e2.a.p e2.b.p (cpfclamp01X (cpfmulX (d_e1_b - d_e2_a) e2_denom)))
    let dist := cpvdot (cpvsub r2 r1) n
    if dist ≤ 0 then
      cpCollisionInfoPushContact info1 (cpvsub r1 info1.a.body.p) (cpvsub r2 info1.b.body.p) n
        dist hash_1b2a
    else info1
  else info

/-! ### Collision functions -/

/-- The type `CollisionFunc` of the source. -/
abbrev CollisionFunc (K : Type) : Type :=
  cpShapePtr K → cpShapePtr K → cpCollisionInfo K → cpCollisionInfo K

def circle2circle (F : cpEnv K) (c1 c2 : cpCircleShape K) (info : cpCollisionInfo K) :
    cpCollisionInfo K :=
  circle2circleQuery F c1.tc c2.tc c1.r c2.r 0 info

/-- The function `circle2segment` of the source.  For `ta = tb` the quotient is `0/0`, a NaN,
which `cpfclamp01` turns into 1. -/
def circle2segment (F : cpEnv K) (circleShape : cpCircleShape K)
    (segmentShape : cpSegmentShape K) (info : cpCollisionInfo K) : cpCollisionInfo K :=
  let seg_a := segmentShape.ta
  let seg_b := segmentShape.tb
  let center := circleShape.tc
  let seg_delta := cpvsub seg_b seg_a
  let closest_t := cpfclamp01X
    (cpfdivSq (cpvdot seg_delta (cpvsub center seg_a)) (cpvlengthsq seg_delta))
  let closest := cpvadd seg_a (cpvmult seg_delta closest_t)
  let info1 := circle2circleQuery F center closest circleShape.r segmentShape.r 0 info
  if info1.count > 0 then
    let n := info1.n
    if (closest_t ≠ 0 ∨
          cpvdot n (cpvrotate segmentShape.a_tangent segmentShape.shape.body.rot) ≥ 0) ∧
        (closest_t ≠ 1 ∨
          cpvdot n (cpvrotate segmentShape.b_tangent segmentShape.shape.body.rot) ≥ 0) then
      info1
    else
      { info1 with count := 0 }
  else info1

/-- The array `&seg->ta` of a segment: `ta` at index 0, `tb` at index 1. -/
def segVerts (seg : cpSegmentShape K) : Int → cpVect K :=
  fun i => if i = 0 then seg.ta else if i = 1 then seg.tb else seg.after_tb i

def segment2segment (F : cpEnv K) (seg1 seg2 : cpSegmentShape K) (info : cpCollisionInfo K) :
    cpCollisionInfo K :=
  let context : SupportContext K :=
    ⟨.segment seg1, .segment seg2, 2, 2, segVerts seg1, segVerts seg2⟩
  let g := GJK F context info.id
  let points := g.1
  let info1 := { info with id := g.2 }
  let n := points.n
  let rot1 := seg1.shape.body.rot
  let rot2 := seg2.shape.body.rot
  if points.d ≤ seg1.r + seg2.r ∧
      ((¬ cpveql points.a seg1.ta ∨ cpvdot n (cpvrotate seg1.a_tangent rot1) ≤ 0) ∧
       (¬ cpveql points.a seg1.tb ∨ cpvdot n (cpvrotate seg1.b_tangent rot1) ≤ 0) ∧
       (¬ cpveql points.b seg2.ta ∨ cpvdot n (cpvrotate seg2.a_tangent rot2) ≥ 0) ∧
       (¬ cpveql points.b seg2.tb ∨ cpvdot n (cpvrotate seg2.b_tangent rot2) ≥ 0)) then
    ContactPoints F (SupportEdgeForSegment F seg1 n) (SupportEdgeForSegment F seg2 (cpvneg n))
      points info1
  else info1

def poly2poly (F : cpEnv K) (poly1 poly2 : cpPolyShape K) (info : cpCollisionInfo K) :
    cpCollisionInfo K :=
  let context : SupportContext K :=
    ⟨.poly poly1, .poly poly2, poly1.numVerts, poly2.numVerts, poly1.tVerts, poly2.tVerts⟩
  let g := GJK F context info.id
  let points := g.1
  let info1 := { info with id := g.2 }
  if points.d - poly1.r - poly2.r ≤ 0 then
    ContactPoints F (SupportEdgeForPoly F poly1 points.n)
      (SupportEdgeForPoly F poly2 (cpvneg points.n)) points info1
  else info1

def seg2poly (F : cpEnv K) (seg : cpSegmentShape K) (poly : cpPolyShape K)
    (info : cpCollisionInfo K) : cpCollisionInfo K :=
  let context : SupportContext K :=
    ⟨.segment seg, .poly poly, 2, poly.numVerts, segVerts seg, poly.tVerts⟩
  let g := GJK F context info.id
  let points := g.1
  let info1 := { info with id := g.2 }
  let n := points.n
  let rot := seg.shape.body.rot
  if points.d - seg.r - poly.r ≤ 0 ∧
      ((¬ cpveql points.a seg.ta ∨ cpvdot n (cpvrotate seg.a_tangent rot) ≤ 0) ∧
       (¬ cpveql points.a seg.tb ∨ cpvdot n (cpvrotate seg.b_tangent rot) ≤ 0)) then
    ContactPoints F (SupportEdgeForSegment F seg n) (SupportEdgeForPoly F poly (cpvneg n))
      points info1
  else info1

/-- The loop of `circle2poly` after its first `k` iterations: `none` when the function has
returned from inside the loop, else the pair `(min, mini)`. -/
def circle2polyLoop (circle : cpCircleShape K) (poly : cpPolyShape K) : Nat → Option (K × Int)
  | 0 => some (cpSplittingPlaneCompare (poly.tPlanes 0) circle.tc - circle.r, 0)
  | k + 1 =>
    match circle2polyLoop circle poly k with
    | none => none
    | some (min, mini) =>
      let dist := cpSplittingPlaneCompare (poly.tPlanes (k : Int)) circle.tc - circle.r
      if dist > 0 then none
      else if dist > min then some (dist, (k : Int))
      else some (min, mini)

def circle2poly (F : cpEnv K) (circle : cpCircleShape K) (poly : cpPolyShape K)
    (info : cpCollisionInfo K) : cpCollisionInfo K :=
  let planes := poly.tPlanes
  let numVerts := poly.numVerts
  match circle2polyLoop circle poly poly.numVerts.toNat with
  | none => info
  | some (min, mini) =>
    let n := (planes mini).n
    let a := poly.tVerts ((mini - 1 + numVerts).tmod numVerts)
    let b := poly.tVerts mini
    let dta := cpvcross n a
    let dtb := cpvcross n b
    let dt := cpvcross n circle.tc
    if dt < dtb then
      circle2circleQuery F circle.tc b circle.r poly.r 0 info
    else if dt < dta then
      let point := cpvsub circle.tc (cpvmult n (circle.r + min / 2))
      cpCollisionInfoPushContact info (cpvsub point info.a.body.p) (cpvsub point info.b.body.p)
        (cpvneg n) min 0
    else
      circle2circleQuery F circle.tc a circle.r poly.r 0 info

/-! ### Dispatch -/

/-- The cast `(CollisionFunc)circle2circle`: the handler reads both shapes as circles. -/
def circle2circleFunc (F : cpEnv K) : CollisionFunc K := fun a b info =>
  match a, b with
  | .circle c1, .circle c2 => circle2circle F c1 c2 info
  | _, _ => info

/-- The cast `(CollisionFunc)circle2segment`. -/
def circle2segmentFunc (F : cpEnv K) : CollisionFunc K := fun a b info =>
  match a, b with
  | .circle c, .segment s => circle2segment F c s info
  | _, _ => info

/-- The cast `(CollisionFunc)segment2segment`. -/
def segment2segmentFunc (F : cpEnv K) : CollisionFunc K := fun a b info =>
  match a, b with
  | .segment s1, .segment s2 => segment2segment F s1 s2 info
  | _, _ => info

/-- The cast `(CollisionFunc)circle2poly`. -/
def circle2polyFunc (F : cpEnv K) : CollisionFunc K := fun a b info =>
  match a, b with
  | .circle c, .poly p => circle2poly F c p info
  | _, _ => info

/-- The cast `(CollisionFunc)seg2poly`. -/
def seg2polyFunc (F : cpEnv K) : CollisionFunc K := fun a b info =>
  match a, b with
  | .segment s, .poly p => seg2poly F s p info
  | _, _ => info

/-- The cast `(CollisionFunc)poly2poly`. -/
def poly2polyFunc (F : cpEnv K) : CollisionFunc K := fun a b info =>
  match a, b with
  | .poly p1, .poly p2 => poly2poly F p1 p2 info
  | _, _ => info

/-- The table `builtinCollisionFuncs` of the source (`none` is `NULL`). -/
def builtinCollisionFuncs (F : cpEnv K) : List (Option (CollisionFunc K)) :=
  [some (circle2circleFunc F), none, none,
   some (circle2segmentFunc F), none, none,
   some (circle2polyFunc F), some (seg2polyFunc F), some (poly2polyFunc F)]

/-- The table `segmentCollisions` of the source. -/
def segmentCollisions (F : cpEnv K) : List (Option (CollisionFunc K)) :=
  [some (circle2circleFunc F), none, none,
   some (circle2segmentFunc F), some (segment2segmentFunc F), none,
   some (circle2polyFunc F), some (seg2polyFunc F), some (poly2polyFunc F)]

/-- The mutable file-level state of the source: the pointer `colfuncs`, as the table it points
to. -/
structure Globals (K : Type) where
  colfuncs : List (Option (CollisionFunc K))

/-- The state at program start: `colfuncs = builtinCollisionFuncs`. -/
def Globals.initial (F : cpEnv K) : Globals K := ⟨builtinCollisionFuncs F⟩

/-- The function `cpEnableSegmentToSegmentCollisions` of the source. -/
def cpEnableSegmentToSegmentCollisions (F : cpEnv K) (_g : Globals K) : Globals K :=
  ⟨segmentCollisions F⟩

/-- The states the program can be in: the initial one, then any number of calls of the
enabler. -/
inductive Globals.Reachable (F : cpEnv K) : Globals K → Prop where
  | start : Globals.Reachable F (Globals.initial F)
  | enable (g : Globals K) : Globals.Reachable F g →
      Globals.Reachable F (cpEnableSegmentToSegmentCollisions F g)

/-- The entry `colfuncs[a->klass->type + b->klass->type*CP_NUM_SHAPES]`. -/
def Globals.cfunc (g : Globals K) (a b : cpShapePtr K) : Option (CollisionFunc K) :=
  g.colfuncs.getD (a.type + b.type * CP_NUM_SHAPES).toNat none

/-- The function `cpCollideShapes` of the source. -/
def cpCollideShapes (g : Globals K) (a b : cpShapePtr K) (id : Nat)
    (contacts : Int → cpContact K) : cpCollisionInfo K :=
  let info : cpCollisionInfo K := ⟨a, b, id, cpvzero, 0, contacts⟩
  match g.cfunc a b with
  | some cfunc => cfunc a b info
  | none => info

/-! ## Concrete inputs used by the witnesses -/

/-- A body at position `p` that is not rotated. -/
def bodyAt (p : cpVect K) : cpBody K := ⟨p, cpv 1 0⟩

/-- The circle of centre `(x, y)` and radius `r`, on a body at its centre, at address
`addr`. -/
def circleAt (addr : Nat) (x y r : K) : cpCircleShape K :=
  ⟨⟨addr, bodyAt (cpv x y), ⟨x - r, y - r, x + r, y + r⟩⟩, cpv x y, r⟩

/-- A contact buffer filled with zeros. -/
def zeroContacts : Int → cpContact K := fun _ => ⟨cpvzero, cpvzero, 0, 0⟩

/-- The info record `cpCollideShapes` starts from. -/
def freshInfo (a b : cpShapePtr K) (id : Nat) : cpCollisionInfo K :=
  ⟨a, b, id, cpvzero, 0, zeroContacts⟩

/-- The memory seen from a pointer to an array holding the vectors of `l`; the cells outside
the array hold zero. -/
def vertsOfList (l : List (cpVect K)) : Int → cpVect K :=
  fun i => if 0 ≤ i then l.getD i.toNat cpvzero else cpvzero

/-- The memory seen from a pointer to an array holding the planes of `l`. -/
def planesOfList (l : List (cpSplittingPlane K)) : Int → cpSplittingPlane K :=
  fun i => if 0 ≤ i then l.getD i.toNat ⟨cpvzero, 0⟩ else ⟨cpvzero, 0⟩

/-- The axis-aligned box `[x0, x1] × [y0, y1]` as a polygon of radius 0 on a body at the
origin, vertices in clockwise order starting at `(x0, y0)`; plane `i` is the outward
half-plane of the edge from vertex `i - 1` to vertex `i`. -/
def boxPolyCW (addr : Nat) (x0 y0 x1 y1 : K) : cpPolyShape K :=
  ⟨⟨addr, bodyAt cpvzero, ⟨x0, y0, x1, y1⟩⟩, 4,
   vertsOfList [cpv x0 y0, cpv x0 y1, cpv x1 y1, cpv x1 y0],
   planesOfList [⟨cpv 0 (-1), -y0⟩, ⟨cpv (-1) 0, -x0⟩, ⟨cpv 0 1, y1⟩, ⟨cpv 1 0, x1⟩], 0⟩

/-- The same box with its vertices in counter-clockwise order starting at `(x0, y0)`; plane
`i` is the outward half-plane of the edge from vertex `i - 1` to vertex `i`. -/
def boxPolyCCW (addr : Nat) (x0 y0 x1 y1 : K) : cpPolyShape K :=
  ⟨⟨addr, bodyAt cpvzero, ⟨x0, y0, x1, y1⟩⟩, 4,
   vertsOfList [cpv x0 y0, cpv x1 y0, cpv x1 y1, cpv x0 y1],
   planesOfList [⟨cpv (-1) 0, -x0⟩, ⟨cpv 0 (-1), -y0⟩, ⟨cpv 1 0, x1⟩, ⟨cpv 0 1, y1⟩], 0⟩

/-- The segment from `(ax, ay)` to `(bx, by)` with radius `r` and unit normal `(nx, ny)`, on a
body at the origin, without rejection tangents. -/
def segmentAt (addr : Nat) (ax ay bx «by» nx ny r : K) : cpSegmentShape K :=
  ⟨⟨addr, bodyAt cpvzero, ⟨cpfmin ax bx - r, cpfmin ay «by» - r, cpfmax ax bx + r,
      cpfmax ay «by» + r⟩⟩,
   cpv ax ay, cpv bx «by», cpv nx ny, r, cpvzero, cpvzero, fun _ => cpvzero⟩

/-- A concrete value of the macro `CP_HASH_PAIR` for the witnesses: both arguments are
multiplied by the constant `CP_HASH_COEF = 3344921057` and combined with exclusive or, in 64
bits. -/
def hashPair64 (a b : Nat) : Nat :=
  ((a * 3344921057) % 2 ^ 64) ^^^ ((b * 3344921057) % 2 ^ 64)

/-- A concrete environment over the rationals: the rational square root (exact on squares),
the smallest normal double as `CPFLOAT_MIN`, the 64-bit `CP_HASH_PAIR`, and positive
zeros. -/
def ratEnv : cpEnv ℚ := ⟨Rat.sqrt, 1 / 2 ^ 1022, hashPair64, fun _ _ _ => false⟩

/-- The box `[-1,1]²` over the rationals, clockwise, at address 1. -/
def unitBoxCW : cpPolyShape ℚ := boxPolyCW 1 (-1) (-1) 1 1

/-- The circle of centre `(5/4, 0)` and radius `1/2` over the rationals, at address 2. -/
def nearCircle : cpCircleShape ℚ := circleAt 2 (5 / 4) 0 (1 / 2)

/-- The segment from `(0,0)` to `(1,0)` of radius 0 with upward normal and the rejection
tangent `(1, 0)` configured at endpoint A, over the rationals, at address 3. -/
def oneWaySegment : cpSegmentShape ℚ :=
  { segmentAt 3 0 0 1 0 0 1 0 with a_tangent := cpv 1 0 }

/-- The circle of centre `(-1/2, 0)` and radius 1 over the rationals, at address 4: it
overlaps endpoint A of `oneWaySegment` from the left. -/
def leftCircle : cpCircleShape ℚ := circleAt 4 (-1 / 2) 0 1

/-- The circle of centre `(3/2, 0)` and radius 1 over the rationals, at address 5: it
overlaps endpoint B of `oneWaySegment` from the right. -/
def rightCircle : cpCircleShape ℚ := circleAt 5 (3 / 2) 0 1

/-- The box `[1/2, 5/2]²` over the rationals, clockwise, at address 2: it overlaps the corner
`[1/2, 1]²` of `unitBoxCW`, equally deep along both axes. -/
def cornerBoxCW : cpPolyShape ℚ := boxPolyCW 2 (1 / 2) (1 / 2) (5 / 2) (5 / 2)

/-- The support context of `poly2poly` for `unitBoxCW` and `cornerBoxCW`. -/
def cornerCtx : SupportContext ℚ :=
  ⟨.poly unitBoxCW, .poly cornerBoxCW, 4, 4, unitBoxCW.tVerts, cornerBoxCW.tVerts⟩

/-- The first seed of `GJK` on `cornerCtx` with id 0: the support point along
`perp(centre1 - centre2) = (3/2, -3/2)`, with `ab = (7/2, -1/2)`. -/
def cornerV0 : MinkowskiPoint ℚ := Support cornerCtx (cpv (3 / 2) (-3 / 2))

/-- The second seed of `GJK` on `cornerCtx` with id 0, with `ab = (-1/2, 7/2)`. -/
def cornerV1 : MinkowskiPoint ℚ := Support cornerCtx (cpv (-3 / 2) (3 / 2))

/-- The polygon `unitBoxCW` whose vertex array is followed in memory by the two cells `(0, 0)`
and `(5, 0)`: the count is still 4 and the four vertices are the same. -/
def staleBoxCW : cpPolyShape ℚ :=
  { unitBoxCW with
    tVerts := vertsOfList [cpv (-1) (-1), cpv (-1) 1, cpv 1 1, cpv 1 (-1), cpv 0 0, cpv 5 0] }

/-- The box `[2, 4] × [-1, 1]` over the rationals, clockwise, at address 2: one unit to the
right of `unitBoxCW`. -/
def farBoxCW : cpPolyShape ℚ := boxPolyCW 2 2 (-1) 4 1

/-- The concrete environment `ratEnv` with `CPFLOAT_MIN` replaced by 0, as when the addition
of `CPFLOAT_MIN` is absorbed by rounding. -/
def ratEnv0 : cpEnv ℚ := ⟨Rat.sqrt, 0, hashPair64, fun _ _ _ => false⟩

/-- The square of half-extent 1 centred at `(0, 0)`, counter-clockwise, at address 1. -/
def squareA : cpPolyShape ℚ := boxPolyCCW 1 (-1) (-1) 1 1

/-- The square of half-extent 1 centred at `(3/2, 0)`, counter-clockwise, at address 2. -/
def squareB : cpPolyShape ℚ := boxPolyCCW 2 (1 / 2) (-1) (5 / 2) 1

/-- The Minkowski point of vertex `(0, 0)` of the first shape and `(0, 1)` of the second. -/
def collinearV0 : MinkowskiPoint ℚ := ⟨cpv 0 0, cpv 0 1, cpv 0 1, 512⟩

/-- The Minkowski point of vertex `(0, -1)` of the first shape and `(0, 2)` of the second. -/
def collinearV1 : MinkowskiPoint ℚ := ⟨cpv 0 (-1), cpv 0 2, cpv 0 3, 259⟩

/-- The circle of centre `(2, 0)` and radius `1/2` over the rationals, at address 3. -/
def farCircle : cpCircleShape ℚ := circleAt 3 2 0 (1 / 2)

/-- The edge from `(0,0)` to `(2,0)` with endpoint hashes 1 and 2, radius 0: it is parallel
to the normal `(1, 0)`, so `ContactPoints` divides by zero for it. -/
def alongEdge : Edge ℚ := ⟨⟨cpv 0 0, 1⟩, ⟨cpv 2 0, 2⟩, 0, cpv 0 1⟩

/-- The same edge from `(2,0)` to `(0,0)`. -/
def backEdge : Edge ℚ := ⟨⟨cpv 2 0, 1⟩, ⟨cpv 0 0, 2⟩, 0, cpv 0 (-1)⟩

/-- The edge from `(1,-1)` to `(1,1)` with endpoint hashes 3 and 4, radius 0. -/
def acrossEdge : Edge ℚ := ⟨⟨cpv 1 (-1), 3⟩, ⟨cpv 1 1, 4⟩, 0, cpv (-1) 0⟩

/-- The edge from `(1,2)` to `(1,-2)` with endpoint hashes 3 and 4, radius 0. -/
def tallEdge : Edge ℚ := ⟨⟨cpv 1 2, 3⟩, ⟨cpv 1 (-2), 4⟩, 0, cpv 1 0⟩

/-- A closest-points record with normal `(1, 0)` and distance `-1`. -/
def alongPoints : ClosestPoints ℚ := ⟨cpv 1 0, cpv 1 0, cpv 1 0, -1, 0⟩

theorem cpfclamp01_bounds (f : K) : 0 ≤ cpfclamp01 f ∧ cpfclamp01 f ≤ 1 := by
  unfold cpfclamp01 cpfmax cpfmin
  split_ifs <;> constructor <;> linarith

theorem cpfclamp01X_bounds (f : cpFloatX K) : 0 ≤ cpfclamp01X f ∧ cpfclamp01X f ≤ 1 := by
  cases f with
  | fin x => exact cpfclamp01_bounds x
  | posInf => exact ⟨zero_le_one, le_refl _⟩
  | negInf => exact ⟨le_refl _, zero_le_one⟩
  | nan => exact ⟨zero_le_one, le_refl _⟩

theorem cpfdivSq_of_ne (x y : K) (h : y ≠ 0) : cpfdivSq x y = .fin (x / y) := by
  unfold cpfdivSq
  rw [if_neg h]

theorem cpfdivSq_zero (y : K) (h : y = 0) : cpfdivSq 0 y = .nan := by
  unfold cpfdivSq
  rw [if_pos h, if_pos rfl]

/-- The projection parameter of `circle2segment` for a divisor that is not zero: the clamped
quotient. -/
theorem cpfclamp01X_divSq_of_ne (x y : K) (h : y ≠ 0) :
    cpfclamp01X (cpfdivSq x y) = cpfclamp01 (x / y) := by
  rw [cpfdivSq_of_ne x y h]
  rfl

/-- The clip parameter of `ContactPoints` for an edge that is not parallel to the normal: the
clamped quotient. -/
theorem clip_of_ne (x z : K) (neg : Bool) (h : z ≠ 0) :
    cpfclamp01X (cpfmulX x (cpfrecip z neg)) = cpfclamp01 (x * (1 / z)) := by
  unfold cpfrecip
  rw [if_neg h]
  rfl

/-- The clip parameter of `ContactPoints` for an edge parallel to the normal: 1 when the
factor is zero (a NaN) or has the sign of the infinity, 0 otherwise. -/
theorem clip_of_eq (x z : K) (neg : Bool) (h : z = 0) :
    cpfclamp01X (cpfmulX x (cpfrecip z neg)) =
      if x = 0 then 1 else if (decide (0 < x)) = !neg then 1 else 0 := by
  unfold cpfrecip
  rw [if_pos h]
  by_cases hx : x = 0
  · cases neg <;> simp [cpfmulX, cpfclamp01X, hx]
  · by_cases hp : 0 < x
    · cases neg <;> simp [cpfmulX, cpfclamp01X, hx, hp]
    · cases neg <;> simp [cpfmulX, cpfclamp01X, hx, hp]

theorem clip_zero_or_one (x z : K) (neg : Bool) (h : z = 0) :
    cpfclamp01X (cpfmulX x (cpfrecip z neg)) = 0 ∨
      cpfclamp01X (cpfmulX x (cpfrecip z neg)) = 1 := by
  rw [clip_of_eq x z neg h]
  split_ifs
  · exact Or.inr rfl
  · exact Or.inr rfl
  · exact Or.inl rfl

/-! ### Helper lemmas on vectors and the square root -/

theorem cpvlengthsq_nonneg (v : cpVect K) : 0 ≤ cpvlengthsq v := by
  unfold cpvlengthsq cpvdot
  nlinarith [mul_self_nonneg v.x, mul_self_nonneg v.y]

theorem cpvdot_self_nonneg (v : cpVect K) : 0 ≤ cpvdot v v := cpvlengthsq_nonneg v

theorem cpvlengthsq_sub_eq_zero_iff (p1 p2 : cpVect K) :
    cpvlengthsq (cpvsub p2 p1) = 0 ↔ p1 = p2 := by
  unfold cpvlengthsq cpvdot cpvsub
  constructor
  · intro h
    dsimp only at h
    have hx : (p2.x - p1.x) * (p2.x - p1.x) = 0 := by
      nlinarith [mul_self_nonneg (p2.x - p1.x), mul_self_nonneg (p2.y - p1.y)]
    have hy : (p2.y - p1.y) * (p2.y - p1.y) = 0 := by
      nlinarith [mul_self_nonneg (p2.x - p1.x), mul_self_nonneg (p2.y - p1.y)]
    have hx2 : p2.x - p1.x = 0 := mul_self_eq_zero.mp hx
    have hy2 : p2.y - p1.y = 0 := mul_self_eq_zero.mp hy
    ext
    · exact (sub_eq_zero.mp hx2).symm
    · exact (sub_eq_zero.mp hy2).symm
  · rintro rfl
    simp

theorem cpvlengthsq_sub_pos (a b : cpVect K) (h : a ≠ b) : 0 < cpvlengthsq (cpvsub b a) := by
  rcases lt_or_eq_of_le (cpvlengthsq_nonneg (cpvsub b a)) with h1 | h1
  · exact h1
  · exact absurd ((cpvlengthsq_sub_eq_zero_iff a b).mp h1.symm) h

theorem ExactSqrt.lt_iff {F : cpEnv K} (hF : F.ExactSqrt) {x m : K} (hx : 0 ≤ x)
    (hm : 0 ≤ m) : F.cpfsqrt x < m ↔ x < m * m := by
  obtain ⟨h0, h1⟩ := hF x hx
  constructor
  · intro h
    calc x = F.cpfsqrt x * F.cpfsqrt x := h1.symm
      _ < m * m := mul_self_lt_mul_self h0 h
  · intro h
    by_contra hc
    have hle : m ≤ F.cpfsqrt x := not_lt.mp hc
    have : m * m ≤ F.cpfsqrt x * F.cpfsqrt x := mul_self_le_mul_self hm hle
    rw [h1] at this
    exact absurd h (not_lt.mpr this)

theorem ExactSqrt.eq_zero_iff {F : cpEnv K} (hF : F.ExactSqrt) {x : K} (hx : 0 ≤ x) :
    F.cpfsqrt x = 0 ↔ x = 0 := by
  obtain ⟨_, h1⟩ := hF x hx
  constructor
  · intro h
    rw [← h1, h, mul_zero]
  · intro h
    subst h
    exact mul_self_eq_zero.mp h1

theorem ExactSqrt.eq_of_mul_self {F : cpEnv K} (hF : F.ExactSqrt) {x s : K} (hs : 0 ≤ s)
    (h : s * s = x) : F.cpfsqrt x = s := by
  have hx : 0 ≤ x := h ▸ mul_self_nonneg s
  obtain ⟨h0, h1⟩ := hF x hx
  have : F.cpfsqrt x * F.cpfsqrt x = s * s := by rw [h1, h]
  exact (mul_self_inj h0 hs).mp this

/-- The general form of `circle2circleQuery`, with the guard and the normal in the terms of
the distance between the centres. -/
theorem circle2circleQuery_eq (F : cpEnv K) (hF : F.ExactSqrt) (p1 p2 : cpVect K) (r1 r2 : K)
    (hash : Nat) (info : cpCollisionInfo K) (hr : 0 ≤ r1 + r2) :
    circle2circleQuery F p1 p2 r1 r2 hash info =
      if cpvlength F (cpvsub p2 p1) < r1 + r2 then
        cpCollisionInfoPushContact info
          (cpvsub (cpvlerp p1 p2 (r1 / (r1 + r2))) info.a.body.p)
          (cpvsub (cpvlerp p1 p2 (r1 / (r1 + r2))) info.b.body.p)
          (if p1 = p2 then cpv 1 0
            else cpvmult (cpvsub p2 p1) (1 / cpvlength F (cpvsub p2 p1)))
          (cpvlength F (cpvsub p2 p1) - (r1 + r2)) hash
      else info := by
  have hx : 0 ≤ cpvlengthsq (cpvsub p2 p1) := cpvlengthsq_nonneg _
  have hlt := ExactSqrt.lt_iff hF hx hr
  have hz := ExactSqrt.eq_zero_iff hF hx
  unfold circle2circleQuery cpvlength
  change (if cpvlengthsq (cpvsub p2 p1) < (r1 + r2) * (r1 + r2) then _ else _) =
    (if F.cpfsqrt (cpvlengthsq (cpvsub p2 p1)) < r1 + r2 then _ else _)
  by_cases h : cpvlengthsq (cpvsub p2 p1) < (r1 + r2) * (r1 + r2)
  · rw [if_pos h, if_pos (hlt.mpr h)]
    by_cases hp : p1 = p2
    · have h0 : F.cpfsqrt (cpvlengthsq (cpvsub p2 p1)) = 0 :=
        hz.mpr ((cpvlengthsq_sub_eq_zero_iff p1 p2).mpr hp)
      subst hp
      simp only [cpvlengthsq] at h0
      simp [h0, cpvlengthsq]
    · have h0 : F.cpfsqrt (cpvlengthsq (cpvsub p2 p1)) ≠ 0 := fun hc =>
        hp ((cpvlengthsq_sub_eq_zero_iff p1 p2).mp (hz.mp hc))
      simp only [cpvlengthsq] at h0
      simp [h0, hp, cpvlengthsq]
  · rw [if_neg h, if_neg (fun hc => h (hlt.mp hc))]

theorem realSqrt_exact (m : ℝ) (h : Nat → Nat → Nat)
    (z : cpVect ℝ → cpVect ℝ → cpVect ℝ → Bool) :
    (⟨Real.sqrt, m, h, z⟩ : cpEnv ℝ).ExactSqrt :=
  fun x hx => ⟨Real.sqrt_nonneg x, Real.mul_self_sqrt hx⟩

/-! ### C2: the circle-circle query -/

/-- C2: with an exact square root and radii `r1, r2 ≥ 0`, `circle2circleQuery` pushes exactly
one contact when `|p2 - p1| < r1 + r2` and leaves the info untouched otherwise; the contact
has normal `(p2 - p1)/|p2 - p1|` (`(1,0)` when `p1 = p2`), depth `|p2 - p1| - (r1 + r2)` and
both positions are `lerp(p1, p2, r1/(r1+r2))` minus the position of body a, resp. b.  The
three scenarios of the spec follow: unit circles at `(0,0)`, `(1,0)` give one contact with
`n = (1,0)`, depth `-1` at world point `(1/2, 0)`; at `(0,0)`, `(3,0)` no contact; coincident
unit circles give `n = (1,0)` and depth `-2`. -/
theorem C2_circle2circleQuery (F : cpEnv K) (hF : F.ExactSqrt) :
    (∀ (p1 p2 : cpVect K) (r1 r2 : K) (hash : Nat) (info : cpCollisionInfo K),
      0 ≤ r1 → 0 ≤ r2 →
      (cpvlength F (cpvsub p2 p1) < r1 + r2 →
        (circle2circleQuery F p1 p2 r1 r2 hash info).count = info.count + 1 ∧
        (circle2circleQuery F p1 p2 r1 r2 hash info).n =
          (if p1 = p2 then cpv 1 0
            else cpvmult (cpvsub p2 p1) (1 / cpvlength F (cpvsub p2 p1))) ∧
        (circle2circleQuery F p1 p2 r1 r2 hash info).arr info.count =
          ⟨cpvsub (cpvlerp p1 p2 (r1 / (r1 + r2))) info.a.body.p,
           cpvsub (cpvlerp p1 p2 (r1 / (r1 + r2))) info.b.body.p,
           cpvlength F (cpvsub p2 p1) - (r1 + r2), hash⟩ ∧
        (∀ j, j ≠ info.count →
          (circle2circleQuery F p1 p2 r1 r2 hash info).arr j = info.arr j)) ∧
      (¬ cpvlength F (cpvsub p2 p1) < r1 + r2 →
        circle2circleQuery F p1 p2 r1 r2 hash info = info)) ∧
    (∀ (hash : Nat) (info : cpCollisionInfo K),
      (circle2circleQuery F (cpv 0 0) (cpv 1 0) 1 1 hash info).count = info.count + 1 ∧
      (circle2circleQuery F (cpv 0 0) (cpv 1 0) 1 1 hash info).n = cpv 1 0 ∧
      (circle2circleQuery F (cpv 0 0) (cpv 1 0) 1 1 hash info).arr info.count =
        ⟨cpvsub (cpv (1 / 2) 0) info.a.body.p, cpvsub (cpv (1 / 2) 0) info.b.body.p,
         -1, hash⟩) ∧
    (∀ (hash : Nat) (info : cpCollisionInfo K),
      circle2circleQuery F (cpv 0 0) (cpv 3 0) 1 1 hash info = info) ∧
    (∀ (hash : Nat) (info : cpCollisionInfo K),
      (circle2circleQuery F (cpv 0 0) (cpv 0 0) 1 1 hash info).count = info.count + 1 ∧
      (circle2circleQuery F (cpv 0 0) (cpv 0 0) 1 1 hash info).n = cpv 1 0 ∧
      ((circle2circleQuery F (cpv 0 0) (cpv 0 0) 1 1 hash info).arr info.count).dist = -2) := by
  have h1 : F.cpfsqrt 1 = 1 := ExactSqrt.eq_of_mul_self hF zero_le_one (by norm_num)
  have h0 : F.cpfsqrt 0 = 0 := ExactSqrt.eq_of_mul_self hF le_rfl (by norm_num)
  have h9 : F.cpfsqrt 9 = 3 := ExactSqrt.eq_of_mul_self hF (by norm_num) (by norm_num)
  have h2 : (0 : K) ≤ 1 + 1 := by norm_num
  refine ⟨?_, ?_, ?_, ?_⟩
  · intro p1 p2 r1 r2 hash info hr1 hr2
    have hq := circle2circleQuery_eq F hF p1 p2 r1 r2 hash info (add_nonneg hr1 hr2)
    constructor
    · intro hlt
      rw [if_pos hlt] at hq
      rw [hq]
      refine ⟨rfl, rfl, ?_, ?_⟩
      · simp [cpCollisionInfoPushContact]
      · intro j hj
        simp [cpCollisionInfoPushContact, Function.update, hj]
    · intro hlt
      rw [if_neg hlt] at hq
      exact hq
  · intro hash info
    have hq := circle2circleQuery_eq F hF (cpv 0 0) (cpv 1 0) 1 1 hash info h2
    have hl : cpvlength F (cpvsub (cpv 1 0) (cpv (0 : K) 0)) = 1 := by
      simp [cpvlength, cpvsub, cpv, cpvdot, h1]
    have hne : (cpv (0 : K) 0) ≠ cpv 1 0 := by
      intro h
      have := congrArg cpVect.x h
      simp [cpv] at this
    rw [hl, if_pos (by norm_num), if_neg hne] at hq
    rw [hq]
    refine ⟨rfl, ?_, ?_⟩
    · simp [cpCollisionInfoPushContact, cpvmult, cpvsub, cpv]
    · simp only [cpCollisionInfoPushContact, Function.update_same]
      have hP : cpvlerp (cpv (0 : K) 0) (cpv 1 0) (1 / (1 + 1)) = cpv (1 / 2) 0 := by
        simp only [cpvlerp, cpvadd, cpvmult, cpv]
        norm_num
      rw [hP]
      norm_num
  · intro hash info
    have hq := circle2circleQuery_eq F hF (cpv 0 0) (cpv 3 0) 1 1 hash info h2
    have hl : cpvlength F (cpvsub (cpv 3 0) (cpv (0 : K) 0)) = 3 := by
      have : (3 : K) * 3 = 9 := by norm_num
      simp [cpvlength, cpvsub, cpv, cpvdot, this, h9]
    rw [hl, if_neg (by norm_num)] at hq
    exact hq
  · intro hash info
    have hq := circle2circleQuery_eq F hF (cpv 0 0) (cpv 0 0) 1 1 hash info h2
    have hl : cpvlength F (cpvsub (cpv 0 0) (cpv (0 : K) 0)) = 0 := by
      simp [cpvlength, cpvsub, cpv, cpvdot, h0]
    rw [hl, if_pos (by norm_num), if_pos rfl] at hq
    rw [hq]
    refine ⟨rfl, rfl, ?_⟩
    simp only [cpCollisionInfoPushContact, Function.update_same]
    norm_num

/-- Witness of C2 on the reals with the real square root: the general statement at the unit
circles centred at `(0,0)` and `(1,0)`, and the separated pair at `(0,0)` and `(3,0)`. -/
theorem C2_circle2circleQuery_witness :
    (⟨Real.sqrt, 0, fun _ _ => 0, fun _ _ _ => false⟩ : cpEnv ℝ).ExactSqrt ∧ (0 : ℝ) ≤ 1 ∧
    cpvlength ⟨Real.sqrt, 0, fun _ _ => 0, fun _ _ _ => false⟩
        (cpvsub (cpv 1 0) (cpv (0 : ℝ) 0)) < 1 + 1 ∧
    (circle2circleQuery ⟨Real.sqrt, 0, fun _ _ => 0, fun _ _ _ => false⟩ (cpv 0 0) (cpv 1 0) 1 1 7
      (freshInfo (.circle (circleAt 1 0 0 1)) (.circle (circleAt 2 1 0 (1 : ℝ))) 0)).count
      = 0 + 1 ∧
    (circle2circleQuery ⟨Real.sqrt, 0, fun _ _ => 0, fun _ _ _ => false⟩ (cpv 0 0) (cpv 3 0) 1 1 7
      (freshInfo (.circle (circleAt 1 0 0 1)) (.circle (circleAt 2 3 0 (1 : ℝ))) 0)).count
      = 0 := by
  have hlen :
      cpvlength ⟨Real.sqrt, 0, fun _ _ => 0, fun _ _ _ => false⟩
          (cpvsub (cpv 1 0) (cpv (0 : ℝ) 0)) < 1 + 1 := by
    simp only [cpvlength, cpvsub, cpv, cpvdot]
    norm_num
  refine ⟨realSqrt_exact 0 _ _, zero_le_one, hlen, ?_, ?_⟩
  · exact (((C2_circle2circleQuery ⟨Real.sqrt, 0, fun _ _ => 0, fun _ _ _ => false⟩
      (realSqrt_exact 0 _ _)).1
      (cpv 0 0) (cpv 1 0) 1 1 7
      (freshInfo (.circle (circleAt 1 0 0 1)) (.circle (circleAt 2 1 0 1)) 0)
      zero_le_one zero_le_one).1 hlen).1
  · rw [(C2_circle2circleQuery ⟨Real.sqrt, 0, fun _ _ => 0, fun _ _ _ => false⟩
      (realSqrt_exact 0 _ _)).2.2.1]
    rfl

/-! ### C1: at most two contacts -/

theorem circle2circleQuery_count (F : cpEnv K) (p1 p2 : cpVect K) (r1 r2 : K) (hash : Nat)
    (info : cpCollisionInfo K) :
    (circle2circleQuery F p1 p2 r1 r2 hash info).count = info.count ∨
    (circle2circleQuery F p1 p2 r1 r2 hash info).count = info.count + 1 := by
  unfold circle2circleQuery
  dsimp only
  split_ifs
  · right; rfl
  · right; rfl
  · left; rfl

theorem ContactPoints_count (F : cpEnv K) (e1 e2 : Edge K) (points : ClosestPoints K)
    (info : cpCollisionInfo K) :
    info.count ≤ (ContactPoints F e1 e2 points info).count ∧
    (ContactPoints F e1 e2 points info).count ≤ info.count + 2 := by
  unfold ContactPoints
  dsimp only
  split_ifs <;> (try simp only [cpCollisionInfoPushContact]) <;> constructor <;> omega

theorem circle2segment_count (F : cpEnv K) (c : cpCircleShape K) (s : cpSegmentShape K)
    (info : cpCollisionInfo K) (h0 : info.count = 0) :
    0 ≤ (circle2segment F c s info).count ∧ (circle2segment F c s info).count ≤ 1 := by
  unfold circle2segment
  dsimp only
  rcases circle2circleQuery_count F c.tc
      (cpvadd s.ta (cpvmult (cpvsub s.tb s.ta)
        (cpfclamp01X (cpfdivSq (cpvdot (cpvsub s.tb s.ta) (cpvsub c.tc s.ta))
          (cpvlengthsq (cpvsub s.tb s.ta)))))) c.r s.r 0 info with h | h
  all_goals
    split_ifs <;> (try simp only []) <;> constructor <;> omega

theorem circle2poly_count (F : cpEnv K) (c : cpCircleShape K) (p : cpPolyShape K)
    (info : cpCollisionInfo K) (h0 : info.count = 0) :
    0 ≤ (circle2poly F c p info).count ∧ (circle2poly F c p info).count ≤ 1 := by
  unfold circle2poly
  dsimp only
  cases circle2polyLoop c p p.numVerts.toNat with
  | none => simp only []; omega
  | some mm =>
    obtain ⟨min, mini⟩ := mm
    simp only []
    split_ifs
    · rcases circle2circleQuery_count F c.tc (p.tVerts mini) c.r p.r 0 info with h | h <;>
        constructor <;> omega
    · simp only [cpCollisionInfoPushContact]
      omega
    · rcases circle2circleQuery_count F c.tc
        (p.tVerts ((mini - 1 + p.numVerts).tmod p.numVerts)) c.r p.r 0 info with h | h <;>
        constructor <;> omega

theorem segment2segment_count (F : cpEnv K) (s1 s2 : cpSegmentShape K)
    (info : cpCollisionInfo K) (h0 : info.count = 0) :
    0 ≤ (segment2segment F s1 s2 info).count ∧ (segment2segment F s1 s2 info).count ≤ 2 := by
  unfold segment2segment
  dsimp only
  split_ifs
  · have h := ContactPoints_count F
      (SupportEdgeForSegment F s1
        (GJK F ⟨.segment s1, .segment s2, 2, 2, segVerts s1, segVerts s2⟩ info.id).1.n)
      (SupportEdgeForSegment F s2 (cpvneg
        (GJK F ⟨.segment s1, .segment s2, 2, 2, segVerts s1, segVerts s2⟩ info.id).1.n))
      (GJK F ⟨.segment s1, .segment s2, 2, 2, segVerts s1, segVerts s2⟩ info.id).1
      { info with
        id := (GJK F ⟨.segment s1, .segment s2, 2, 2, segVerts s1, segVerts s2⟩ info.id).2 }
    simp only [] at h
    constructor <;> omega
  · simp only []
    omega

theorem poly2poly_count (F : cpEnv K) (p1 p2 : cpPolyShape K)
    (info : cpCollisionInfo K) (h0 : info.count = 0) :
    0 ≤ (poly2poly F p1 p2 info).count ∧ (poly2poly F p1 p2 info).count ≤ 2 := by
  unfold poly2poly
  dsimp only
  split_ifs
  · have h := ContactPoints_count F
      (SupportEdgeForPoly F p1
        (GJK F ⟨.poly p1, .poly p2, p1.numVerts, p2.numVerts, p1.tVerts, p2.tVerts⟩
          info.id).1.n)
      (SupportEdgeForPoly F p2 (cpvneg
        (GJK F ⟨.poly p1, .poly p2, p1.numVerts, p2.numVerts, p1.tVerts, p2.tVerts⟩
          info.id).1.n))
      (GJK F ⟨.poly p1, .poly p2, p1.numVerts, p2.numVerts, p1.tVerts, p2.tVerts⟩ info.id).1
      { info with
        id := (GJK F ⟨.poly p1, .poly p2, p1.numVerts, p2.numVerts, p1.tVerts, p2.tVerts⟩
          info.id).2 }
    simp only [] at h
    constructor <;> omega
  · simp only []
    omega

theorem seg2poly_count (F : cpEnv K) (s : cpSegmentShape K) (p : cpPolyShape K)
    (info : cpCollisionInfo K) (h0 : info.count = 0) :
    0 ≤ (seg2poly F s p info).count ∧ (seg2poly F s p info).count ≤ 2 := by
  unfold seg2poly
  dsimp only
  split_ifs
  · have h := ContactPoints_count F
      (SupportEdgeForSegment F s
        (GJK F ⟨.segment s, .poly p, 2, p.numVerts, segVerts s, p.tVerts⟩ info.id).1.n)
      (SupportEdgeForPoly F p (cpvneg
        (GJK F ⟨.segment s, .poly p, 2, p.numVerts, segVerts s, p.tVerts⟩ info.id).1.n))
      (GJK F ⟨.segment s, .poly p, 2, p.numVerts, segVerts s, p.tVerts⟩ info.id).1
      { info with
        id := (GJK F ⟨.segment s, .poly p, 2, p.numVerts, segVerts s, p.tVerts⟩ info.id).2 }
    simp only [] at h
    constructor <;> omega
  · simp only []
    omega

theorem Reachable.colfuncs_eq {F : cpEnv K} {g : Globals K} (hg : Globals.Reachable F g) :
    g.colfuncs = builtinCollisionFuncs F ∨ g.colfuncs = segmentCollisions F := by
  cases hg with
  | start => left; rfl
  | enable g0 _ => right; rfl

theorem cpCollideShapes_builtin (F : cpEnv K) (a b : cpShapePtr K) (id : Nat)
    (contacts : Int → cpContact K) :
    cpCollideShapes ⟨builtinCollisionFuncs F⟩ a b id contacts =
      match a, b with
      | .circle c1, .circle c2 => circle2circle F c1 c2 ⟨a, b, id, cpvzero, 0, contacts⟩
      | .circle c, .segment s => circle2segment F c s ⟨a, b, id, cpvzero, 0, contacts⟩
      | .circle c, .poly p => circle2poly F c p ⟨a, b, id, cpvzero, 0, contacts⟩
      | .segment s, .poly p => seg2poly F s p ⟨a, b, id, cpvzero, 0, contacts⟩
      | .poly p1, .poly p2 => poly2poly F p1 p2 ⟨a, b, id, cpvzero, 0, contacts⟩
      | _, _ => ⟨a, b, id, cpvzero, 0, contacts⟩ := by
  cases a <;> cases b <;> rfl

theorem cpCollideShapes_segmentCollisions (F : cpEnv K) (a b : cpShapePtr K) (id : Nat)
    (contacts : Int → cpContact K) :
    cpCollideShapes ⟨segmentCollisions F⟩ a b id contacts =
      match a, b with
      | .circle c1, .circle c2 => circle2circle F c1 c2 ⟨a, b, id, cpvzero, 0, contacts⟩
      | .circle c, .segment s => circle2segment F c s ⟨a, b, id, cpvzero, 0, contacts⟩
      | .segment s1, .segment s2 => segment2segment F s1 s2 ⟨a, b, id, cpvzero, 0, contacts⟩
      | .circle c, .poly p => circle2poly F c p ⟨a, b, id, cpvzero, 0, contacts⟩
      | .segment s, .poly p => seg2poly F s p ⟨a, b, id, cpvzero, 0, contacts⟩
      | .poly p1, .poly p2 => poly2poly F p1 p2 ⟨a, b, id, cpvzero, 0, contacts⟩
      | _, _ => ⟨a, b, id, cpvzero, 0, contacts⟩ := by
  cases a <;> cases b <;> rfl

/-- C1: in either state of the segment-to-segment toggle, for every pair of shapes with
`type(a) ≤ type(b)`, every incoming id and every contact buffer, `cpCollideShapes` returns
`info.count ∈ {0, 1, 2}`, so the assertion `info.count ≤ CP_MAX_CONTACTS_PER_ARBITER` holds;
the circle handlers push at most one contact on a fresh info and `ContactPoints` pushes at
most two. -/
theorem C1_count_le_max_contacts (F : cpEnv K) (g : Globals K) (hg : Globals.Reachable F g)
    (a b : cpShapePtr K) (hab : a.type ≤ b.type) (id : Nat) (contacts : Int → cpContact K) :
    ((cpCollideShapes g a b id contacts).count = 0 ∨
      (cpCollideShapes g a b id contacts).count = 1 ∨
      (cpCollideShapes g a b id contacts).count = 2) ∧
    (cpCollideShapes g a b id contacts).count ≤ CP_MAX_CONTACTS_PER_ARBITER ∧
    (∀ (c1 c2 : cpCircleShape K) (info : cpCollisionInfo K), info.count = 0 →
      (circle2circle F c1 c2 info).count ≤ 1) ∧
    (∀ (c : cpCircleShape K) (s : cpSegmentShape K) (info : cpCollisionInfo K),
      info.count = 0 → (circle2segment F c s info).count ≤ 1) ∧
    (∀ (c : cpCircleShape K) (p : cpPolyShape K) (info : cpCollisionInfo K),
      info.count = 0 → (circle2poly F c p info).count ≤ 1) ∧
    (∀ (e1 e2 : Edge K) (points : ClosestPoints K) (info : cpCollisionInfo K),
      (ContactPoints F e1 e2 points info).count ≤ info.count + 2) := by
  have hcc : ∀ (c1 c2 : cpCircleShape K) (info : cpCollisionInfo K), info.count = 0 →
      0 ≤ (circle2circle F c1 c2 info).count ∧ (circle2circle F c1 c2 info).count ≤ 1 := by
    intro c1 c2 info h0
    unfold circle2circle
    rcases circle2circleQuery_count F c1.tc c2.tc c1.r c2.r 0 info with h | h <;>
      constructor <;> omega
  have key : 0 ≤ (cpCollideShapes g a b id contacts).count ∧
      (cpCollideShapes g a b id contacts).count ≤ 2 := by
    obtain ⟨tbl⟩ := g
    rcases Reachable.colfuncs_eq hg with h | h <;> simp only at h <;> subst h
    · rw [cpCollideShapes_builtin]
      cases a <;> cases b <;> simp only []
      all_goals first
        | exact (fun h => ⟨h.1, h.2.trans (by norm_num)⟩) (hcc _ _ _ rfl)
        | exact (fun h => ⟨h.1, h.2.trans (by norm_num)⟩) (circle2segment_count F _ _ _ rfl)
        | exact (fun h => ⟨h.1, h.2.trans (by norm_num)⟩) (circle2poly_count F _ _ _ rfl)
        | exact seg2poly_count F _ _ _ rfl
        | exact poly2poly_count F _ _ _ rfl
        | exact ⟨le_refl _, by norm_num⟩
    · rw [cpCollideShapes_segmentCollisions]
      cases a <;> cases b <;> simp only []
      all_goals first
        | exact (fun h => ⟨h.1, h.2.trans (by norm_num)⟩) (hcc _ _ _ rfl)
        | exact (fun h => ⟨h.1, h.2.trans (by norm_num)⟩) (circle2segment_count F _ _ _ rfl)
        | exact (fun h => ⟨h.1, h.2.trans (by norm_num)⟩) (circle2poly_count F _ _ _ rfl)
        | exact segment2segment_count F _ _ _ rfl
        | exact seg2poly_count F _ _ _ rfl
        | exact poly2poly_count F _ _ _ rfl
        | exact ⟨le_refl _, by norm_num⟩
  refine ⟨?_, ?_, ?_, ?_, ?_, ?_⟩
  · omega
  · simp only [CP_MAX_CONTACTS_PER_ARBITER]
    exact key.2
  · exact fun c1 c2 info h0 => (hcc c1 c2 info h0).2
  · exact fun c s info h0 => (circle2segment_count F c s info h0).2
  · exact fun c p info h0 => (circle2poly_count F c p info h0).2
  · exact fun e1 e2 points info => (ContactPoints_count F e1 e2 points info).2

/-- Witness of C1: two unit circles, before the segment-to-segment handler is enabled. -/
theorem C1_count_le_max_contacts_witness :
    Globals.Reachable ratEnv (Globals.initial ratEnv) ∧
    (cpShapePtr.circle (circleAt 1 0 0 (1 : ℚ))).type ≤
      (cpShapePtr.circle (circleAt 2 1 0 (1 : ℚ))).type ∧
    (cpCollideShapes (Globals.initial ratEnv) (.circle (circleAt 1 0 0 1))
      (.circle (circleAt 2 1 0 1)) 0 zeroContacts).count ≤ CP_MAX_CONTACTS_PER_ARBITER :=
  ⟨Globals.Reachable.start, le_refl _,
   (C1_count_le_max_contacts ratEnv (Globals.initial ratEnv) Globals.Reachable.start
      (.circle (circleAt 1 0 0 1)) (.circle (circleAt 2 1 0 1)) (le_refl _) 0
      zeroContacts).2.1⟩

/-! ### C4: contact clipping -/

/-- C4: `ContactPoints` leaves the info untouched when `points.d > e1.r + e2.r`.  Otherwise,
with `n = points.n`, the four clip parameters lie in `[0, 1]`, each of the two pairings forms
`r1 = n*e1.r + lerp(e1.a, e1.b, t1)` and `r2 = -n*e2.r + lerp(e2.a, e2.b, t2)` and pushes a
contact exactly when `dist = dot(r2 - r1, n) ≤ 0`, first pairing first; a pushed contact has
the shared normal `n`, depth `dist` and positions `r1 - body_a.p`, `r2 - body_b.p`, so every
contact added has depth `≤ 0`.  The clip parameters are those the code computes: the clamped
quotient for an edge that is not parallel to `n`, and 0 or 1 for an edge parallel to `n`,
where the code divides by zero and clamps an infinity or a NaN. -/
theorem C4_ContactPoints (F : cpEnv K) (e1 e2 : Edge K) (points : ClosestPoints K)
    (info : cpCollisionInfo K) :
    (points.d > e1.r + e2.r → ContactPoints F e1 e2 points info = info) ∧
    (points.d ≤ e1.r + e2.r →
      let n := points.n
      let e1_denom := cpfrecip (cpvcross e1.b.p n - cpvcross e1.a.p n)
        (F.negZero e1.a.p e1.b.p n)
      let e2_denom := cpfrecip (cpvcross e2.b.p n - cpvcross e2.a.p n)
        (F.negZero e2.a.p e2.b.p n)
      let t1 := cpfclamp01X (cpfmulX (cpvcross e2.b.p n - cpvcross e1.a.p n) e1_denom)
      let t2 := cpfclamp01X (cpfmulX (cpvcross e1.a.p n - cpvcross e2.a.p n) e2_denom)
      let u1 := cpfclamp01X (cpfmulX (cpvcross e2.a.p n - cpvcross e1.a.p n) e1_denom)
      let u2 := cpfclamp01X (cpfmulX (cpvcross e1.b.p n - cpvcross e2.a.p n) e2_denom)
      let r1 := cpvadd (cpvmult n e1.r) (cpvlerp e1.a.p e1.b.p t1)
      let r2 := cpvadd (cpvmult n (-e2.r)) (cpvlerp e2.a.p e2.b.p t2)
      let s1 := cpvadd (cpvmult n e1.r) (cpvlerp e1.a.p e1.b.p u1)
      let s2 := cpvadd (cpvmult n (-e2.r)) (cpvlerp e2.a.p e2.b.p u2)
      let dist := cpvdot (cpvsub r2 r1) n
      let dist2 := cpvdot (cpvsub s2 s1) n
      let c1 : cpContact K := ⟨cpvsub r1 info.a.body.p, cpvsub r2 info.b.body.p, dist,
        F.CP_HASH_PAIR e1.a.hash e2.b.hash⟩
      let c2 : cpContact K := ⟨cpvsub s1 info.a.body.p, cpvsub s2 info.b.body.p, dist2,
        F.CP_HASH_PAIR e1.b.hash e2.a.hash⟩
      let out := ContactPoints F e1 e2 points info
      (0 ≤ t1 ∧ t1 ≤ 1) ∧ (0 ≤ t2 ∧ t2 ≤ 1) ∧ (0 ≤ u1 ∧ u1 ≤ 1) ∧ (0 ≤ u2 ∧ u2 ≤ 1) ∧
      (cpvcross e1.b.p n ≠ cpvcross e1.a.p n →
        t1 = cpfclamp01 ((cpvcross e2.b.p n - cpvcross e1.a.p n) *
          (1 / (cpvcross e1.b.p n - cpvcross e1.a.p n))) ∧
        u1 = cpfclamp01 ((cpvcross e2.a.p n - cpvcross e1.a.p n) *
          (1 / (cpvcross e1.b.p n - cpvcross e1.a.p n)))) ∧
      (cpvcross e2.b.p n ≠ cpvcross e2.a.p n →
        t2 = cpfclamp01 ((cpvcross e1.a.p n - cpvcross e2.a.p n) *
          (1 / (cpvcross e2.b.p n - cpvcross e2.a.p n))) ∧
        u2 = cpfclamp01 ((cpvcross e1.b.p n - cpvcross e2.a.p n) *
          (1 / (cpvcross e2.b.p n - cpvcross e2.a.p n)))) ∧
      (cpvcross e1.b.p n = cpvcross e1.a.p n → (t1 = 0 ∨ t1 = 1) ∧ (u1 = 0 ∨ u1 = 1)) ∧
      (cpvcross e2.b.p n = cpvcross e2.a.p n → (t2 = 0 ∨ t2 = 1) ∧ (u2 = 0 ∨ u2 = 1)) ∧
      out.count = info.count + (if dist ≤ 0 then 1 else 0) + (if dist2 ≤ 0 then 1 else 0) ∧
      (dist ≤ 0 → out.arr info.count = c1) ∧
      (dist2 ≤ 0 → out.arr (info.count + (if dist ≤ 0 then 1 else 0)) = c2) ∧
      (dist ≤ 0 ∨ dist2 ≤ 0 → out.n = n) ∧
      (¬ dist ≤ 0 → ¬ dist2 ≤ 0 → out = info) ∧
      (∀ j, j < info.count ∨ out.count ≤ j → out.arr j = info.arr j) ∧
      (∀ j, info.count ≤ j → j < out.count → (out.arr j).dist ≤ 0)) := by
  constructor
  · intro h
    unfold ContactPoints
    simp only [if_neg (not_le.mpr h)]
  · intro h
    intro n e1_denom e2_denom t1 t2 u1 u2 r1 r2 s1 s2 dist dist2 c1 c2 out
    refine ⟨cpfclamp01X_bounds _, cpfclamp01X_bounds _, cpfclamp01X_bounds _,
      cpfclamp01X_bounds _, ?_, ?_, ?_, ?_, ?_⟩
    · intro hne
      exact ⟨clip_of_ne _ _ _ (sub_ne_zero.mpr hne), clip_of_ne _ _ _ (sub_ne_zero.mpr hne)⟩
    · intro hne
      exact ⟨clip_of_ne _ _ _ (sub_ne_zero.mpr hne), clip_of_ne _ _ _ (sub_ne_zero.mpr hne)⟩
    · intro heq
      exact ⟨clip_zero_or_one _ _ _ (sub_eq_zero.mpr heq),
        clip_zero_or_one _ _ _ (sub_eq_zero.mpr heq)⟩
    · intro heq
      exact ⟨clip_zero_or_one _ _ _ (sub_eq_zero.mpr heq),
        clip_zero_or_one _ _ _ (sub_eq_zero.mpr heq)⟩
    have hout : out =
        if dist2 ≤ 0 then
          cpCollisionInfoPushContact
            (if dist ≤ 0 then
              cpCollisionInfoPushContact info (cpvsub r1 info.a.body.p)
                (cpvsub r2 info.b.body.p) n dist (F.CP_HASH_PAIR e1.a.hash e2.b.hash)
            else info)
            (cpvsub s1 info.a.body.p) (cpvsub s2 info.b.body.p) n dist2
            (F.CP_HASH_PAIR e1.b.hash e2.a.hash)
        else
          (if dist ≤ 0 then
              cpCollisionInfoPushContact info (cpvsub r1 info.a.body.p)
                (cpvsub r2 info.b.body.p) n dist (F.CP_HASH_PAIR e1.a.hash e2.b.hash)
            else info) := by
      show ContactPoints F e1 e2 points info = _
      unfold ContactPoints
      simp only [if_pos h]
      by_cases hd : dist ≤ 0
      · simp only [if_pos hd]
        rfl
      · simp only [if_neg hd]
    rw [hout]
    by_cases hd : dist ≤ 0 <;> by_cases hd2 : dist2 ≤ 0
    · simp only [if_pos hd, if_pos hd2, cpCollisionInfoPushContact]
      refine ⟨trivial, ?_, ?_, ?_, ?_, ?_, ?_⟩
      · intro _
        rw [Function.update_noteq (by omega), Function.update_same]
      · intro _
        rw [Function.update_same]
      · intro _; trivial
      · intro h1; exact absurd hd h1
      · intro j hj
        rw [Function.update_noteq (by omega), Function.update_noteq (by omega)]
      · intro j hj1 hj2
        have : j = info.count ∨ j = info.count + 1 := by omega
        rcases this with rfl | rfl
        · rw [Function.update_noteq (by omega), Function.update_same]
          exact hd
        · rw [Function.update_same]
          exact hd2
    · simp only [if_pos hd, if_neg hd2, cpCollisionInfoPushContact]
      refine ⟨by omega, ?_, ?_, ?_, ?_, ?_, ?_⟩
      · intro _
        rw [Function.update_same]
      · intro h2; exact absurd h2 hd2
      · intro _; trivial
      · intro h1; exact absurd hd h1
      · intro j hj
        rw [Function.update_noteq (by omega)]
      · intro j hj1 hj2
        have : j = info.count := by omega
        subst this
        rw [Function.update_same]
        exact hd
    · simp only [if_neg hd, if_pos hd2, cpCollisionInfoPushContact]
      refine ⟨by omega, ?_, ?_, ?_, ?_, ?_, ?_⟩
      · intro h1; exact absurd h1 hd
      · intro _
        rw [add_zero, Function.update_same]
      · intro _; trivial
      · intro _ h2; exact absurd hd2 h2
      · intro j hj
        rw [Function.update_noteq (by omega)]
      · intro j hj1 hj2
        have : j = info.count := by omega
        subst this
        rw [Function.update_same]
        exact hd2
    · simp only [if_neg hd, if_neg hd2]
      refine ⟨by omega, ?_, ?_, ?_, ?_, ?_, ?_⟩
      · intro h1; exact absurd h1 hd
      · intro h2; exact absurd h2 hd2
      · intro h1; rcases h1 with h1 | h1
        · exact absurd h1 hd
        · exact absurd h1 hd2
      · intro _ _; trivial
      · intro j _; trivial
      · intro j hj1 hj2
        omega

/-- Witness of C4 on an edge parallel to the normal: `e1` from `(0,0)` to `(2,0)`, `e2` from
`(1,-1)` to `(1,1)`, `n = (1,0)`, `d = -1`.  Both denominators of `e1` are `1/0 = +inf`: the
first pairing clips `e1` at `t1 = cpfclamp01(-inf) = 0`, the point `(0,0)`, one unit in front
of `e2`, and pushes nothing; the second clips it at `u1 = cpfclamp01(+inf) = 1`, the point
`(2,0)`, one unit behind `e2`, and pushes the single contact, of depth `-1`. -/
theorem C4_ContactPoints_witness :
    alongPoints.d ≤ alongEdge.r + acrossEdge.r ∧
    cpvcross alongEdge.b.p alongPoints.n = cpvcross alongEdge.a.p alongPoints.n ∧
    cpfclamp01X (cpfmulX
      (cpvcross acrossEdge.b.p alongPoints.n - cpvcross alongEdge.a.p alongPoints.n)
      (cpfrecip (cpvcross alongEdge.b.p alongPoints.n - cpvcross alongEdge.a.p alongPoints.n)
        (ratEnv.negZero alongEdge.a.p alongEdge.b.p alongPoints.n))) = 0 ∧
    cpfclamp01X (cpfmulX
      (cpvcross acrossEdge.a.p alongPoints.n - cpvcross alongEdge.a.p alongPoints.n)
      (cpfrecip (cpvcross alongEdge.b.p alongPoints.n - cpvcross alongEdge.a.p alongPoints.n)
        (ratEnv.negZero alongEdge.a.p alongEdge.b.p alongPoints.n))) = 1 ∧
    (ContactPoints ratEnv alongEdge acrossEdge alongPoints
      (freshInfo (.poly unitBoxCW) (.poly farBoxCW) 0)).count = 1 ∧
    ((ContactPoints ratEnv alongEdge acrossEdge alongPoints
      (freshInfo (.poly unitBoxCW) (.poly farBoxCW) 0)).arr 0) =
      ⟨cpv 2 0, cpv 1 0, -1, hashPair64 2 3⟩ ∧
    (0 ≤ cpfclamp01X (cpfmulX
        (cpvcross acrossEdge.b.p alongPoints.n - cpvcross alongEdge.a.p alongPoints.n)
        (cpfrecip
          (cpvcross alongEdge.b.p alongPoints.n - cpvcross alongEdge.a.p alongPoints.n)
          (ratEnv.negZero alongEdge.a.p alongEdge.b.p alongPoints.n))) ∧
      cpfclamp01X (cpfmulX
        (cpvcross acrossEdge.b.p alongPoints.n - cpvcross alongEdge.a.p alongPoints.n)
        (cpfrecip
          (cpvcross alongEdge.b.p alongPoints.n - cpvcross alongEdge.a.p alongPoints.n)
          (ratEnv.negZero alongEdge.a.p alongEdge.b.p alongPoints.n))) ≤ 1) :=
  ⟨by decide!, by decide!, by decide!, by decide!, by decide!, by decide!,
   ((C4_ContactPoints ratEnv alongEdge acrossEdge alongPoints
      (freshInfo (.poly unitBoxCW) (.poly farBoxCW) 0)).2 (by decide!)).1⟩

/-! ### C5, C6: circle against polygon -/

/-- Invariant of the loop of `circle2poly`: it has returned early after `k` iterations exactly
when one of the first `k` planes is farther than the radius from the centre. -/
theorem circle2polyLoop_eq_none_iff (circle : cpCircleShape K) (poly : cpPolyShape K)
    (k : Nat) :
    circle2polyLoop circle poly k = none ↔
      ∃ j : Nat, j < k ∧
        cpSplittingPlaneCompare (poly.tPlanes (j : Int)) circle.tc - circle.r > 0 := by
  induction k with
  | zero => simp [circle2polyLoop]
  | succ k ih =>
    rw [circle2polyLoop]
    cases hk : circle2polyLoop circle poly k with
    | none =>
      obtain ⟨j, hj, hd⟩ := ih.mp hk
      simp only [true_iff]
      exact ⟨j, Nat.lt_succ_of_lt hj, hd⟩
    | some mm =>
      obtain ⟨min, mini⟩ := mm
      have hno : ¬ ∃ j : Nat, j < k ∧
          cpSplittingPlaneCompare (poly.tPlanes (j : Int)) circle.tc - circle.r > 0 := by
        intro hc
        have := ih.mpr hc
        rw [hk] at this
        exact Option.noConfusion this
      simp only []
      by_cases hd : cpSplittingPlaneCompare (poly.tPlanes (k : Int)) circle.tc - circle.r > 0
      · rw [if_pos hd]
        simp only [true_iff]
        exact ⟨k, Nat.lt_succ_self k, hd⟩
      · rw [if_neg hd]
        have hne : (if cpSplittingPlaneCompare (poly.tPlanes (k : Int)) circle.tc - circle.r
            > min then some (cpSplittingPlaneCompare (poly.tPlanes (k : Int)) circle.tc -
              circle.r, (k : Int)) else some (min, mini)) ≠ none := by
          split_ifs <;> exact Option.some_ne_none _
        simp only [hne, false_iff]
        rintro ⟨j, hj, hdj⟩
        rcases Nat.lt_succ_iff_lt_or_eq.mp hj with h | h
        · exact hno ⟨j, h, hdj⟩
        · subst h
          exact hd hdj

/-- Invariant of the loop of `circle2poly`: when it has not returned early, `mini` is the
first index among the planes seen so far that attains the largest distance, and `min` is
that distance. -/
theorem circle2polyLoop_some (circle : cpCircleShape K) (poly : cpPolyShape K) (k : Nat)
    (min : K) (mini : Int) (h : circle2polyLoop circle poly k = some (min, mini)) :
    ∃ m : Nat, mini = (m : Int) ∧ (m = 0 ∨ m < k) ∧
      min = cpSplittingPlaneCompare (poly.tPlanes (m : Int)) circle.tc - circle.r ∧
      (∀ j : Nat, j < k →
        cpSplittingPlaneCompare (poly.tPlanes (j : Int)) circle.tc - circle.r ≤ min) ∧
      (∀ j : Nat, j < m →
        cpSplittingPlaneCompare (poly.tPlanes (j : Int)) circle.tc - circle.r < min) := by
  induction k generalizing min mini with
  | zero =>
    simp only [circle2polyLoop, Option.some.injEq, Prod.mk.injEq] at h
    obtain ⟨h1, h2⟩ := h
    refine ⟨0, by simp [← h2], Or.inl rfl, by simp [← h1], ?_, ?_⟩
    · intro j hj; exact absurd hj (Nat.not_lt_zero j)
    · intro j hj; exact absurd hj (Nat.not_lt_zero j)
  | succ k ih =>
    rw [circle2polyLoop] at h
    cases hk : circle2polyLoop circle poly k with
    | none =>
      rw [hk] at h
      exact Option.noConfusion h
    | some mm =>
      obtain ⟨min0, mini0⟩ := mm
      rw [hk] at h
      simp only [] at h
      obtain ⟨m0, hm0, hm0k, hmin0, hall0, hfirst0⟩ := ih min0 mini0 hk
      by_cases hd : cpSplittingPlaneCompare (poly.tPlanes (k : Int)) circle.tc - circle.r > 0
      · rw [if_pos hd] at h
        exact Option.noConfusion h
      · rw [if_neg hd] at h
        by_cases hgt : cpSplittingPlaneCompare (poly.tPlanes (k : Int)) circle.tc - circle.r
            > min0
        · rw [if_pos hgt] at h
          simp only [Option.some.injEq, Prod.mk.injEq] at h
          obtain ⟨h1, h2⟩ := h
          refine ⟨k, h2.symm, Or.inr (Nat.lt_succ_self k), h1.symm, ?_, ?_⟩
          · intro j hj
            rcases Nat.lt_succ_iff_lt_or_eq.mp hj with hlt | heq
            · rw [← h1]
              exact le_of_lt (lt_of_le_of_lt (hall0 j hlt) hgt)
            · subst heq
              rw [← h1]
          · intro j hj
            rw [← h1]
            exact lt_of_le_of_lt (hall0 j hj) hgt
        · rw [if_neg hgt] at h
          simp only [Option.some.injEq, Prod.mk.injEq] at h
          obtain ⟨h1, h2⟩ := h
          subst h1
          subst h2
          refine ⟨m0, hm0, ?_, hmin0, ?_, hfirst0⟩
          · rcases hm0k with h0 | hlt
            · exact Or.inl h0
            · exact Or.inr (Nat.lt_succ_of_lt hlt)
          · intro j hj
            rcases Nat.lt_succ_iff_lt_or_eq.mp hj with hlt | heq
            · exact hall0 j hlt
            · subst heq
              exact not_lt.mp hgt

/-- C6: if the signed half-plane distance `dot(planes[i].n, c) - planes[i].d` of the centre
exceeds the radius for some edge `i`, `circle2poly` returns the info untouched (no contact);
if no distance exceeds the radius the loop runs to its end; and when it runs to its end on a
polygon with at least one edge, the index `mini` it selects is the first index attaining the
maximum of that distance over all edges, with `min` that maximum minus the radius. -/
theorem C6_circle2poly_selection (F : cpEnv K) (circle : cpCircleShape K)
    (poly : cpPolyShape K) (info : cpCollisionInfo K) :
    ((∃ i : Int, 0 ≤ i ∧ i < poly.numVerts ∧
        cpSplittingPlaneCompare (poly.tPlanes i) circle.tc > circle.r) →
      circle2poly F circle poly info = info ∧
      (circle2poly F circle poly info).count = info.count) ∧
    ((∀ i : Int, 0 ≤ i → i < poly.numVerts →
        cpSplittingPlaneCompare (poly.tPlanes i) circle.tc ≤ circle.r) →
      ∃ min mini, circle2polyLoop circle poly poly.numVerts.toNat = some (min, mini)) ∧
    (∀ (min : K) (mini : Int), 1 ≤ poly.numVerts →
      circle2polyLoop circle poly poly.numVerts.toNat = some (min, mini) →
      0 ≤ mini ∧ mini < poly.numVerts ∧
      min = cpSplittingPlaneCompare (poly.tPlanes mini) circle.tc - circle.r ∧
      (∀ j : Int, 0 ≤ j → j < poly.numVerts →
        cpSplittingPlaneCompare (poly.tPlanes j) circle.tc ≤
          cpSplittingPlaneCompare (poly.tPlanes mini) circle.tc) ∧
      (∀ j : Int, 0 ≤ j → j < mini →
        cpSplittingPlaneCompare (poly.tPlanes j) circle.tc <
          cpSplittingPlaneCompare (poly.tPlanes mini) circle.tc)) := by
  refine ⟨?_, ?_, ?_⟩
  · rintro ⟨i, hi0, hi1, hi⟩
    have hnone : circle2polyLoop circle poly poly.numVerts.toNat = none := by
      rw [circle2polyLoop_eq_none_iff]
      refine ⟨i.toNat, by omega, ?_⟩
      rw [Int.toNat_of_nonneg hi0]
      linarith
    have : circle2poly F circle poly info = info := by
      unfold circle2poly
      simp only [hnone]
    exact ⟨this, by rw [this]⟩
  · intro hall
    cases hk : circle2polyLoop circle poly poly.numVerts.toNat with
    | none =>
      obtain ⟨j, hj, hd⟩ := (circle2polyLoop_eq_none_iff circle poly _).mp hk
      have := hall (j : Int) (by omega) (by omega)
      linarith
    | some mm => exact ⟨mm.1, mm.2, rfl⟩
  · intro min mini hn h
    obtain ⟨m, hm, hmk, hmin, hall, hfirst⟩ := circle2polyLoop_some circle poly _ min mini h
    subst hm
    refine ⟨by omega, by omega, hmin, ?_, ?_⟩
    · intro j hj0 hj1
      have := hall j.toNat (by omega)
      rw [Int.toNat_of_nonneg hj0, hmin] at this
      linarith
    · intro j hj0 hj1
      have := hfirst j.toNat (by omega)
      rw [Int.toNat_of_nonneg hj0, hmin] at this
      linarith

/-- C5 fails as stated.  The box `[-1,1]²` with counter-clockwise vertices and outward unit
normals (1, 2), the circle of centre `(5/4, 0)` and radius `1/2`: no plane distance exceeds
the radius (3), the edge of largest distance is the right one, from `a = (1,-1)` to
`b = (1,1)`, and the centre projects strictly between `a` and `b` (4); yet `circle2poly`
emits no contact (5): it takes the corner branch at `b`, whose circle query finds nothing. -/
theorem C5_counterexample :
    (∀ i ∈ List.range 4,
      cpvcross
        (cpvsub ((boxPolyCCW 1 (-1) (-1) 1 (1 : ℚ)).tVerts (i : Int))
          ((boxPolyCCW 1 (-1) (-1) 1 (1 : ℚ)).tVerts (((i : Int) - 1 + 4).tmod 4)))
        (cpvsub ((boxPolyCCW 1 (-1) (-1) 1 (1 : ℚ)).tVerts (((i : Int) + 1).tmod 4))
          ((boxPolyCCW 1 (-1) (-1) 1 (1 : ℚ)).tVerts (i : Int))) > 0) ∧
    (∀ i ∈ List.range 4,
      cpvlengthsq ((boxPolyCCW 1 (-1) (-1) 1 (1 : ℚ)).tPlanes (i : Int)).n = 1 ∧
      cpSplittingPlaneCompare ((boxPolyCCW 1 (-1) (-1) 1 (1 : ℚ)).tPlanes (i : Int))
        ((boxPolyCCW 1 (-1) (-1) 1 (1 : ℚ)).tVerts (i : Int)) = 0 ∧
      cpSplittingPlaneCompare ((boxPolyCCW 1 (-1) (-1) 1 (1 : ℚ)).tPlanes (i : Int))
        ((boxPolyCCW 1 (-1) (-1) 1 (1 : ℚ)).tVerts (((i : Int) - 1 + 4).tmod 4)) = 0 ∧
      ∀ j ∈ List.range 4,
        cpSplittingPlaneCompare ((boxPolyCCW 1 (-1) (-1) 1 (1 : ℚ)).tPlanes (i : Int))
          ((boxPolyCCW 1 (-1) (-1) 1 (1 : ℚ)).tVerts (j : Int)) ≤ 0) ∧
    (∀ i ∈ List.range 4,
      cpSplittingPlaneCompare ((boxPolyCCW 1 (-1) (-1) 1 (1 : ℚ)).tPlanes (i : Int))
          (circleAt 2 (5 / 4) 0 (1 / 2 : ℚ)).tc ≤ (circleAt 2 (5 / 4) 0 (1 / 2 : ℚ)).r ∧
      cpSplittingPlaneCompare ((boxPolyCCW 1 (-1) (-1) 1 (1 : ℚ)).tPlanes (i : Int))
          (circleAt 2 (5 / 4) 0 (1 / 2 : ℚ)).tc ≤
        cpSplittingPlaneCompare ((boxPolyCCW 1 (-1) (-1) 1 (1 : ℚ)).tPlanes 2)
          (circleAt 2 (5 / 4) 0 (1 / 2 : ℚ)).tc) ∧
    (0 < cpvdot (cpvsub (circleAt 2 (5 / 4) 0 (1 / 2 : ℚ)).tc (cpv 1 (-1)))
        (cpvsub (cpv 1 1) (cpv 1 (-1))) ∧
      cpvdot (cpvsub (circleAt 2 (5 / 4) 0 (1 / 2 : ℚ)).tc (cpv 1 (-1)))
        (cpvsub (cpv 1 1) (cpv 1 (-1))) <
      cpvdot (cpvsub (cpv 1 1) (cpv 1 (-1))) (cpvsub (cpv 1 1) (cpv (1 : ℚ) (-1)))) ∧
    (circle2poly ratEnv (circleAt 2 (5 / 4) 0 (1 / 2)) (boxPolyCCW 1 (-1) (-1) 1 1)
      (freshInfo (.circle (circleAt 2 (5 / 4) 0 (1 / 2)))
        (.poly (boxPolyCCW 1 (-1) (-1) 1 1)) 0)).count = 0 := by
  decide!

/-- C5, amended: the vertices are in clockwise order, that is, every plane normal is a
positive multiple of the left normal `perp(b - a)` of its edge from `a = verts[i-1]` to
`b = verts[i]`.  If no half-plane distance of the centre `c` exceeds the radius `r`, the loop
selects the edge `mini` of largest distance, with `pen` that distance minus `r`, and with
`s = dot(c - a, b - a)`: when `0 < s < |b - a|²` (the projection of `c` is strictly between
`a` and `b`) exactly one contact is pushed, at world point `c - n*(r + pen/2)`, with normal
`-n` and depth `pen`; when `s < 0` (before `a`) the result is that of `circle2circleQuery` at
`a`, and when `s > |b - a|²` (past `b`) that of `circle2circleQuery` at `b`. -/
theorem C5_circle2poly_clockwise (F : cpEnv K) (circle : cpCircleShape K)
    (poly : cpPolyShape K) (info : cpCollisionInfo K) (hn : 1 ≤ poly.numVerts)
    (hall : ∀ i : Int, 0 ≤ i → i < poly.numVerts →
      cpSplittingPlaneCompare (poly.tPlanes i) circle.tc ≤ circle.r)
    (hcw : ∀ i : Int, 0 ≤ i → i < poly.numVerts → ∃ L : K, 0 < L ∧
      cpvmult (poly.tPlanes i).n L =
        cpvperp (cpvsub (poly.tVerts i)
          (poly.tVerts ((i - 1 + poly.numVerts).tmod poly.numVerts)))) :
    ∃ (pen : K) (mini : Int),
      circle2polyLoop circle poly poly.numVerts.toNat = some (pen, mini) ∧
      0 ≤ mini ∧ mini < poly.numVerts ∧
      pen = cpSplittingPlaneCompare (poly.tPlanes mini) circle.tc - circle.r ∧
      (∀ j : Int, 0 ≤ j → j < poly.numVerts →
        cpSplittingPlaneCompare (poly.tPlanes j) circle.tc - circle.r ≤ pen) ∧
      (0 < cpvdot (cpvsub circle.tc
            (poly.tVerts ((mini - 1 + poly.numVerts).tmod poly.numVerts)))
          (cpvsub (poly.tVerts mini)
            (poly.tVerts ((mini - 1 + poly.numVerts).tmod poly.numVerts))) ∧
        cpvdot (cpvsub circle.tc
            (poly.tVerts ((mini - 1 + poly.numVerts).tmod poly.numVerts)))
          (cpvsub (poly.tVerts mini)
            (poly.tVerts ((mini - 1 + poly.numVerts).tmod poly.numVerts))) <
        cpvlengthsq (cpvsub (poly.tVerts mini)
            (poly.tVerts ((mini - 1 + poly.numVerts).tmod poly.numVerts))) →
        circle2poly F circle poly info =
          cpCollisionInfoPushContact info
            (cpvsub (cpvsub circle.tc (cpvmult (poly.tPlanes mini).n (circle.r + pen / 2)))
              info.a.body.p)
            (cpvsub (cpvsub circle.tc (cpvmult (poly.tPlanes mini).n (circle.r + pen / 2)))
              info.b.body.p)
            (cpvneg (poly.tPlanes mini).n) pen 0) ∧
      (cpvdot (cpvsub circle.tc
            (poly.tVerts ((mini - 1 + poly.numVerts).tmod poly.numVerts)))
          (cpvsub (poly.tVerts mini)
            (poly.tVerts ((mini - 1 + poly.numVerts).tmod poly.numVerts))) < 0 →
        circle2poly F circle poly info =
          circle2circleQuery F circle.tc
            (poly.tVerts ((mini - 1 + poly.numVerts).tmod poly.numVerts))
            circle.r poly.r 0 info) ∧
      (cpvlengthsq (cpvsub (poly.tVerts mini)
            (poly.tVerts ((mini - 1 + poly.numVerts).tmod poly.numVerts))) <
        cpvdot (cpvsub circle.tc
            (poly.tVerts ((mini - 1 + poly.numVerts).tmod poly.numVerts)))
          (cpvsub (poly.tVerts mini)
            (poly.tVerts ((mini - 1 + poly.numVerts).tmod poly.numVerts))) →
        circle2poly F circle poly info =
          circle2circleQuery F circle.tc (poly.tVerts mini) circle.r poly.r 0 info) := by
  have hsome : ∃ mm, circle2polyLoop circle poly poly.numVerts.toNat = some mm := by
    cases hk : circle2polyLoop circle poly poly.numVerts.toNat with
    | none =>
      obtain ⟨j, hj, hd⟩ := (circle2polyLoop_eq_none_iff circle poly _).mp hk
      have := hall (j : Int) (by omega) (by omega)
      linarith
    | some mm => exact ⟨mm, rfl⟩
  obtain ⟨⟨pen, mini⟩, hloop⟩ := hsome
  obtain ⟨m, hm, hmk, hmin, hmax, _⟩ := circle2polyLoop_some circle poly _ pen mini hloop
  subst hm
  have hm0 : (0 : Int) ≤ (m : Int) := by omega
  have hm1 : (m : Int) < poly.numVerts := by omega
  obtain ⟨L, hL, hperp⟩ := hcw (m : Int) hm0 hm1
  have hx := congrArg cpVect.x hperp
  have hy := congrArg cpVect.y hperp
  simp only [cpvmult, cpvperp, cpvsub] at hx hy
  refine ⟨pen, (m : Int), hloop, hm0, hm1, hmin, ?_, ?_, ?_, ?_⟩
  · intro j hj0 hj1
    have := hmax j.toNat (by omega)
    rwa [Int.toNat_of_nonneg hj0] at this
  all_goals
    generalize hA : poly.tVerts (((m : Int) - 1 + poly.numVerts).tmod poly.numVerts) = a
      at hx hy ⊢
    generalize hB : poly.tVerts (m : Int) = b at hx hy ⊢
    generalize hN : (poly.tPlanes (m : Int)).n = n at hx hy ⊢
    have key1 : (cpvcross n circle.tc - cpvcross n b) * L =
        cpvlengthsq (cpvsub b a) - cpvdot (cpvsub circle.tc a) (cpvsub b a) := by
      simp only [cpvcross, cpvlengthsq, cpvdot, cpvsub]
      linear_combination (circle.tc.y - b.y) * hx - (circle.tc.x - b.x) * hy
    have key2 : (cpvcross n circle.tc - cpvcross n a) * L =
        - cpvdot (cpvsub circle.tc a) (cpvsub b a) := by
      simp only [cpvcross, cpvdot, cpvsub]
      linear_combination (circle.tc.y - a.y) * hx - (circle.tc.x - a.x) * hy
    intro hs
    unfold circle2poly
    simp only [hloop, hA, hB, hN]
  · have h1 : ¬ cpvcross n circle.tc < cpvcross n b := by
      intro hc
      have : (cpvcross n circle.tc - cpvcross n b) * L < 0 :=
        mul_neg_of_neg_of_pos (by linarith) hL
      linarith [hs.2]
    have h2 : cpvcross n circle.tc < cpvcross n a := by
      by_contra hc
      have : 0 ≤ (cpvcross n circle.tc - cpvcross n a) * L :=
        mul_nonneg (by linarith [not_lt.mp hc]) (le_of_lt hL)
      linarith [hs.1]
    rw [if_neg h1, if_pos h2]
  · have h1 : ¬ cpvcross n circle.tc < cpvcross n b := by
      intro hc
      have : (cpvcross n circle.tc - cpvcross n b) * L < 0 :=
        mul_neg_of_neg_of_pos (by linarith) hL
      linarith [cpvlengthsq_nonneg (cpvsub b a)]
    have h2 : ¬ cpvcross n circle.tc < cpvcross n a := by
      intro hc
      have : (cpvcross n circle.tc - cpvcross n a) * L < 0 :=
        mul_neg_of_neg_of_pos (by linarith) hL
      linarith
    rw [if_neg h1, if_neg h2]
  · have h1 : cpvcross n circle.tc < cpvcross n b := by
      by_contra hc
      have : 0 ≤ (cpvcross n circle.tc - cpvcross n b) * L :=
        mul_nonneg (by linarith [not_lt.mp hc]) (le_of_lt hL)
      linarith
    rw [if_pos h1]

/-- Witness of the amended C5: the clockwise box `[-1,1]²` and the circle of centre `(5/4, 0)`
and radius `1/2`, whose centre projects to the middle of the right edge: one contact, normal
`(-1, 0)`, depth `-1/4`, at world point `(7/8, 0)`. -/
theorem C5_circle2poly_clockwise_witness :
    (1 : Int) ≤ unitBoxCW.numVerts ∧
    (circle2poly ratEnv nearCircle unitBoxCW
      (freshInfo (.circle nearCircle) (.poly unitBoxCW) 0)).count = 1 ∧
    (circle2poly ratEnv nearCircle unitBoxCW
      (freshInfo (.circle nearCircle) (.poly unitBoxCW) 0)).n = cpv (-1) 0 ∧
    ((circle2poly ratEnv nearCircle unitBoxCW
      (freshInfo (.circle nearCircle) (.poly unitBoxCW) 0)).arr 0).dist = -1 / 4 ∧
    cpvadd ((circle2poly ratEnv nearCircle unitBoxCW
      (freshInfo (.circle nearCircle) (.poly unitBoxCW) 0)).arr 0).r2
      unitBoxCW.shape.body.p = cpv (7 / 8) 0 := by
  have hn : (1 : Int) ≤ unitBoxCW.numVerts := by decide
  have hall : ∀ i : Int, 0 ≤ i → i < unitBoxCW.numVerts →
      cpSplittingPlaneCompare (unitBoxCW.tPlanes i) nearCircle.tc ≤ nearCircle.r := by
    intro i h0 h1
    have h4 : i < 4 := h1
    interval_cases i <;> decide!
  have hcw : ∀ i : Int, 0 ≤ i → i < unitBoxCW.numVerts → ∃ L : ℚ, 0 < L ∧
      cpvmult (unitBoxCW.tPlanes i).n L =
        cpvperp (cpvsub (unitBoxCW.tVerts i)
          (unitBoxCW.tVerts ((i - 1 + unitBoxCW.numVerts).tmod unitBoxCW.numVerts))) := by
    intro i h0 h1
    have h4 : i < 4 := h1
    refine ⟨2, by norm_num, ?_⟩
    interval_cases i <;> decide!
  obtain ⟨pen, mini, hloop, _, _, _, _, hface, _, _⟩ :=
    C5_circle2poly_clockwise ratEnv nearCircle unitBoxCW
      (freshInfo (.circle nearCircle) (.poly unitBoxCW) 0) hn hall hcw
  have hl : circle2polyLoop nearCircle unitBoxCW unitBoxCW.numVerts.toNat =
      some (-1 / 4, 3) := by decide!
  rw [hl] at hloop
  simp only [Option.some.injEq, Prod.mk.injEq] at hloop
  obtain ⟨hp, hm⟩ := hloop
  subst hp
  subst hm
  rw [hface (by decide!)]
  refine ⟨hn, ?_, ?_, ?_, ?_⟩ <;> decide!

/-! ### C10: the warm-start id -/

theorem and_0xFF (x : Nat) : x &&& 0xFF = x % 256 :=
  Nat.and_pow_two_sub_one_eq_mod x 8

theorem and_0xFFFF (x : Nat) : x &&& 0xFFFF = x % 65536 :=
  Nat.and_pow_two_sub_one_eq_mod x 16

theorem shl8_or (a b : Nat) (hb : b < 256) : (a <<< 8) ||| b = a * 256 + b := by
  rw [Nat.shiftLeft_eq]
  have h := Nat.mul_add_lt_is_or (i := 8) (b := b) hb a
  have e : (2 : Nat) ^ 8 = 256 := by norm_num
  rw [e] at h
  rw [Nat.mul_comm a 256, ← h]

theorem shl16_or (a b : Nat) (hb : b < 65536) : (a <<< 16) ||| b = a * 65536 + b := by
  rw [Nat.shiftLeft_eq]
  have h := Nat.mul_add_lt_is_or (i := 16) (b := b) hb a
  have e : (2 : Nat) ^ 16 = 65536 := by norm_num
  rw [e] at h
  rw [Nat.mul_comm a 65536, ← h]

theorem MinkoskiPointNew_id (a b : SupportPoint K) :
    (MinkoskiPointNew a b).id = (a.id % 256) * 256 + b.id % 256 := by
  unfold MinkoskiPointNew
  simp only [and_0xFF]
  have h1 : ((a.id % 256) <<< 8) % 2 ^ 32 = (a.id % 256) <<< 8 := by
    rw [Nat.shiftLeft_eq]
    apply Nat.mod_eq_of_lt
    have : a.id % 256 < 256 := Nat.mod_lt _ (by norm_num)
    norm_num
    omega
  rw [h1, shl8_or _ _ (Nat.mod_lt _ (by norm_num))]

theorem ClosestPointsNew_id (F : cpEnv K) (v0 v1 : MinkowskiPoint K) :
    (ClosestPointsNew F v0 v1).id = (v0.id % 65536) * 65536 + v1.id % 65536 := by
  have h1 : ((v0.id % 65536) <<< 16) % 2 ^ 32 = (v0.id % 65536) <<< 16 := by
    rw [Nat.shiftLeft_eq]
    apply Nat.mod_eq_of_lt
    have : v0.id % 65536 < 65536 := Nat.mod_lt _ (by norm_num)
    norm_num
    omega
  unfold ClosestPointsNew
  dsimp only
  split_ifs <;>
    simp only [and_0xFFFF, h1, shl16_or _ _ (Nat.mod_lt _ (by norm_num : 65536 > 0))]

/-- C10: for vertex indices `a0, b0, a1, b1` below 256, the Minkowski points built from
support points with these indices have ids `(a0 << 8) | b0` and `(a1 << 8) | b1`, the id of
`ClosestPointsNew(v0, v1)` is `(v0.id << 16) | v1.id`, it fits in 32 bits, and the four
extractions `(id>>24)&0xFF`, `(id>>16)&0xFF`, `(id>>8)&0xFF`, `id&0xFF` that `GJK` uses for
seeding return `a0`, `b0`, `a1`, `b1`. -/
theorem C10_warm_start_id_roundtrip (F : cpEnv K) (a0 b0 a1 b1 : Nat)
    (ha0 : a0 < 256) (hb0 : b0 < 256) (ha1 : a1 < 256) (hb1 : b1 < 256)
    (pa0 pb0 pa1 pb1 : cpVect K) :
    (MinkoskiPointNew (SupportPointNew pa0 a0) (SupportPointNew pb0 b0)).id
      = (a0 <<< 8) ||| b0 ∧
    (MinkoskiPointNew (SupportPointNew pa1 a1) (SupportPointNew pb1 b1)).id
      = (a1 <<< 8) ||| b1 ∧
    (ClosestPointsNew F (MinkoskiPointNew (SupportPointNew pa0 a0) (SupportPointNew pb0 b0))
        (MinkoskiPointNew (SupportPointNew pa1 a1) (SupportPointNew pb1 b1))).id
      = ((MinkoskiPointNew (SupportPointNew pa0 a0) (SupportPointNew pb0 b0)).id <<< 16) |||
        (MinkoskiPointNew (SupportPointNew pa1 a1) (SupportPointNew pb1 b1)).id ∧
    (ClosestPointsNew F (MinkoskiPointNew (SupportPointNew pa0 a0) (SupportPointNew pb0 b0))
        (MinkoskiPointNew (SupportPointNew pa1 a1) (SupportPointNew pb1 b1))).id < 2 ^ 32 ∧
    ((ClosestPointsNew F (MinkoskiPointNew (SupportPointNew pa0 a0) (SupportPointNew pb0 b0))
        (MinkoskiPointNew (SupportPointNew pa1 a1) (SupportPointNew pb1 b1))).id >>> 24)
      &&& 0xFF = a0 ∧
    ((ClosestPointsNew F (MinkoskiPointNew (SupportPointNew pa0 a0) (SupportPointNew pb0 b0))
        (MinkoskiPointNew (SupportPointNew pa1 a1) (SupportPointNew pb1 b1))).id >>> 16)
      &&& 0xFF = b0 ∧
    ((ClosestPointsNew F (MinkoskiPointNew (SupportPointNew pa0 a0) (SupportPointNew pb0 b0))
        (MinkoskiPointNew (SupportPointNew pa1 a1) (SupportPointNew pb1 b1))).id >>> 8)
      &&& 0xFF = a1 ∧
    (ClosestPointsNew F (MinkoskiPointNew (SupportPointNew pa0 a0) (SupportPointNew pb0 b0))
        (MinkoskiPointNew (SupportPointNew pa1 a1) (SupportPointNew pb1 b1))).id
      &&& 0xFF = b1 := by
  have e0 : (MinkoskiPointNew (SupportPointNew pa0 a0) (SupportPointNew pb0 b0)).id
      = a0 * 256 + b0 := by
    rw [MinkoskiPointNew_id]
    simp only [SupportPointNew]
    rw [Nat.mod_eq_of_lt ha0, Nat.mod_eq_of_lt hb0]
  have e1 : (MinkoskiPointNew (SupportPointNew pa1 a1) (SupportPointNew pb1 b1)).id
      = a1 * 256 + b1 := by
    rw [MinkoskiPointNew_id]
    simp only [SupportPointNew]
    rw [Nat.mod_eq_of_lt ha1, Nat.mod_eq_of_lt hb1]
  have e : (ClosestPointsNew F
      (MinkoskiPointNew (SupportPointNew pa0 a0) (SupportPointNew pb0 b0))
      (MinkoskiPointNew (SupportPointNew pa1 a1) (SupportPointNew pb1 b1))).id
      = (a0 * 256 + b0) * 65536 + (a1 * 256 + b1) := by
    rw [ClosestPointsNew_id, e0, e1]
    rw [Nat.mod_eq_of_lt (by omega), Nat.mod_eq_of_lt (by omega)]
  rw [e, e0, e1]
  simp only [and_0xFF, Nat.shiftRight_eq_div_pow]
  refine ⟨(shl8_or a0 b0 hb0).symm, (shl8_or a1 b1 hb1).symm,
    (shl16_or _ _ (by omega)).symm, ?_, ?_, ?_, ?_, ?_⟩
  · norm_num
    omega
  all_goals
    norm_num
    omega

/-- Witness of C10: the indices 2, 0, 1, 3 give the id `0x02000103 = 33554691`. -/
theorem C10_warm_start_id_roundtrip_witness :
    (2 : Nat) < 256 ∧ (0 : Nat) < 256 ∧ (1 : Nat) < 256 ∧ (3 : Nat) < 256 ∧
    (ClosestPointsNew ratEnv
      (MinkoskiPointNew (SupportPointNew (cpv 0 0) 2) (SupportPointNew (cpv 0 1) 0))
      (MinkoskiPointNew (SupportPointNew (cpv 0 (-1)) 1) (SupportPointNew (cpv 0 2) 3))).id
      = 33554691 ∧
    ((ClosestPointsNew ratEnv
      (MinkoskiPointNew (SupportPointNew (cpv 0 0) 2) (SupportPointNew (cpv 0 1) 0))
      (MinkoskiPointNew (SupportPointNew (cpv 0 (-1)) 1) (SupportPointNew (cpv 0 2) 3))).id
        >>> 24) &&& 0xFF = 2 :=
  ⟨by decide, by decide, by decide, by decide,
   by
    rw [(C10_warm_start_id_roundtrip ratEnv 2 0 1 3 (by decide) (by decide) (by decide)
      (by decide) (cpv 0 0) (cpv 0 1) (cpv 0 (-1)) (cpv 0 2)).2.2.1]
    decide!,
   (C10_warm_start_id_roundtrip ratEnv 2 0 1 3 (by decide) (by decide) (by decide)
      (by decide) (cpv 0 0) (cpv 0 1) (cpv 0 (-1)) (cpv 0 2)).2.2.2.2.1⟩

/-! ### C8: dispatch -/

/-- C8: the type tags are Circle = 0 < Segment = 1 < Polygon = 2 and the handler is the table
entry at index `type(a) + 3*type(b)`.  In every reachable state of the toggle the pairs
(circle, circle), (circle, segment), (circle, polygon), (segment, polygon) and
(polygon, polygon) run `circle2circle`, `circle2segment`, `circle2poly`, `seg2poly` and
`poly2poly` on the fresh info.  In the initial state a (segment, segment) pair runs no
handler: the result is the fresh info, with count 0, zero normal and the incoming id; once the
enabler has been called it runs `segment2segment`.  Calling the enabler twice gives the same
state as calling it once, and enabling changes the table at no index other than 4, the one
of (segment, segment). -/
theorem C8_dispatch (F : cpEnv K) :
    (∀ (c : cpCircleShape K) (s : cpSegmentShape K) (p : cpPolyShape K),
      (cpShapePtr.circle c).type = 0 ∧ (cpShapePtr.segment s).type = 1 ∧
      (cpShapePtr.poly p).type = 2) ∧
    (∀ (g : Globals K) (a b : cpShapePtr K),
      g.cfunc a b = g.colfuncs.getD (a.type + 3 * b.type).toNat none) ∧
    (∀ (g : Globals K), Globals.Reachable F g →
      ∀ (id : Nat) (contacts : Int → cpContact K),
      (∀ c1 c2, cpCollideShapes g (.circle c1) (.circle c2) id contacts =
        circle2circle F c1 c2 ⟨.circle c1, .circle c2, id, cpvzero, 0, contacts⟩) ∧
      (∀ c s, cpCollideShapes g (.circle c) (.segment s) id contacts =
        circle2segment F c s ⟨.circle c, .segment s, id, cpvzero, 0, contacts⟩) ∧
      (∀ c p, cpCollideShapes g (.circle c) (.poly p) id contacts =
        circle2poly F c p ⟨.circle c, .poly p, id, cpvzero, 0, contacts⟩) ∧
      (∀ s p, cpCollideShapes g (.segment s) (.poly p) id contacts =
        seg2poly F s p ⟨.segment s, .poly p, id, cpvzero, 0, contacts⟩) ∧
      (∀ p1 p2, cpCollideShapes g (.poly p1) (.poly p2) id contacts =
        poly2poly F p1 p2 ⟨.poly p1, .poly p2, id, cpvzero, 0, contacts⟩)) ∧
    (∀ (s1 s2 : cpSegmentShape K) (id : Nat) (contacts : Int → cpContact K),
      (Globals.initial F).cfunc (.segment s1) (.segment s2) = none ∧
      cpCollideShapes (Globals.initial F) (.segment s1) (.segment s2) id contacts =
        ⟨.segment s1, .segment s2, id, cpvzero, 0, contacts⟩ ∧
      (cpCollideShapes (Globals.initial F) (.segment s1) (.segment s2) id contacts).count
        = 0 ∧
      (cpCollideShapes (Globals.initial F) (.segment s1) (.segment s2) id contacts).n
        = cpvzero ∧
      (cpCollideShapes (Globals.initial F) (.segment s1) (.segment s2) id contacts).id
        = id) ∧
    (∀ (g : Globals K) (s1 s2 : cpSegmentShape K) (id : Nat) (contacts : Int → cpContact K),
      cpCollideShapes (cpEnableSegmentToSegmentCollisions F g) (.segment s1) (.segment s2) id
          contacts =
        segment2segment F s1 s2 ⟨.segment s1, .segment s2, id, cpvzero, 0, contacts⟩) ∧
    (∀ (g : Globals K),
      cpEnableSegmentToSegmentCollisions F (cpEnableSegmentToSegmentCollisions F g) =
        cpEnableSegmentToSegmentCollisions F g) ∧
    (∀ (g : Globals K), Globals.Reachable F g → ∀ i : Nat, i ≠ 4 →
      (cpEnableSegmentToSegmentCollisions F g).colfuncs.getD i none =
        g.colfuncs.getD i none) ∧
    (∀ (g : Globals K), Globals.Reachable F g → ∀ (a b : cpShapePtr K),
      ¬ (a.type = 1 ∧ b.type = 1) →
      (cpEnableSegmentToSegmentCollisions F g).cfunc a b = g.cfunc a b) := by
  refine ⟨fun _ _ _ => ⟨rfl, rfl, rfl⟩, ?_, ?_, ?_, ?_, fun _ => rfl, ?_, ?_⟩
  · intro g a b
    unfold Globals.cfunc
    rw [show a.type + b.type * CP_NUM_SHAPES = a.type + 3 * b.type by
      simp only [CP_NUM_SHAPES]; ring]
  · intro g hg id contacts
    obtain ⟨tbl⟩ := g
    rcases Reachable.colfuncs_eq hg with h | h <;> simp only at h <;> subst h
    · exact ⟨fun _ _ => rfl, fun _ _ => rfl, fun _ _ => rfl, fun _ _ => rfl,
        fun _ _ => rfl⟩
    · exact ⟨fun _ _ => rfl, fun _ _ => rfl, fun _ _ => rfl, fun _ _ => rfl,
        fun _ _ => rfl⟩
  · intro s1 s2 id contacts
    exact ⟨rfl, rfl, rfl, rfl, rfl⟩
  · intro g s1 s2 id contacts
    rfl
  · intro g hg i hi
    obtain ⟨tbl⟩ := g
    rcases Reachable.colfuncs_eq hg with h | h <;> simp only at h <;> subst h
    · match i, hi with
      | 0, _ | 1, _ | 2, _ | 3, _ | 5, _ | 6, _ | 7, _ | 8, _ => rfl
      | 4, h4 => exact absurd rfl h4
      | (n + 9), _ => rfl
    · rfl
  · intro g hg a b hab
    obtain ⟨tbl⟩ := g
    rcases Reachable.colfuncs_eq hg with h | h <;> simp only at h <;> subst h
    · cases a <;> cases b <;> first
        | rfl
        | exact absurd ⟨rfl, rfl⟩ hab
    · rfl

/-! ### C9: symmetry of the circle-circle handler -/

/-- C9 fails as stated: for two coincident unit circles both orders give the fallback normal
`(1, 0)`; the normal of the swapped call is not the negation of the other. -/
theorem C9_counterexample :
    (circle2circle ratEnv (circleAt 1 0 0 1) (circleAt 2 0 0 1)
      (freshInfo (.circle (circleAt 1 0 0 1)) (.circle (circleAt 2 0 0 1)) 0)).count = 1 ∧
    (circle2circle ratEnv (circleAt 1 0 0 1) (circleAt 2 0 0 1)
      (freshInfo (.circle (circleAt 1 0 0 1)) (.circle (circleAt 2 0 0 1)) 0)).n = cpv 1 0 ∧
    (circle2circle ratEnv (circleAt 2 0 0 1) (circleAt 1 0 0 1)
      (freshInfo (.circle (circleAt 2 0 0 1)) (.circle (circleAt 1 0 0 1)) 0)).n = cpv 1 0 ∧
    (circle2circle ratEnv (circleAt 2 0 0 1) (circleAt 1 0 0 1)
      (freshInfo (.circle (circleAt 2 0 0 1)) (.circle (circleAt 1 0 0 1)) 0)).n ≠
    cpvneg (circle2circle ratEnv (circleAt 1 0 0 1) (circleAt 2 0 0 1)
      (freshInfo (.circle (circleAt 1 0 0 1)) (.circle (circleAt 2 0 0 1)) 0)).n := by
  decide!

theorem cpvlerp_swap (p1 p2 : cpVect K) (r1 r2 : K) (h : r1 + r2 ≠ 0) :
    cpvlerp p2 p1 (r2 / (r2 + r1)) = cpvlerp p1 p2 (r1 / (r1 + r2)) := by
  have h' : r2 + r1 ≠ 0 := by rwa [add_comm]
  unfold cpvlerp cpvadd cpvmult
  ext
  · dsimp only
    field_simp
    ring
  · dsimp only
    field_simp
    ring

/-- C9, amended: with an exact square root, colliding two circles in the two orders through
`circle2circle` (each on its fresh info) gives the same contact count (0 or 1), and when a
contact is produced: the same depth, the same world contact point, `r1` and `r2` swapped, and
the normal negated when the centres differ; when the centres coincide both orders give the
fixed normal `(1, 0)`. -/
theorem C9_circle2circle_symmetry (F : cpEnv K) (hF : F.ExactSqrt) (c1 c2 : cpCircleShape K)
    (id id2 : Nat) (contacts contacts2 : Int → cpContact K) :
    (circle2circle F c1 c2 ⟨.circle c1, .circle c2, id, cpvzero, 0, contacts⟩).count =
      (circle2circle F c2 c1 ⟨.circle c2, .circle c1, id2, cpvzero, 0, contacts2⟩).count ∧
    ((circle2circle F c1 c2 ⟨.circle c1, .circle c2, id, cpvzero, 0, contacts⟩).count = 0 ∨
      (circle2circle F c1 c2 ⟨.circle c1, .circle c2, id, cpvzero, 0, contacts⟩).count = 1) ∧
    ((circle2circle F c1 c2 ⟨.circle c1, .circle c2, id, cpvzero, 0, contacts⟩).count = 1 →
      ((circle2circle F c1 c2 ⟨.circle c1, .circle c2, id, cpvzero, 0, contacts⟩).arr 0).dist =
        ((circle2circle F c2 c1
          ⟨.circle c2, .circle c1, id2, cpvzero, 0, contacts2⟩).arr 0).dist ∧
      cpvadd
          ((circle2circle F c1 c2 ⟨.circle c1, .circle c2, id, cpvzero, 0, contacts⟩).arr 0).r1
          c1.shape.body.p =
        cpvadd
          ((circle2circle F c2 c1
            ⟨.circle c2, .circle c1, id2, cpvzero, 0, contacts2⟩).arr 0).r1
          c2.shape.body.p ∧
      ((circle2circle F c1 c2 ⟨.circle c1, .circle c2, id, cpvzero, 0, contacts⟩).arr 0).r1 =
        ((circle2circle F c2 c1
          ⟨.circle c2, .circle c1, id2, cpvzero, 0, contacts2⟩).arr 0).r2 ∧
      ((circle2circle F c1 c2 ⟨.circle c1, .circle c2, id, cpvzero, 0, contacts⟩).arr 0).r2 =
        ((circle2circle F c2 c1
          ⟨.circle c2, .circle c1, id2, cpvzero, 0, contacts2⟩).arr 0).r1 ∧
      (c1.tc ≠ c2.tc →
        (circle2circle F c2 c1 ⟨.circle c2, .circle c1, id2, cpvzero, 0, contacts2⟩).n =
          cpvneg
            (circle2circle F c1 c2 ⟨.circle c1, .circle c2, id, cpvzero, 0, contacts⟩).n) ∧
      (c1.tc = c2.tc →
        (circle2circle F c1 c2 ⟨.circle c1, .circle c2, id, cpvzero, 0, contacts⟩).n =
          cpv 1 0 ∧
        (circle2circle F c2 c1 ⟨.circle c2, .circle c1, id2, cpvzero, 0, contacts2⟩).n =
          cpv 1 0)) := by
  have hsq : cpvlengthsq (cpvsub c1.tc c2.tc) = cpvlengthsq (cpvsub c2.tc c1.tc) := by
    simp only [cpvlengthsq, cpvdot, cpvsub]
    ring
  have hmm : (c2.r + c1.r) * (c2.r + c1.r) = (c1.r + c2.r) * (c1.r + c2.r) := by ring
  have hx : 0 ≤ cpvlengthsq (cpvsub c2.tc c1.tc) := cpvlengthsq_nonneg _
  have hz := ExactSqrt.eq_zero_iff hF hx
  unfold circle2circle circle2circleQuery
  simp only [hsq, hmm]
  by_cases hg : cpvlengthsq (cpvsub c2.tc c1.tc) < (c1.r + c2.r) * (c1.r + c2.r)
  · have hr : c1.r + c2.r ≠ 0 := by
      intro h0
      rw [h0, mul_zero] at hg
      exact absurd hg (not_lt.mpr hx)
    simp only [if_pos hg, cpCollisionInfoPushContact, Function.update_same, zero_add,
      cpShapePtr.body, cpShapePtr.hdr, true_implies, or_true, true_and]
    refine ⟨?_, ?_, ?_, ?_, ?_, ?_⟩
    · rw [add_comm c2.r c1.r]
    · rw [cpvlerp_swap c1.tc c2.tc c1.r c2.r hr]
      simp only [cpvadd, cpvsub]
      ext <;> simp
    · rw [cpvlerp_swap c1.tc c2.tc c1.r c2.r hr]
    · rw [cpvlerp_swap c1.tc c2.tc c1.r c2.r hr]
    · intro hne
      have h0 : F.cpfsqrt (cpvlengthsq (cpvsub c2.tc c1.tc)) ≠ 0 := fun hc =>
        hne ((cpvlengthsq_sub_eq_zero_iff c1.tc c2.tc).mp (hz.mp hc))
      simp only [h0, ne_eq, not_false_eq_true, if_true]
      simp only [cpvmult, cpvneg, cpvsub]
      ext <;> simp <;> ring
    · intro heq
      have h0 : F.cpfsqrt (cpvlengthsq (cpvsub c2.tc c1.tc)) = 0 :=
        hz.mpr ((cpvlengthsq_sub_eq_zero_iff c1.tc c2.tc).mpr heq)
      simp [h0]
  · simp [if_neg hg]

/-- Witness of the amended C9 on the reals: the unit circles centred at `(0,0)` and `(1,0)`
give one contact in both orders, with opposite normals. -/
theorem C9_circle2circle_symmetry_witness :
    (⟨Real.sqrt, 0, fun _ _ => 0, fun _ _ _ => false⟩ : cpEnv ℝ).ExactSqrt ∧
    (circle2circle ⟨Real.sqrt, 0, fun _ _ => 0, fun _ _ _ => false⟩
        (circleAt 1 0 0 (1 : ℝ)) (circleAt 2 1 0 1)
      ⟨.circle (circleAt 1 0 0 1), .circle (circleAt 2 1 0 1), 0, cpvzero, 0,
        zeroContacts⟩).count = 1 ∧
    (circle2circle ⟨Real.sqrt, 0, fun _ _ => 0, fun _ _ _ => false⟩
        (circleAt 2 1 0 (1 : ℝ)) (circleAt 1 0 0 1)
      ⟨.circle (circleAt 2 1 0 1), .circle (circleAt 1 0 0 1), 0, cpvzero, 0,
        zeroContacts⟩).count = 1 ∧
    (circle2circle ⟨Real.sqrt, 0, fun _ _ => 0, fun _ _ _ => false⟩
        (circleAt 2 1 0 (1 : ℝ)) (circleAt 1 0 0 1)
      ⟨.circle (circleAt 2 1 0 1), .circle (circleAt 1 0 0 1), 0, cpvzero, 0,
        zeroContacts⟩).n =
    cpvneg (circle2circle ⟨Real.sqrt, 0, fun _ _ => 0, fun _ _ _ => false⟩ (circleAt 1 0 0 (1 : ℝ))
      (circleAt 2 1 0 1)
      ⟨.circle (circleAt 1 0 0 1), .circle (circleAt 2 1 0 1), 0, cpvzero, 0,
        zeroContacts⟩).n := by
  have hc : (circle2circle ⟨Real.sqrt, 0, fun _ _ => 0, fun _ _ _ => false⟩ (circleAt 1 0 0 (1 : ℝ))
      (circleAt 2 1 0 1)
      ⟨.circle (circleAt 1 0 0 1), .circle (circleAt 2 1 0 1), 0, cpvzero, 0,
        zeroContacts⟩).count = 1 := by
    simp only [circle2circle, circle2circleQuery, circleAt, cpvlengthsq, cpvdot, cpvsub, cpv,
      cpCollisionInfoPushContact]
    norm_num
  have hne : (circleAt 1 0 0 (1 : ℝ)).tc ≠ (circleAt 2 1 0 (1 : ℝ)).tc := by
    intro h
    have := congrArg cpVect.x h
    simp [circleAt, cpv] at this
  have h := C9_circle2circle_symmetry ⟨Real.sqrt, 0, fun _ _ => 0, fun _ _ _ => false⟩
      (realSqrt_exact 0 _ _)
      (circleAt 1 0 0 1) (circleAt 2 1 0 1) 0 0 zeroContacts zeroContacts
  exact ⟨realSqrt_exact 0 _ _, hc, h.1 ▸ hc, (h.2.2 hc).2.2.2.2.1 hne⟩

/-! ### C7: tangent rejection in `circle2segment` -/

/-- C7 fails as stated.  For the circle of centre `(-1/2, 0)` and radius 1 against the
non-degenerate segment from `(0,0)` to `(1,0)` with the tangent `(1,0)` configured at endpoint
A: the clamped
parameter is 0, the circle query emits a contact with normal `n = (1,0)`, the tangent is
configured and `dot(n, rotated a_tangent) = 1 ≥ 0`; yet the contact is kept (count 1), not
suppressed. -/
theorem C7_counterexample :
    oneWaySegment.ta ≠ oneWaySegment.tb ∧
    cpfclamp01 (cpvdot (cpvsub oneWaySegment.tb oneWaySegment.ta)
        (cpvsub leftCircle.tc oneWaySegment.ta) /
      cpvlengthsq (cpvsub oneWaySegment.tb oneWaySegment.ta)) = 0 ∧
    (circle2circleQuery ratEnv leftCircle.tc oneWaySegment.ta leftCircle.r oneWaySegment.r 0
      (freshInfo (.circle leftCircle) (.segment oneWaySegment) 0)).count = 1 ∧
    (circle2circleQuery ratEnv leftCircle.tc oneWaySegment.ta leftCircle.r oneWaySegment.r 0
      (freshInfo (.circle leftCircle) (.segment oneWaySegment) 0)).n = cpv 1 0 ∧
    oneWaySegment.a_tangent ≠ cpvzero ∧
    cpvdot (cpv 1 0) (cpvrotate oneWaySegment.a_tangent oneWaySegment.shape.body.rot) ≥ 0 ∧
    (circle2segment ratEnv leftCircle oneWaySegment
      (freshInfo (.circle leftCircle) (.segment oneWaySegment) 0)).count = 1 := by
  decide!

/-- C7, amended: for a circle and a non-degenerate segment (`ta ≠ tb`), let `info1` be the
result of the circle query of `circle2segment` and suppose it holds a contact
(`info1.count > 0`), with normal `n = info1.n`.  If the clamped parameter
`closest_t` is strictly between 0 and 1 the contact is kept.  If `closest_t = 0` (resp. 1) the
contact is suppressed (`count` reset to 0) exactly when
`dot(n, a_tangent rotated by the body rotation) < 0` (resp. `b_tangent`) and kept otherwise;
in particular it is kept at an endpoint whose tangent is not configured (the zero vector). -/
theorem C7_circle2segment_rejection (F : cpEnv K) (circleShape : cpCircleShape K)
    (segmentShape : cpSegmentShape K) (info info1 : cpCollisionInfo K) (closest_t : K)
    (hab : segmentShape.ta ≠ segmentShape.tb)
    (ht : closest_t = cpfclamp01
      (cpvdot (cpvsub segmentShape.tb segmentShape.ta)
          (cpvsub circleShape.tc segmentShape.ta) /
        cpvlengthsq (cpvsub segmentShape.tb segmentShape.ta)))
    (h1 : info1 = circle2circleQuery F circleShape.tc
      (cpvadd segmentShape.ta (cpvmult (cpvsub segmentShape.tb segmentShape.ta) closest_t))
      circleShape.r segmentShape.r 0 info)
    (hemit : info1.count > 0) :
    (0 < closest_t ∧ closest_t < 1 →
      circle2segment F circleShape segmentShape info = info1) ∧
    (closest_t = 0 →
      (cpvdot info1.n (cpvrotate segmentShape.a_tangent segmentShape.shape.body.rot) < 0 →
        circle2segment F circleShape segmentShape info = { info1 with count := 0 }) ∧
      (cpvdot info1.n (cpvrotate segmentShape.a_tangent segmentShape.shape.body.rot) ≥ 0 →
        circle2segment F circleShape segmentShape info = info1) ∧
      (segmentShape.a_tangent = cpvzero →
        circle2segment F circleShape segmentShape info = info1)) ∧
    (closest_t = 1 →
      (cpvdot info1.n (cpvrotate segmentShape.b_tangent segmentShape.shape.body.rot) < 0 →
        circle2segment F circleShape segmentShape info = { info1 with count := 0 }) ∧
      (cpvdot info1.n (cpvrotate segmentShape.b_tangent segmentShape.shape.body.rot) ≥ 0 →
        circle2segment F circleShape segmentShape info = info1) ∧
      (segmentShape.b_tangent = cpvzero →
        circle2segment F circleShape segmentShape info = info1)) := by
  have hout : circle2segment F circleShape segmentShape info =
      if (closest_t ≠ 0 ∨
            cpvdot info1.n (cpvrotate segmentShape.a_tangent segmentShape.shape.body.rot)
              ≥ 0) ∧
          (closest_t ≠ 1 ∨
            cpvdot info1.n (cpvrotate segmentShape.b_tangent segmentShape.shape.body.rot)
              ≥ 0) then info1
      else { info1 with count := 0 } := by
    unfold circle2segment
    dsimp only
    rw [cpfclamp01X_divSq_of_ne _ _
      (ne_of_gt (cpvlengthsq_sub_pos segmentShape.ta segmentShape.tb hab))]
    simp only [← ht, ← h1, if_pos hemit]
  have h01 : (0 : K) ≠ 1 := zero_ne_one
  rw [hout]
  refine ⟨?_, ?_, ?_⟩
  · rintro ⟨h0, h1'⟩
    rw [if_pos ⟨Or.inl (ne_of_gt h0), Or.inl (ne_of_lt h1')⟩]
  · intro h0
    subst h0
    refine ⟨?_, ?_, ?_⟩
    · intro hd
      rw [if_neg]
      rintro ⟨h | h, _⟩
      · exact h rfl
      · exact absurd hd (not_lt.mpr h)
    · intro hd
      rw [if_pos ⟨Or.inr hd, Or.inl h01⟩]
    · intro hz
      rw [if_pos ⟨Or.inr (by simp [hz, cpvzero, cpvrotate, cpvdot]), Or.inl h01⟩]
  · intro h0
    subst h0
    refine ⟨?_, ?_, ?_⟩
    · intro hd
      rw [if_neg]
      rintro ⟨_, h | h⟩
      · exact h rfl
      · exact absurd hd (not_lt.mpr h)
    · intro hd
      rw [if_pos ⟨Or.inl h01.symm, Or.inr hd⟩]
    · intro hz
      rw [if_pos ⟨Or.inl h01.symm, Or.inr (by simp [hz, cpvzero, cpvrotate, cpvdot])⟩]

/-- Witness of the amended C7: the circle of centre `(3/2, 0)` and radius 1 overlaps endpoint
B of the segment from `(0,0)` to `(1,0)`, where no tangent is configured: `closest_t = 1`,
the circle query emits one contact and `circle2segment` keeps it. -/
theorem C7_circle2segment_rejection_witness :
    oneWaySegment.ta ≠ oneWaySegment.tb ∧
    (1 : ℚ) = cpfclamp01
      (cpvdot (cpvsub oneWaySegment.tb oneWaySegment.ta)
          (cpvsub rightCircle.tc oneWaySegment.ta) /
        cpvlengthsq (cpvsub oneWaySegment.tb oneWaySegment.ta)) ∧
    (circle2circleQuery ratEnv rightCircle.tc
      (cpvadd oneWaySegment.ta (cpvmult (cpvsub oneWaySegment.tb oneWaySegment.ta) 1))
      rightCircle.r oneWaySegment.r 0
      (freshInfo (.circle rightCircle) (.segment oneWaySegment) 0)).count > 0 ∧
    circle2segment ratEnv rightCircle oneWaySegment
        (freshInfo (.circle rightCircle) (.segment oneWaySegment) 0) =
      circle2circleQuery ratEnv rightCircle.tc
        (cpvadd oneWaySegment.ta (cpvmult (cpvsub oneWaySegment.tb oneWaySegment.ta) 1))
        rightCircle.r oneWaySegment.r 0
        (freshInfo (.circle rightCircle) (.segment oneWaySegment) 0) ∧
    (circle2segment ratEnv rightCircle oneWaySegment
        (freshInfo (.circle rightCircle) (.segment oneWaySegment) 0)).count = 1 :=
  ⟨by decide!, by decide!, by decide!,
   ((C7_circle2segment_rejection ratEnv rightCircle oneWaySegment
      (freshInfo (.circle rightCircle) (.segment oneWaySegment) 0) _ 1 (by decide!)
      (by decide!) rfl (by decide!)).2.2 rfl).2.2 rfl,
   by decide!⟩

/-! ### C3: separated shapes -/

/-- C3 at a failing input.  The boxes `[-1,0] × [-1,0]` and `[0,1] × [1,2]` have zero radii
and do not overlap (the first lies in `y ≤ 0`, the second in `y ≥ 1`); all square roots taken
on the way are of perfect squares.  With the fresh id 0, `cpCollideShapes` nevertheless
returns two contacts, both between the corner `(0,0)` of the first box and the corner `(0,1)`
of the second, one unit apart, with depth 0; this holds for counter-clockwise and for
clockwise vertex order. -/
theorem C3_separated_boxes_two_contacts :
    (boxPolyCCW 1 (-1) (-1) 0 (0 : ℚ)).r = 0 ∧ (boxPolyCCW 2 0 1 1 (2 : ℚ)).r = 0 ∧
    (∀ i ∈ List.range 4,
      ((boxPolyCCW 1 (-1) (-1) 0 (0 : ℚ)).tVerts (i : Int)).y ≤ 0 ∧
      1 ≤ ((boxPolyCCW 2 0 1 1 (2 : ℚ)).tVerts (i : Int)).y ∧
      ((boxPolyCW 1 (-1) (-1) 0 (0 : ℚ)).tVerts (i : Int)).y ≤ 0 ∧
      1 ≤ ((boxPolyCW 2 0 1 1 (2 : ℚ)).tVerts (i : Int)).y) ∧
    (cpCollideShapes (Globals.initial ratEnv) (.poly (boxPolyCCW 1 (-1) (-1) 0 0))
      (.poly (boxPolyCCW 2 0 1 1 2)) 0 zeroContacts).count = 2 ∧
    ((cpCollideShapes (Globals.initial ratEnv) (.poly (boxPolyCCW 1 (-1) (-1) 0 0))
      (.poly (boxPolyCCW 2 0 1 1 2)) 0 zeroContacts).arr 0) =
      ⟨cpv 0 0, cpv 0 1, 0, hashPair64 (hashPair64 1 1) (hashPair64 2 0)⟩ ∧
    ((cpCollideShapes (Globals.initial ratEnv) (.poly (boxPolyCCW 1 (-1) (-1) 0 0))
      (.poly (boxPolyCCW 2 0 1 1 2)) 0 zeroContacts).arr 1) =
      ⟨cpv 0 0, cpv 0 1, 0, hashPair64 (hashPair64 1 2) (hashPair64 2 3)⟩ ∧
    (cpCollideShapes (Globals.initial ratEnv) (.poly (boxPolyCW 1 (-1) (-1) 0 0))
      (.poly (boxPolyCW 2 0 1 1 2)) 0 zeroContacts).count = 2 ∧
    ((cpCollideShapes (Globals.initial ratEnv) (.poly (boxPolyCW 1 (-1) (-1) 0 0))
      (.poly (boxPolyCW 2 0 1 1 2)) 0 zeroContacts).arr 0).dist = 0 ∧
    ((cpCollideShapes (Globals.initial ratEnv) (.poly (boxPolyCW 1 (-1) (-1) 0 0))
      (.poly (boxPolyCW 2 0 1 1 2)) 0 zeroContacts).arr 1).dist = 0 := by
  decide!

/-! ### C15: the support vertex -/

/-- Invariant of the loop of `cpSupportPointIndex`: after `k ≥ 1` iterations `index` is the
first position among the first `k` vertices whose dot product with `n` is largest, and `max`
is that dot product. -/
theorem cpSupportPointIndexLoop_spec (verts : Int → cpVect K) (n : cpVect K) (k : Nat)
    (hk : 1 ≤ k) :
    ∃ m : Nat, m < k ∧
      cpSupportPointIndexLoop verts n k = (some (cpvdot (verts (m : Int)) n), (m : Int)) ∧
      (∀ j : Nat, j < k → cpvdot (verts (j : Int)) n ≤ cpvdot (verts (m : Int)) n) ∧
      (∀ j : Nat, j < m → cpvdot (verts (j : Int)) n < cpvdot (verts (m : Int)) n) := by
  induction k with
  | zero => exact absurd hk (by decide)
  | succ k ih =>
    rcases Nat.eq_zero_or_pos k with h0 | hpos
    · subst h0
      refine ⟨0, Nat.lt_succ_self 0, ?_, ?_, ?_⟩
      · simp [cpSupportPointIndexLoop, gtMax]
      · intro j hj
        have : j = 0 := by omega
        subst this
        exact le_refl _
      · intro j hj
        exact absurd hj (Nat.not_lt_zero j)
    · obtain ⟨m, hm, hloop, hall, hfirst⟩ := ih hpos
      rw [cpSupportPointIndexLoop]
      simp only [hloop, gtMax]
      by_cases hgt : cpvdot (verts (k : Int)) n > cpvdot (verts (m : Int)) n
      · simp only [hgt, decide_True, if_true]
        refine ⟨k, Nat.lt_succ_self k, rfl, ?_, ?_⟩
        · intro j hj
          rcases Nat.lt_succ_iff_lt_or_eq.mp hj with hlt | heq
          · exact le_of_lt (lt_of_le_of_lt (hall j hlt) hgt)
          · subst heq
            exact le_refl _
        · intro j hj
          exact lt_of_le_of_lt (hall j hj) hgt
      · simp only [hgt, decide_False, Bool.false_eq_true, if_false]
        refine ⟨m, Nat.lt_succ_of_lt hm, rfl, ?_, hfirst⟩
        intro j hj
        rcases Nat.lt_succ_iff_lt_or_eq.mp hj with hlt | heq
        · exact hall j hlt
        · subst heq
          exact not_lt.mp hgt

/-- The index returned by `cpSupportPointIndex` on a non-empty array, as a natural number
below the count, with its two defining properties. -/
theorem cpSupportPointIndex_spec (count : Int) (verts : Int → cpVect K) (n : cpVect K)
    (hc : 1 ≤ count) :
    ∃ m : Nat, cpSupportPointIndex count verts n = (m : Int) ∧ (m : Int) < count ∧
      (∀ j : Int, 0 ≤ j → j < count → cpvdot (verts j) n ≤ cpvdot (verts (m : Int)) n) ∧
      (∀ j : Int, 0 ≤ j → j < (m : Int) → cpvdot (verts j) n < cpvdot (verts (m : Int)) n) := by
  obtain ⟨m, hm, hloop, hall, hfirst⟩ :=
    cpSupportPointIndexLoop_spec verts n count.toNat (by omega)
  refine ⟨m, ?_, by omega, ?_, ?_⟩
  · unfold cpSupportPointIndex
    rw [hloop]
  · intro j hj0 hj1
    have := hall j.toNat (by omega)
    rwa [Int.toNat_of_nonneg hj0] at this
  · intro j hj0 hj1
    have := hfirst j.toNat (by omega)
    rwa [Int.toNat_of_nonneg hj0] at this

/-- C15: for a non-empty vertex array (`count ≥ 1`) and every direction `n`,
`cpSupportPointIndex` returns an index `i` with `0 ≤ i < count` such that
`dot(verts[i], n) ≥ dot(verts[j], n)` for all `j < count`, and
`dot(verts[j], n) < dot(verts[i], n)` for all `j < i`: ties go to the first maximising
vertex. -/
theorem C15_cpSupportPointIndex (count : Int) (verts : Int → cpVect K) (n : cpVect K)
    (hc : 1 ≤ count) :
    0 ≤ cpSupportPointIndex count verts n ∧ cpSupportPointIndex count verts n < count ∧
    (∀ j : Int, 0 ≤ j → j < count →
      cpvdot (verts (cpSupportPointIndex count verts n)) n ≥ cpvdot (verts j) n) ∧
    (∀ j : Int, 0 ≤ j → j < cpSupportPointIndex count verts n →
      cpvdot (verts j) n < cpvdot (verts (cpSupportPointIndex count verts n)) n) := by
  obtain ⟨m, hm, hlt, hall, hfirst⟩ := cpSupportPointIndex_spec count verts n hc
  rw [hm]
  exact ⟨by omega, hlt, hall, hfirst⟩

/-- Witness of C15: on the clockwise box `[-1,1]²` the direction `(1, 0)` is maximised by the
vertices 2 and 3; the index returned is 2, the first of them. -/
theorem C15_cpSupportPointIndex_witness :
    (1 : Int) ≤ 4 ∧ cpSupportPointIndex 4 unitBoxCW.tVerts (cpv 1 0) = 2 ∧
    cpvdot (unitBoxCW.tVerts 3) (cpv 1 0) =
      cpvdot (unitBoxCW.tVerts (cpSupportPointIndex 4 unitBoxCW.tVerts (cpv 1 0))) (cpv 1 0) ∧
    cpvdot (unitBoxCW.tVerts (cpSupportPointIndex 4 unitBoxCW.tVerts (cpv 1 0))) (cpv 1 0) ≥
      cpvdot (unitBoxCW.tVerts 0) (cpv 1 0) :=
  ⟨by decide, by decide!, by decide!,
   (C15_cpSupportPointIndex 4 unitBoxCW.tVerts (cpv 1 0) (by decide)).2.2.1 0 (by decide)
     (by decide)⟩

/-! ### C16: the closest point of a segment to the origin -/

theorem cpvlengthsq_LerpT (a b : cpVect K) (s : K) :
    cpvlengthsq (LerpT a b s) =
      cpvlengthsq (cpvmult (cpvadd a b) (1 / 2)) +
        s * (cpvdot (cpvsub b a) (cpvadd a b) / 2) +
        s * s * (cpvlengthsq (cpvsub b a) / 4) := by
  simp only [cpvlengthsq, LerpT, cpvdot, cpvadd, cpvmult, cpvsub]
  ring

/-- For `a ≠ b` the divisor of `ClosestT` is not zero and the function is the clamped
quotient. -/
theorem ClosestT_of_ne (a b : cpVect K) (h : a ≠ b) :
    ClosestT a b =
      -cpfclamp (cpvdot (cpvsub b a) (cpvadd a b) / cpvlengthsq (cpvsub b a)) (-1) 1 := by
  unfold ClosestT
  dsimp only
  rw [cpfdivSq_of_ne _ _ (ne_of_gt (cpvlengthsq_sub_pos a b h))]
  rfl

/-- For `a = b` the quotient of `ClosestT` is `0/0`, and the function returns 1. -/
theorem ClosestT_self (a : cpVect K) : ClosestT a a = 1 := by
  unfold ClosestT
  dsimp only
  have hd : cpvsub a a = (⟨0, 0⟩ : cpVect K) := by
    simp only [cpvsub, sub_self]
  rw [hd]
  have h0 : cpvdot (⟨0, 0⟩ : cpVect K) (cpvadd a a) = 0 := by
    simp only [cpvdot, zero_mul, add_zero]
  have h1 : cpvlengthsq (⟨0, 0⟩ : cpVect K) = 0 := by
    simp only [cpvlengthsq, cpvdot, zero_mul, add_zero]
  rw [h0, h1, cpfdivSq_zero 0 rfl]
  simp only [cpfclampX, cpfmin]
  norm_num

theorem ClosestT_bounds (a b : cpVect K) : -1 ≤ ClosestT a b ∧ ClosestT a b ≤ 1 := by
  by_cases h : a = b
  · subst h
    rw [ClosestT_self]
    constructor <;> norm_num
  · rw [ClosestT_of_ne a b h]
    unfold cpfclamp cpfmin cpfmax
    split_ifs <;> constructor <;> linarith

/-- The parameter `ClosestT a b` minimises the squared length of `LerpT a b s` over
`s ∈ [-1, 1]`, for `a ≠ b`. -/
theorem ClosestT_minimises (a b : cpVect K) (h : a ≠ b) (s : K) (hs0 : -1 ≤ s) (hs1 : s ≤ 1) :
    cpvlengthsq (LerpT a b (ClosestT a b)) ≤ cpvlengthsq (LerpT a b s) := by
  have hL : 0 < cpvlengthsq (cpvsub b a) := cpvlengthsq_sub_pos a b h
  rw [cpvlengthsq_LerpT a b s, cpvlengthsq_LerpT a b (ClosestT a b)]
  generalize hLd : cpvlengthsq (cpvsub b a) = L at hL ⊢
  generalize hcd : cpvdot (cpvsub b a) (cpvadd a b) = c
  have ht : ClosestT a b = -cpfclamp (c / L) (-1) 1 := by
    rw [ClosestT_of_ne a b h]
    simp only [hLd, hcd]
  have hc : c = (c / L) * L := by field_simp
  generalize hxd : c / L = x at ht hc
  have key : ∀ t : K, 0 ≤ (s - t) * (2 * x + s + t) →
      cpvlengthsq (cpvmult (cpvadd a b) (1 / 2)) + t * (c / 2) + t * t * (L / 4) ≤
        cpvlengthsq (cpvmult (cpvadd a b) (1 / 2)) + s * (c / 2) + s * s * (L / 4) := by
    intro t hnn
    have h1 : 0 ≤ (L / 4) * ((s - t) * (2 * x + s + t)) :=
      mul_nonneg (by linarith) hnn
    have h2 : (L / 4) * ((s - t) * (2 * x + s + t)) =
        (s * (c / 2) + s * s * (L / 4)) - (t * (c / 2) + t * t * (L / 4)) := by
      rw [hc]
      ring
    linarith
  rw [ht]
  apply key
  unfold cpfclamp cpfmin cpfmax
  split_ifs with h1 h2 h3
  · have : (s - -x) * (2 * x + s + -x) = (s + x) * (s + x) := by ring
    rw [this]
    exact mul_self_nonneg _
  · exact mul_nonneg (by linarith) (by linarith)
  · have h4 : x ≤ -1 := not_lt.mp h1
    have : (s - - -1) * (2 * x + s + - -1) = (1 - s) * (-(2 * x + s + 1)) := by ring
    rw [this]
    exact mul_nonneg (by linarith) (by linarith)
  · exfalso
    exact h3 (by norm_num)

/-- C16: for `a ≠ b`, `t = ClosestT(a, b)` lies in `[-1, 1]`;
`LerpT(a, b, s) = (1/2 - s/2)*a + (1/2 + s/2)*b` runs over the segment `[a, b]` for
`s ∈ [-1, 1]` (it is `lerp(a, b, u)` at `s = 2u - 1`), with `LerpT(a, b, -1) = a` and
`LerpT(a, b, 1) = b`; `LerpT(a, b, t)` is the point of the segment closest to the origin:
`|LerpT(a, b, t)|² ≤ |LerpT(a, b, s)|²` for every `s ∈ [-1, 1]`; and `ClosestDist(a, b)` is
that minimum squared distance. -/
theorem C16_ClosestT_LerpT (a b : cpVect K) (h : a ≠ b) :
    (-1 ≤ ClosestT a b ∧ ClosestT a b ≤ 1) ∧
    (∀ s : K, LerpT a b s =
      cpvadd (cpvmult a (1 / 2 - s / 2)) (cpvmult b (1 / 2 + s / 2))) ∧
    (∀ u : K, cpvlerp a b u = LerpT a b (2 * u - 1)) ∧
    LerpT a b (-1) = a ∧ LerpT a b 1 = b ∧
    (∀ s : K, -1 ≤ s → s ≤ 1 →
      cpvlengthsq (LerpT a b (ClosestT a b)) ≤ cpvlengthsq (LerpT a b s)) ∧
    ClosestDist a b = cpvlengthsq (LerpT a b (ClosestT a b)) ∧
    (∀ s : K, -1 ≤ s → s ≤ 1 → ClosestDist a b ≤ cpvlengthsq (LerpT a b s)) ∧
    (∃ s : K, -1 ≤ s ∧ s ≤ 1 ∧ ClosestDist a b = cpvlengthsq (LerpT a b s)) := by
  refine ⟨ClosestT_bounds a b, ?_, ?_, ?_, ?_, ClosestT_minimises a b h, rfl,
    ClosestT_minimises a b h, ⟨ClosestT a b, (ClosestT_bounds a b).1, (ClosestT_bounds a b).2,
      rfl⟩⟩
  · intro s
    simp only [LerpT, cpvadd, cpvmult]
    ext <;> simp <;> ring
  · intro u
    simp only [LerpT, cpvlerp, cpvadd, cpvmult]
    ext <;> simp <;> ring
  · simp only [LerpT, cpvadd, cpvmult]
    ext <;> simp <;> ring
  · simp only [LerpT, cpvadd, cpvmult]
    ext <;> simp <;> ring

/-- Witness of C16: for `a = (1, 1)` and `b = (1, -3)` the closest point of the segment to
the origin is `(1, 0)`, at `t = -1/2`, with squared distance 1. -/
theorem C16_ClosestT_LerpT_witness :
    (cpv (1 : ℚ) 1) ≠ cpv 1 (-3) ∧ ClosestT (cpv (1 : ℚ) 1) (cpv 1 (-3)) = -1 / 2 ∧
    LerpT (cpv (1 : ℚ) 1) (cpv 1 (-3)) (-1 / 2) = cpv 1 0 ∧
    ClosestDist (cpv (1 : ℚ) 1) (cpv 1 (-3)) = 1 ∧
    ClosestDist (cpv (1 : ℚ) 1) (cpv 1 (-3)) ≤
      cpvlengthsq (LerpT (cpv (1 : ℚ) 1) (cpv 1 (-3)) 0) :=
  ⟨by decide!, by decide!, by decide!, by decide!,
   (C16_ClosestT_LerpT (cpv (1 : ℚ) 1) (cpv 1 (-3)) (by decide!)).2.2.2.2.2.2.2.1 0
     (by norm_num) (by norm_num)⟩

/-! ### C19: the hand-off from GJK to EPA -/

theorem cpvcross_sub_add (a b : cpVect K) :
    cpvcross (cpvsub a b) (cpvadd a b) = 2 * cpvcross a b := by
  simp only [cpvcross, cpvsub, cpvadd]
  ring

/-- One step of `GJKRecurse` on a simplex that passed the orientation step, below the
iteration cap: when the enclosure test holds the result is the one of `EPA` on the triangle
`(v0, p, v1)`. -/
theorem GJKRecurse_handoff (F : cpEnv K) (ctx : SupportContext K) (v0 v1 : MinkowskiPoint K)
    (i : Int) (hi : i ≤ MAX_GJK_ITERATIONS)
    (horient : cpvcross (cpvsub v1.ab v0.ab) (cpvadd v0.ab v1.ab) ≤ 0)
    (p : MinkowskiPoint K)
    (hp : p = Support ctx
      (if -1 < ClosestT v0.ab v1.ab ∧ ClosestT v0.ab v1.ab < 1 then
        cpvperp (cpvsub v1.ab v0.ab)
      else cpvneg (LerpT v0.ab v1.ab (ClosestT v0.ab v1.ab))))
    (h1 : cpvcross (cpvsub v1.ab p.ab) (cpvadd v1.ab p.ab) > 0)
    (h0 : cpvcross (cpvsub v0.ab p.ab) (cpvadd v0.ab p.ab) < 0) :
    GJKRecurse F ctx v0 v1 i = EPA F ctx v0 p v1 := by
  rw [GJKRecurse]
  subst hp
  rw [dif_neg (not_lt.mpr hi)]
  simp only [if_neg (not_lt.mpr horient)]
  rw [if_pos ⟨h1, h0⟩]

/-- C19: let `(v0, v1)` be a simplex that passed the orientation step,
`cross(v1.ab - v0.ab, v0.ab + v1.ab) ≤ 0`.  For every point `p`, if
`cross(v1.ab - p.ab, v1.ab + p.ab) > 0` and `cross(v0.ab - p.ab, v0.ab + p.ab) < 0` then the
origin is a convex combination of `v0.ab`, `p.ab` and `v1.ab`; conversely, if the origin is a
combination of the three with positive weights and the triangle is not flat (the origin is
strictly inside it), both inequalities hold.  Below the iteration cap, when the test holds
for the support point `p` that `GJKRecurse` computes, `GJKRecurse` returns
`EPA(ctx, v0, p, v1)`. -/
theorem C19_GJK_EPA_handoff (F : cpEnv K) (ctx : SupportContext K)
    (v0 v1 : MinkowskiPoint K)
    (horient : cpvcross (cpvsub v1.ab v0.ab) (cpvadd v0.ab v1.ab) ≤ 0) :
    (∀ p : MinkowskiPoint K,
      cpvcross (cpvsub v1.ab p.ab) (cpvadd v1.ab p.ab) > 0 →
      cpvcross (cpvsub v0.ab p.ab) (cpvadd v0.ab p.ab) < 0 →
      ∃ α β γ : K, 0 ≤ α ∧ 0 ≤ β ∧ 0 ≤ γ ∧ α + β + γ = 1 ∧
        cpvadd (cpvadd (cpvmult v0.ab α) (cpvmult p.ab β)) (cpvmult v1.ab γ) = cpvzero) ∧
    (∀ p : MinkowskiPoint K,
      (∃ α β γ : K, 0 < α ∧ 0 < β ∧ 0 < γ ∧ α + β + γ = 1 ∧
        cpvadd (cpvadd (cpvmult v0.ab α) (cpvmult p.ab β)) (cpvmult v1.ab γ) = cpvzero) →
      cpvcross (cpvsub v1.ab v0.ab) (cpvsub p.ab v0.ab) ≠ 0 →
      cpvcross (cpvsub v1.ab p.ab) (cpvadd v1.ab p.ab) > 0 ∧
      cpvcross (cpvsub v0.ab p.ab) (cpvadd v0.ab p.ab) < 0) ∧
    (∀ i : Int, i ≤ MAX_GJK_ITERATIONS →
      cpvcross (cpvsub v1.ab
          (Support ctx
            (if -1 < ClosestT v0.ab v1.ab ∧ ClosestT v0.ab v1.ab < 1 then
              cpvperp (cpvsub v1.ab v0.ab)
            else cpvneg (LerpT v0.ab v1.ab (ClosestT v0.ab v1.ab)))).ab)
        (cpvadd v1.ab
          (Support ctx
            (if -1 < ClosestT v0.ab v1.ab ∧ ClosestT v0.ab v1.ab < 1 then
              cpvperp (cpvsub v1.ab v0.ab)
            else cpvneg (LerpT v0.ab v1.ab (ClosestT v0.ab v1.ab)))).ab) > 0 →
      cpvcross (cpvsub v0.ab
          (Support ctx
            (if -1 < ClosestT v0.ab v1.ab ∧ ClosestT v0.ab v1.ab < 1 then
              cpvperp (cpvsub v1.ab v0.ab)
            else cpvneg (LerpT v0.ab v1.ab (ClosestT v0.ab v1.ab)))).ab)
        (cpvadd v0.ab
          (Support ctx
            (if -1 < ClosestT v0.ab v1.ab ∧ ClosestT v0.ab v1.ab < 1 then
              cpvperp (cpvsub v1.ab v0.ab)
            else cpvneg (LerpT v0.ab v1.ab (ClosestT v0.ab v1.ab)))).ab) < 0 →
      GJKRecurse F ctx v0 v1 i =
        EPA F ctx v0
          (Support ctx
            (if -1 < ClosestT v0.ab v1.ab ∧ ClosestT v0.ab v1.ab < 1 then
              cpvperp (cpvsub v1.ab v0.ab)
            else cpvneg (LerpT v0.ab v1.ab (ClosestT v0.ab v1.ab)))) v1) := by
  have hc : 0 ≤ cpvcross v0.ab v1.ab := by
    have : cpvcross (cpvsub v1.ab v0.ab) (cpvadd v0.ab v1.ab) =
        - (2 * cpvcross v0.ab v1.ab) := by
      simp only [cpvcross, cpvsub, cpvadd]
      ring
    linarith
  refine ⟨?_, ?_, ?_⟩
  · intro p h1 h0
    rw [cpvcross_sub_add] at h1 h0
    have h1' : 0 < cpvcross v1.ab p.ab := by linarith
    have h0' : 0 < cpvcross p.ab v0.ab := by
      have : cpvcross p.ab v0.ab = - cpvcross v0.ab p.ab := by
        simp only [cpvcross]
        ring
      linarith
    have hS : 0 < cpvcross v1.ab p.ab + cpvcross v0.ab v1.ab + cpvcross p.ab v0.ab := by
      linarith
    refine ⟨cpvcross v1.ab p.ab /
        (cpvcross v1.ab p.ab + cpvcross v0.ab v1.ab + cpvcross p.ab v0.ab),
      cpvcross v0.ab v1.ab /
        (cpvcross v1.ab p.ab + cpvcross v0.ab v1.ab + cpvcross p.ab v0.ab),
      cpvcross p.ab v0.ab /
        (cpvcross v1.ab p.ab + cpvcross v0.ab v1.ab + cpvcross p.ab v0.ab),
      div_nonneg (le_of_lt h1') (le_of_lt hS), div_nonneg hc (le_of_lt hS),
      div_nonneg (le_of_lt h0') (le_of_lt hS), ?_, ?_⟩
    · field_simp
    · have hne := ne_of_gt hS
      simp only [cpvadd, cpvmult, cpvzero]
      ext
      · simp only
        field_simp
        simp only [cpvcross]
        ring
      · simp only
        field_simp
        simp only [cpvcross]
        ring
  · rintro p ⟨α, β, γ, hα, hβ, hγ, hsum, hcomb⟩ harea
    have hx := congrArg cpVect.x hcomb
    have hy := congrArg cpVect.y hcomb
    simp only [cpvadd, cpvmult, cpvzero] at hx hy
    have e1 : β * cpvcross v1.ab p.ab = α * cpvcross v0.ab v1.ab := by
      simp only [cpvcross]
      linear_combination v1.ab.x * hy - v1.ab.y * hx
    have e0 : β * cpvcross p.ab v0.ab = γ * cpvcross v0.ab v1.ab := by
      simp only [cpvcross]
      linear_combination v0.ab.y * hx - v0.ab.x * hy
    have ea : β * cpvcross (cpvsub v1.ab v0.ab) (cpvsub p.ab v0.ab) =
        cpvcross v0.ab v1.ab := by
      have : cpvcross (cpvsub v1.ab v0.ab) (cpvsub p.ab v0.ab) =
          cpvcross v1.ab p.ab + cpvcross v0.ab v1.ab + cpvcross p.ab v0.ab := by
        simp only [cpvcross, cpvsub]
        ring
      rw [this, mul_add, mul_add, e1, e0]
      have : α * cpvcross v0.ab v1.ab + β * cpvcross v0.ab v1.ab +
          γ * cpvcross v0.ab v1.ab = (α + β + γ) * cpvcross v0.ab v1.ab := by ring
      rw [this, hsum, one_mul]
    have hcpos : 0 < cpvcross v0.ab v1.ab := by
      rcases lt_or_eq_of_le hc with h | h
      · exact h
      · exfalso
        rw [← h] at ea
        rcases mul_eq_zero.mp ea with hb | ha
        · exact absurd hb (ne_of_gt hβ)
        · exact harea ha
    have p1 : 0 < cpvcross v1.ab p.ab := by
      have : 0 < β * cpvcross v1.ab p.ab := by
        rw [e1]
        exact mul_pos hα hcpos
      exact (mul_pos_iff_of_pos_left hβ).mp this
    have p0 : 0 < cpvcross p.ab v0.ab := by
      have : 0 < β * cpvcross p.ab v0.ab := by
        rw [e0]
        exact mul_pos hγ hcpos
      exact (mul_pos_iff_of_pos_left hβ).mp this
    rw [cpvcross_sub_add, cpvcross_sub_add]
    have : cpvcross v0.ab p.ab = - cpvcross p.ab v0.ab := by
      simp only [cpvcross]
      ring
    constructor <;> linarith
  · intro i hi h1 h0
    exact GJKRecurse_handoff F ctx v0 v1 i hi horient _ rfl h1 h0

/-- Witness of C19: on the overlapping boxes `[-1,1]²` and `[1/2,5/2]²` the seeds
`(7/2, -1/2)` and `(-1/2, 7/2)` pass the orientation step, the support point
`p = (-1/2, -1/2)` passes the enclosure test, the origin is a convex combination of the three
points and `GJKRecurse` hands the triangle to `EPA`. -/
theorem C19_GJK_EPA_handoff_witness :
    cpvcross (cpvsub cornerV1.ab cornerV0.ab) (cpvadd cornerV0.ab cornerV1.ab) ≤ 0 ∧
    (Support cornerCtx (cpv (-4) (-4))).ab = cpv (-1 / 2) (-1 / 2) ∧
    (∃ α β γ : ℚ, 0 ≤ α ∧ 0 ≤ β ∧ 0 ≤ γ ∧ α + β + γ = 1 ∧
      cpvadd (cpvadd (cpvmult cornerV0.ab α)
        (cpvmult (Support cornerCtx (cpv (-4) (-4))).ab β)) (cpvmult cornerV1.ab γ)
        = cpvzero) ∧
    GJKRecurse ratEnv cornerCtx cornerV0 cornerV1 1 =
      EPA ratEnv cornerCtx cornerV0 (Support cornerCtx (cpv (-4) (-4))) cornerV1 :=
  ⟨by decide!, by decide!,
   (C19_GJK_EPA_handoff ratEnv cornerCtx cornerV0 cornerV1 (by decide!)).1
     (Support cornerCtx (cpv (-4) (-4))) (by decide!) (by decide!),
   by
    have h := (C19_GJK_EPA_handoff ratEnv cornerCtx cornerV0 cornerV1 (by decide!)).2.2 1
      (by decide)
    have e : (if -1 < ClosestT cornerV0.ab cornerV1.ab ∧ ClosestT cornerV0.ab cornerV1.ab < 1
        then cpvperp (cpvsub cornerV1.ab cornerV0.ab)
        else cpvneg (LerpT cornerV0.ab cornerV1.ab (ClosestT cornerV0.ab cornerV1.ab)))
        = cpv (-4) (-4) := by decide!
    rw [e] at h
    exact h (by decide!) (by decide!)⟩

/-! ### C13: contact hashes -/

/-- The function `ContactPoints` when `points.d ≤ e1.r + e2.r`, as two conditional pushes on
the incoming info. -/
theorem ContactPoints_pushes (F : cpEnv K) (e1 e2 : Edge K) (points : ClosestPoints K)
    (info : cpCollisionInfo K) (h : points.d ≤ e1.r + e2.r) :
    let n := points.n
    let r1 := cpvadd (cpvmult n e1.r) (cpvlerp e1.a.p e1.b.p
      (cpfclamp01X (cpfmulX (cpvcross e2.b.p n - cpvcross e1.a.p n)
        (cpfrecip (cpvcross e1.b.p n - cpvcross e1.a.p n)
          (F.negZero e1.a.p e1.b.p n)))))
    let r2 := cpvadd (cpvmult n (-e2.r)) (cpvlerp e2.a.p e2.b.p
      (cpfclamp01X (cpfmulX (cpvcross e1.a.p n - cpvcross e2.a.p n)
        (cpfrecip (cpvcross e2.b.p n - cpvcross e2.a.p n)
          (F.negZero e2.a.p e2.b.p n)))))
    let s1 := cpvadd (cpvmult n e1.r) (cpvlerp e1.a.p e1.b.p
      (cpfclamp01X (cpfmulX (cpvcross e2.a.p n - cpvcross e1.a.p n)
        (cpfrecip (cpvcross e1.b.p n - cpvcross e1.a.p n)
          (F.negZero e1.a.p e1.b.p n)))))
    let s2 := cpvadd (cpvmult n (-e2.r)) (cpvlerp e2.a.p e2.b.p
      (cpfclamp01X (cpfmulX (cpvcross e1.b.p n - cpvcross e2.a.p n)
        (cpfrecip (cpvcross e2.b.p n - cpvcross e2.a.p n)
          (F.negZero e2.a.p e2.b.p n)))))
    let dist := cpvdot (cpvsub r2 r1) n
    let dist2 := cpvdot (cpvsub s2 s1) n
    ContactPoints F e1 e2 points info =
      if dist2 ≤ 0 then
        cpCollisionInfoPushContact
          (if dist ≤ 0 then
            cpCollisionInfoPushContact info (cpvsub r1 info.a.body.p)
              (cpvsub r2 info.b.body.p) n dist (F.CP_HASH_PAIR e1.a.hash e2.b.hash)
          else info)
          (cpvsub s1 info.a.body.p) (cpvsub s2 info.b.body.p) n dist2
          (F.CP_HASH_PAIR e1.b.hash e2.a.hash)
      else
        (if dist ≤ 0 then
            cpCollisionInfoPushContact info (cpvsub r1 info.a.body.p)
              (cpvsub r2 info.b.body.p) n dist (F.CP_HASH_PAIR e1.a.hash e2.b.hash)
          else info) := by
  intro n r1 r2 s1 s2 dist dist2
  unfold ContactPoints
  simp only [if_pos h]
  by_cases hd : dist ≤ 0
  · simp only [if_pos hd]
    rfl
  · simp only [if_neg hd]

/-- The contacts `ContactPoints` adds, whatever the geometry: it adds none, one or two; the
hash of one it adds is `H(e1.a.hash, e2.b.hash)` or `H(e1.b.hash, e2.a.hash)`; when it adds
two, the first carries the former and the second the latter. -/
theorem ContactPoints_hashes (F : cpEnv K) (e1 e2 : Edge K) (points : ClosestPoints K)
    (info : cpCollisionInfo K) :
    ((ContactPoints F e1 e2 points info).count = info.count ∨
      (ContactPoints F e1 e2 points info).count = info.count + 1 ∨
      (ContactPoints F e1 e2 points info).count = info.count + 2) ∧
    ((ContactPoints F e1 e2 points info).count = info.count + 1 →
      ((ContactPoints F e1 e2 points info).arr info.count).hash =
          F.CP_HASH_PAIR e1.a.hash e2.b.hash ∨
      ((ContactPoints F e1 e2 points info).arr info.count).hash =
          F.CP_HASH_PAIR e1.b.hash e2.a.hash) ∧
    ((ContactPoints F e1 e2 points info).count = info.count + 2 →
      ((ContactPoints F e1 e2 points info).arr info.count).hash =
          F.CP_HASH_PAIR e1.a.hash e2.b.hash ∧
      ((ContactPoints F e1 e2 points info).arr (info.count + 1)).hash =
          F.CP_HASH_PAIR e1.b.hash e2.a.hash) := by
  by_cases h : points.d ≤ e1.r + e2.r
  · have hout := ContactPoints_pushes F e1 e2 points info h
    simp only at hout
    rw [hout]
    split_ifs with hd2 hd
    · simp only [cpCollisionInfoPushContact]
      refine ⟨Or.inr (Or.inr (by omega)), fun h => absurd h (by omega), fun _ => ?_⟩
      rw [Function.update_noteq (by omega), Function.update_same, Function.update_same]
      exact ⟨rfl, rfl⟩
    · simp only [cpCollisionInfoPushContact]
      refine ⟨Or.inr (Or.inl trivial), fun _ => Or.inr ?_, fun h => absurd h (by omega)⟩
      rw [Function.update_same]
    · simp only [cpCollisionInfoPushContact]
      refine ⟨Or.inr (Or.inl trivial), fun _ => Or.inl ?_, fun h => absurd h (by omega)⟩
      rw [Function.update_same]
    · exact ⟨Or.inl rfl, fun h => absurd h (by omega), fun h => absurd h (by omega)⟩
  · have hout : ContactPoints F e1 e2 points info = info := by
      unfold ContactPoints
      simp only [if_neg h]
    rw [hout]
    exact ⟨Or.inl rfl, fun h => absurd h (by omega), fun h => absurd h (by omega)⟩

/-- C13: the hash of a contact depends only on the endpoint hashes of the two edges.  With
`n = points.n` and the two clip distances `dist` (pairing `e1.a`, `e2.b`) and `dist2`
(pairing `e1.b`, `e2.a`) of `ContactPoints`: when the first pairing emits (`dist ≤ 0`) its
contact is written first and carries `H(e1.a.hash, e2.b.hash)`; when the second emits
(`dist2 ≤ 0`) its contact comes next and carries `H(e1.b.hash, e2.a.hash)`.  Hence for a
second run on edges with the same four endpoint hashes and any other positions, radii,
normals, closest points and info, every contact either run adds carries one of the same two
values, and when a run adds two they are these two values in this order.  The clip
distances are those the code computes, also for an edge parallel to `n`, where it divides by
zero. -/
theorem C13_contact_hashes (F : cpEnv K) (e1 e2 : Edge K) (points : ClosestPoints K)
    (info : cpCollisionInfo K) :
    (points.d ≤ e1.r + e2.r →
      let n := points.n
      let r1 := cpvadd (cpvmult n e1.r) (cpvlerp e1.a.p e1.b.p
        (cpfclamp01X (cpfmulX (cpvcross e2.b.p n - cpvcross e1.a.p n)
          (cpfrecip (cpvcross e1.b.p n - cpvcross e1.a.p n)
            (F.negZero e1.a.p e1.b.p n)))))
      let r2 := cpvadd (cpvmult n (-e2.r)) (cpvlerp e2.a.p e2.b.p
        (cpfclamp01X (cpfmulX (cpvcross e1.a.p n - cpvcross e2.a.p n)
          (cpfrecip (cpvcross e2.b.p n - cpvcross e2.a.p n)
            (F.negZero e2.a.p e2.b.p n)))))
      let s1 := cpvadd (cpvmult n e1.r) (cpvlerp e1.a.p e1.b.p
        (cpfclamp01X (cpfmulX (cpvcross e2.a.p n - cpvcross e1.a.p n)
          (cpfrecip (cpvcross e1.b.p n - cpvcross e1.a.p n)
            (F.negZero e1.a.p e1.b.p n)))))
      let s2 := cpvadd (cpvmult n (-e2.r)) (cpvlerp e2.a.p e2.b.p
        (cpfclamp01X (cpfmulX (cpvcross e1.b.p n - cpvcross e2.a.p n)
          (cpfrecip (cpvcross e2.b.p n - cpvcross e2.a.p n)
            (F.negZero e2.a.p e2.b.p n)))))
      let dist := cpvdot (cpvsub r2 r1) n
      let dist2 := cpvdot (cpvsub s2 s1) n
      (dist ≤ 0 → ((ContactPoints F e1 e2 points info).arr info.count).hash =
        F.CP_HASH_PAIR e1.a.hash e2.b.hash) ∧
      (dist2 ≤ 0 →
        ((ContactPoints F e1 e2 points info).arr
          (info.count + (if dist ≤ 0 then 1 else 0))).hash =
        F.CP_HASH_PAIR e1.b.hash e2.a.hash)) ∧
    (∀ (e3 e4 : Edge K) (points2 : ClosestPoints K) (info2 : cpCollisionInfo K),
      e3.a.hash = e1.a.hash → e3.b.hash = e1.b.hash →
      e4.a.hash = e2.a.hash → e4.b.hash = e2.b.hash →
      (∀ j : Int, info.count ≤ j → j < (ContactPoints F e1 e2 points info).count →
        ((ContactPoints F e1 e2 points info).arr j).hash =
            F.CP_HASH_PAIR e1.a.hash e2.b.hash ∨
        ((ContactPoints F e1 e2 points info).arr j).hash =
            F.CP_HASH_PAIR e1.b.hash e2.a.hash) ∧
      (∀ j : Int, info2.count ≤ j → j < (ContactPoints F e3 e4 points2 info2).count →
        ((ContactPoints F e3 e4 points2 info2).arr j).hash =
            F.CP_HASH_PAIR e1.a.hash e2.b.hash ∨
        ((ContactPoints F e3 e4 points2 info2).arr j).hash =
            F.CP_HASH_PAIR e1.b.hash e2.a.hash) ∧
      ((ContactPoints F e1 e2 points info).count = info.count + 2 →
        (ContactPoints F e3 e4 points2 info2).count = info2.count + 2 →
        ((ContactPoints F e1 e2 points info).arr info.count).hash =
          ((ContactPoints F e3 e4 points2 info2).arr info2.count).hash ∧
        ((ContactPoints F e1 e2 points info).arr (info.count + 1)).hash =
          ((ContactPoints F e3 e4 points2 info2).arr (info2.count + 1)).hash)) := by
  have hset : ∀ (f1 f2 : Edge K) (pts : ClosestPoints K) (inf : cpCollisionInfo K) (j : Int),
      inf.count ≤ j → j < (ContactPoints F f1 f2 pts inf).count →
      ((ContactPoints F f1 f2 pts inf).arr j).hash = F.CP_HASH_PAIR f1.a.hash f2.b.hash ∨
      ((ContactPoints F f1 f2 pts inf).arr j).hash = F.CP_HASH_PAIR f1.b.hash f2.a.hash := by
    intro f1 f2 pts inf j hj0 hj1
    obtain ⟨hc, h1, h2⟩ := ContactPoints_hashes F f1 f2 pts inf
    rcases hc with hc | hc | hc
    · omega
    · have : j = inf.count := by omega
      subst this
      exact h1 hc
    · have : j = inf.count ∨ j = inf.count + 1 := by omega
      rcases this with rfl | rfl
      · exact Or.inl (h2 hc).1
      · exact Or.inr (h2 hc).2
  constructor
  · intro h
    intro n r1 r2 s1 s2 dist dist2
    have hout := ContactPoints_pushes F e1 e2 points info h
    simp only at hout
    rw [hout]
    constructor
    · intro hd
      by_cases hd2 : dist2 ≤ 0
      · simp only [if_pos hd, if_pos hd2, cpCollisionInfoPushContact]
        rw [Function.update_noteq (by omega), Function.update_same]
      · simp only [if_pos hd, if_neg hd2, cpCollisionInfoPushContact]
        rw [Function.update_same]
    · intro hd2
      by_cases hd : dist ≤ 0
      · simp only [if_pos hd, if_pos hd2, cpCollisionInfoPushContact]
        rw [Function.update_same]
      · simp only [if_neg hd, if_pos hd2, cpCollisionInfoPushContact, add_zero]
        rw [Function.update_same]
  · intro e3 e4 points2 info2 h3a h3b h4a h4b
    refine ⟨hset e1 e2 points info, ?_, ?_⟩
    · intro j hj0 hj1
      have := hset e3 e4 points2 info2 j hj0 hj1
      rwa [h3a, h3b, h4a, h4b] at this
    · intro hc hc2
      have h1 := ((ContactPoints_hashes F e1 e2 points info).2.2 hc)
      have h2 := ((ContactPoints_hashes F e3 e4 points2 info2).2.2 hc2)
      rw [h3a, h3b, h4a, h4b] at h2
      exact ⟨h1.1.trans h2.1.symm, h1.2.trans h2.2.symm⟩

/-- Witness of C13 on an edge parallel to the normal: `e1` from `(2,0)` to `(0,0)`, `e2` from
`(1,2)` to `(1,-2)`, `n = (1,0)`, `d = -1`.  Only the second pairing emits, and the one contact
added carries `H(e1.b.hash, e2.a.hash) = H(2, 3)`. -/
theorem C13_contact_hashes_witness :
    alongPoints.d ≤ backEdge.r + tallEdge.r ∧
    (ContactPoints ratEnv backEdge tallEdge alongPoints
      (freshInfo (.poly unitBoxCW) (.poly farBoxCW) 0)).count = 1 ∧
    ((ContactPoints ratEnv backEdge tallEdge alongPoints
      (freshInfo (.poly unitBoxCW) (.poly farBoxCW) 0)).arr 0).hash = hashPair64 2 3 ∧
    (∀ j : Int, (0 : Int) ≤ j →
      j < (ContactPoints ratEnv backEdge tallEdge alongPoints
        (freshInfo (.poly unitBoxCW) (.poly farBoxCW) 0)).count →
      ((ContactPoints ratEnv backEdge tallEdge alongPoints
        (freshInfo (.poly unitBoxCW) (.poly farBoxCW) 0)).arr j).hash =
          ratEnv.CP_HASH_PAIR backEdge.a.hash tallEdge.b.hash ∨
      ((ContactPoints ratEnv backEdge tallEdge alongPoints
        (freshInfo (.poly unitBoxCW) (.poly farBoxCW) 0)).arr j).hash =
          ratEnv.CP_HASH_PAIR backEdge.b.hash tallEdge.a.hash) :=
  ⟨by decide!, by decide!, by decide!,
   ((C13_contact_hashes ratEnv backEdge tallEdge alongPoints
      (freshInfo (.poly unitBoxCW) (.poly farBoxCW) 0)).2 backEdge tallEdge alongPoints
      (freshInfo (.poly unitBoxCW) (.poly farBoxCW) 0) rfl rfl rfl rfl).1⟩

/-! ### C11: seeding from a stale id -/

/-- C11 at a failing input.  For the 4-vertex array of `staleBoxCW` and `i = 5`,
`ShapePoint` returns the index 0 but the position `verts[5] = (5, 0)`, a cell past the end
of the array, not `verts[0] = (-1, -1)`.  The polygons `unitBoxCW` and `staleBoxCW` have the
same count and the same four vertices and planes, and differ only in memory past the array;
against the box `[2,4] × [-1,1]`, one unit away, with the stale id `0x05000000`,
`cpCollideShapes` returns no contact for the first and two contacts for the second. -/
theorem C11_stale_id_reads_past_count :
    (ShapePoint 4 staleBoxCW.tVerts 5).id = 0 ∧
    (ShapePoint 4 staleBoxCW.tVerts 5).p = cpv 5 0 ∧
    staleBoxCW.tVerts 5 = cpv 5 0 ∧
    staleBoxCW.tVerts 0 = cpv (-1) (-1) ∧
    (ShapePoint 4 staleBoxCW.tVerts 5).p ≠
      staleBoxCW.tVerts ((ShapePoint 4 staleBoxCW.tVerts 5).id : Int) ∧
    staleBoxCW.numVerts = 4 ∧ unitBoxCW.numVerts = 4 ∧
    (∀ i ∈ List.range 4, staleBoxCW.tVerts (i : Int) = unitBoxCW.tVerts (i : Int) ∧
      staleBoxCW.tPlanes (i : Int) = unitBoxCW.tPlanes (i : Int)) ∧
    (∀ i ∈ List.range 4, (unitBoxCW.tVerts (i : Int)).x ≤ 1 ∧
      2 ≤ (farBoxCW.tVerts (i : Int)).x) ∧
    (cpCollideShapes (Globals.initial ratEnv) (.poly unitBoxCW) (.poly farBoxCW) 0x05000000
      zeroContacts).count = 0 ∧
    (cpCollideShapes (Globals.initial ratEnv) (.poly staleBoxCW) (.poly farBoxCW) 0x05000000
      zeroContacts).count = 2 := by
  decide!

/-! ### C17: two overlapping squares -/

/-- C17: the counter-clockwise squares of half-extent 1 centred at `(0,0)` and `(3/2, 0)`,
zero radii, incoming id 0.  With `CPFLOAT_MIN` rounded away (`ratEnv0`), `poly2poly` yields
two contacts, normal `(1, 0)`, both of depth `-1/2`, at world positions `(1, -1)` and
`(1, 1)` on shape a (the face `x = 1`) and `(1/2, -1)`, `(1/2, 1)` on shape b.  With
`CPFLOAT_MIN = 2^-1022` kept exactly (`ratEnv`) the count and the positions are the same, the
normal is `(k, 0)` and both depths are `-k/2` with `1 - 2^-1024 < k < 1`. -/
theorem C17_overlapping_squares :
    (poly2poly ratEnv0 squareA squareB
      (freshInfo (.poly squareA) (.poly squareB) 0)).count = 2 ∧
    (poly2poly ratEnv0 squareA squareB
      (freshInfo (.poly squareA) (.poly squareB) 0)).n = cpv 1 0 ∧
    ((poly2poly ratEnv0 squareA squareB
      (freshInfo (.poly squareA) (.poly squareB) 0)).arr 0).dist = -1 / 2 ∧
    ((poly2poly ratEnv0 squareA squareB
      (freshInfo (.poly squareA) (.poly squareB) 0)).arr 1).dist = -1 / 2 ∧
    cpvadd ((poly2poly ratEnv0 squareA squareB
      (freshInfo (.poly squareA) (.poly squareB) 0)).arr 0).r1 squareA.shape.body.p
      = cpv 1 (-1) ∧
    cpvadd ((poly2poly ratEnv0 squareA squareB
      (freshInfo (.poly squareA) (.poly squareB) 0)).arr 1).r1 squareA.shape.body.p
      = cpv 1 1 ∧
    cpvadd ((poly2poly ratEnv0 squareA squareB
      (freshInfo (.poly squareA) (.poly squareB) 0)).arr 0).r2 squareB.shape.body.p
      = cpv (1 / 2) (-1) ∧
    cpvadd ((poly2poly ratEnv0 squareA squareB
      (freshInfo (.poly squareA) (.poly squareB) 0)).arr 1).r2 squareB.shape.body.p
      = cpv (1 / 2) 1 ∧
    cpCollideShapes (Globals.initial ratEnv0) (.poly squareA) (.poly squareB) 0 zeroContacts =
      poly2poly ratEnv0 squareA squareB (freshInfo (.poly squareA) (.poly squareB) 0) ∧
    (poly2poly ratEnv squareA squareB
      (freshInfo (.poly squareA) (.poly squareB) 0)).count = 2 ∧
    (poly2poly ratEnv squareA squareB
      (freshInfo (.poly squareA) (.poly squareB) 0)).n.y = 0 ∧
    1 - 1 / 2 ^ 1024 < (poly2poly ratEnv squareA squareB
      (freshInfo (.poly squareA) (.poly squareB) 0)).n.x ∧
    (poly2poly ratEnv squareA squareB
      (freshInfo (.poly squareA) (.poly squareB) 0)).n.x < 1 ∧
    ((poly2poly ratEnv squareA squareB
      (freshInfo (.poly squareA) (.poly squareB) 0)).arr 0).dist =
      -(poly2poly ratEnv squareA squareB
        (freshInfo (.poly squareA) (.poly squareB) 0)).n.x / 2 ∧
    ((poly2poly ratEnv squareA squareB
      (freshInfo (.poly squareA) (.poly squareB) 0)).arr 1).dist =
      -(poly2poly ratEnv squareA squareB
        (freshInfo (.poly squareA) (.poly squareB) 0)).n.x / 2 ∧
    ((poly2poly ratEnv squareA squareB
      (freshInfo (.poly squareA) (.poly squareB) 0)).arr 0).r1 = cpv 1 (-1) ∧
    ((poly2poly ratEnv squareA squareB
      (freshInfo (.poly squareA) (.poly squareB) 0)).arr 1).r1 = cpv 1 1 := by
  refine ⟨by decide!, by decide!, by decide!, by decide!, by decide!, by decide!, by decide!,
    by decide!, rfl, by decide!, by decide!, by decide!, by decide!, by decide!, by decide!,
    by decide!, by decide!⟩

/-! ### C20: the closest points -/

/-- C20 at a failing input.  The Minkowski points with `ab = (0, 1)` and `ab = (0, 3)` have
`ab = b - a`, are distinct and satisfy the orientation condition (the cross product is 0:
the simplex is collinear with the origin).  `ClosestPointsNew` returns the points
`a = (0, 0)` and `b = (0, 1)`, whose difference is the closest point `(0, 1)` of the segment
to the origin, but the distance `d = 0`, whereas `|b - a| = 1`. -/
theorem C20_collinear_simplex_distance :
    collinearV0.ab = cpvsub collinearV0.b collinearV0.a ∧
    collinearV1.ab = cpvsub collinearV1.b collinearV1.a ∧
    collinearV0.ab ≠ collinearV1.ab ∧
    cpvcross (cpvsub collinearV1.ab collinearV0.ab)
      (cpvadd collinearV0.ab collinearV1.ab) ≤ 0 ∧
    (ClosestPointsNew ratEnv collinearV0 collinearV1).a = cpv 0 0 ∧
    (ClosestPointsNew ratEnv collinearV0 collinearV1).b = cpv 0 1 ∧
    cpvsub (ClosestPointsNew ratEnv collinearV0 collinearV1).b
        (ClosestPointsNew ratEnv collinearV0 collinearV1).a =
      LerpT collinearV0.ab collinearV1.ab (ClosestT collinearV0.ab collinearV1.ab) ∧
    cpvlengthsq (cpvsub (ClosestPointsNew ratEnv collinearV0 collinearV1).b
      (ClosestPointsNew ratEnv collinearV0 collinearV1).a) = 1 ∧
    (ClosestPointsNew ratEnv collinearV0 collinearV1).d = 0 ∧
    (ClosestPointsNew ratEnv collinearV0 collinearV1).d *
        (ClosestPointsNew ratEnv collinearV0 collinearV1).d ≠
      cpvlengthsq (cpvsub (ClosestPointsNew ratEnv collinearV0 collinearV1).b
        (ClosestPointsNew ratEnv collinearV0 collinearV1).a) := by
  decide!

/-! ### C18: a square and a circle half a unit apart -/

/-- C18 fails as stated: for the square of half-extent 1 centred at `(0,0)` (either vertex
order) and the circle of centre `(2, 0)` and radius `1/2`, the count is 0, not 1, in either
order of the two shapes; the circle spans `x ∈ [3/2, 5/2]` and the square ends at `x = 1`. -/
theorem C18_counterexample :
    (∀ i ∈ List.range 4, (squareA.tVerts (i : Int)).x ≤ 1) ∧
    farCircle.tc.x - farCircle.r = 3 / 2 ∧
    (cpCollideShapes (Globals.initial ratEnv) (.circle farCircle) (.poly squareA) 0
      zeroContacts).count = 0 ∧
    (cpCollideShapes (Globals.initial ratEnv) (.circle farCircle) (.poly unitBoxCW) 0
      zeroContacts).count = 0 ∧
    (cpCollideShapes (Globals.initial ratEnv) (.circle farCircle) (.poly squareA) 0
      zeroContacts).count ≠ 1 ∧
    (cpCollideShapes (Globals.initial ratEnv) (.poly squareA) (.circle farCircle) 0
      zeroContacts).count = 0 := by
  decide!

/-- C18, amended: colliding the circle of centre `(2, 0)` and radius `r < 1` (in particular
`1/2`) with the counter-clockwise square of half-extent 1 centred at `(0, 0)` yields no
contact: the half-plane distance of the centre to the face `x = 1` is 1, more than the
radius, so `circle2poly` returns the info untouched, with `count = 0` on a fresh info. -/
theorem C18_circle_half_unit_away (F : cpEnv K) (r : K) (hr : r < 1)
    (info : cpCollisionInfo K) (id : Nat) (contacts : Int → cpContact K) :
    cpSplittingPlaneCompare ((boxPolyCCW 1 (-1) (-1) 1 (1 : K)).tPlanes 2)
      (circleAt 3 2 0 r).tc = 1 ∧
    circle2poly F (circleAt 3 2 0 r) (boxPolyCCW 1 (-1) (-1) 1 1) info = info ∧
    (cpCollideShapes (Globals.initial F) (.circle (circleAt 3 2 0 r))
      (.poly (boxPolyCCW 1 (-1) (-1) 1 1)) id contacts).count = 0 := by
  have hp : (boxPolyCCW 1 (-1) (-1) 1 (1 : K)).tPlanes ((2 : Nat) : Int) = ⟨cpv 1 0, 1⟩ := rfl
  have hd : cpSplittingPlaneCompare ((boxPolyCCW 1 (-1) (-1) 1 (1 : K)).tPlanes
      ((2 : Nat) : Int)) (circleAt 3 2 0 r).tc = 1 := by
    rw [hp]
    simp only [cpSplittingPlaneCompare, cpvdot, cpv, circleAt]
    norm_num
  have hnone : circle2polyLoop (circleAt 3 2 0 r) (boxPolyCCW 1 (-1) (-1) 1 (1 : K))
      (boxPolyCCW 1 (-1) (-1) 1 (1 : K)).numVerts.toNat = none := by
    rw [circle2polyLoop_eq_none_iff]
    have h24 : (2 : Nat) < (4 : Int).toNat := by decide
    refine ⟨2, h24, ?_⟩
    rw [hd]
    simp only [circleAt]
    linarith
  have hall : ∀ inf : cpCollisionInfo K,
      circle2poly F (circleAt 3 2 0 r) (boxPolyCCW 1 (-1) (-1) 1 1) inf = inf := by
    intro inf
    unfold circle2poly
    simp only [hnone]
  refine ⟨hd, hall info, ?_⟩
  have : cpCollideShapes (Globals.initial F) (.circle (circleAt 3 2 0 r))
      (.poly (boxPolyCCW 1 (-1) (-1) 1 1)) id contacts =
      circle2poly F (circleAt 3 2 0 r) (boxPolyCCW 1 (-1) (-1) 1 1)
        ⟨.circle (circleAt 3 2 0 r), .poly (boxPolyCCW 1 (-1) (-1) 1 1), id, cpvzero, 0,
          contacts⟩ := rfl
  rw [this, hall]

/-- Witness of the amended C18 at the radius `1/2` of the scenario. -/
theorem C18_circle_half_unit_away_witness :
    (1 / 2 : ℚ) < 1 ∧
    (cpCollideShapes (Globals.initial ratEnv) (.circle (circleAt 3 2 0 (1 / 2)))
      (.poly (boxPolyCCW 1 (-1) (-1) 1 1)) 0 zeroContacts).count = 0 :=
  ⟨by norm_num,
   (C18_circle_half_unit_away ratEnv (1 / 2) (by norm_num)
      (freshInfo (.circle (circleAt 3 2 0 (1 / 2))) (.poly (boxPolyCCW 1 (-1) (-1) 1 1)) 0)
      0 zeroContacts).2.2⟩

/-! ### C14: bounded termination -/

/-- The instrumented run returns the value of `GJKRecurse`; the counter of the returning
invocation is the starting counter plus the number of further invocations; it never exceeds
`MAX_GJK_ITERATIONS + 1` when the run starts at or below that, and the run exits at the cap
exactly when the counter passes `MAX_GJK_ITERATIONS`. -/
theorem GJKRecurseRun_spec (F : cpEnv K) (ctx : SupportContext K) :
    ∀ (n : Nat) (i : Int), (MAX_GJK_ITERATIONS + 1 - i).toNat ≤ n →
      ∀ v0 v1 : MinkowskiPoint K,
        (GJKRecurseRun F ctx v0 v1 i).points = GJKRecurse F ctx v0 v1 i ∧
        (GJKRecurseRun F ctx v0 v1 i).i + 1 = i + (GJKRecurseRun F ctx v0 v1 i).calls ∧
        1 ≤ (GJKRecurseRun F ctx v0 v1 i).calls ∧
        (i ≤ MAX_GJK_ITERATIONS + 1 →
          (GJKRecurseRun F ctx v0 v1 i).i ≤ MAX_GJK_ITERATIONS + 1) ∧
        ((GJKRecurseRun F ctx v0 v1 i).exit = GJKExit.cap ↔
          (GJKRecurseRun F ctx v0 v1 i).i > MAX_GJK_ITERATIONS) := by
  intro n
  induction n with
  | zero =>
    intro i hi v0 v1
    have hgt : i > MAX_GJK_ITERATIONS := by
      simp only [MAX_GJK_ITERATIONS] at hi ⊢
      omega
    rw [GJKRecurseRun, GJKRecurse, dif_pos hgt, dif_pos hgt]
    refine ⟨rfl, ?_, le_refl _, fun h => h, ?_⟩
    · simp
    · simp [hgt]
  | succ n ih =>
    intro i hi v0 v1
    by_cases hgt : i > MAX_GJK_ITERATIONS
    · rw [GJKRecurseRun, GJKRecurse, dif_pos hgt, dif_pos hgt]
      refine ⟨rfl, ?_, le_refl _, fun h => h, ?_⟩
      · simp
      · simp [hgt]
    · have hrec : (MAX_GJK_ITERATIONS + 1 - (i + 1)).toNat ≤ n := by
        simp only [MAX_GJK_ITERATIONS] at hi hgt ⊢
        omega
      have step : ∀ w0 w1 : MinkowskiPoint K,
          ({ GJKRecurseRun F ctx w0 w1 (i + 1) with
              calls := (GJKRecurseRun F ctx w0 w1 (i + 1)).calls + 1 } : GJKRun K).points =
            GJKRecurse F ctx w0 w1 (i + 1) ∧
          ({ GJKRecurseRun F ctx w0 w1 (i + 1) with
              calls := (GJKRecurseRun F ctx w0 w1 (i + 1)).calls + 1 } : GJKRun K).i + 1 =
            i + ({ GJKRecurseRun F ctx w0 w1 (i + 1) with
              calls := (GJKRecurseRun F ctx w0 w1 (i + 1)).calls + 1 } : GJKRun K).calls ∧
          1 ≤ ({ GJKRecurseRun F ctx w0 w1 (i + 1) with
              calls := (GJKRecurseRun F ctx w0 w1 (i + 1)).calls + 1 } : GJKRun K).calls ∧
          (i ≤ MAX_GJK_ITERATIONS + 1 →
            ({ GJKRecurseRun F ctx w0 w1 (i + 1) with
              calls := (GJKRecurseRun F ctx w0 w1 (i + 1)).calls + 1 } : GJKRun K).i ≤
              MAX_GJK_ITERATIONS + 1) ∧
          (({ GJKRecurseRun F ctx w0 w1 (i + 1) with
              calls := (GJKRecurseRun F ctx w0 w1 (i + 1)).calls + 1 } : GJKRun K).exit =
              GJKExit.cap ↔
            ({ GJKRecurseRun F ctx w0 w1 (i + 1) with
              calls := (GJKRecurseRun F ctx w0 w1 (i + 1)).calls + 1 } : GJKRun K).i >
              MAX_GJK_ITERATIONS) := by
        intro w0 w1
        obtain ⟨h1, h2, h3, h4, h5⟩ := ih (i + 1) hrec w0 w1
        refine ⟨h1, ?_, ?_, ?_, h5⟩
        · simp only [Nat.cast_add, Nat.cast_one]
          omega
        · simp only
          omega
        · intro _
          apply h4
          simp only [MAX_GJK_ITERATIONS] at hgt ⊢
          omega
      rw [GJKRecurseRun, GJKRecurse, dif_neg hgt, dif_neg hgt]
      dsimp only
      split_ifs <;>
        first
        | exact step _ _
        | exact ⟨rfl, by simp, le_refl _, fun h => h, by simp [hgt]⟩

/-- The instrumented run of `EPARecurse` returns the value of `EPARecurse`; the counter of the
returning invocation is the starting counter plus the number of further invocations and never
exceeds `MAX_EPA_ITERATIONS` when the run starts at or below it; the value returned is
`ClosestPointsNew` of the closest edge of the last hull. -/
theorem EPARecurseRun_spec (F : cpEnv K) (ctx : SupportContext K) :
    ∀ (n : Nat) (i : Int), (MAX_EPA_ITERATIONS - i).toNat ≤ n →
      ∀ hull : List (MinkowskiPoint K),
        (EPARecurseRun F ctx hull i).points = EPARecurse F ctx hull i ∧
        (EPARecurseRun F ctx hull i).i + 1 = i + (EPARecurseRun F ctx hull i).calls ∧
        1 ≤ (EPARecurseRun F ctx hull i).calls ∧
        (i ≤ MAX_EPA_ITERATIONS → (EPARecurseRun F ctx hull i).i ≤ MAX_EPA_ITERATIONS) ∧
        (EPARecurseRun F ctx hull i).points =
          ClosestPointsNew F
            (hullAt (EPARecurseRun F ctx hull i).hull
              (EPAScanLoop ((EPARecurseRun F ctx hull i).hull.length : Int)
                (EPARecurseRun F ctx hull i).hull
                ((EPARecurseRun F ctx hull i).hull.length : Int).toNat).2)
            (hullAt (EPARecurseRun F ctx hull i).hull
              (((EPAScanLoop ((EPARecurseRun F ctx hull i).hull.length : Int)
                (EPARecurseRun F ctx hull i).hull
                ((EPARecurseRun F ctx hull i).hull.length : Int).toNat).2 + 1).tmod
                ((EPARecurseRun F ctx hull i).hull.length : Int))) := by
  intro n
  induction n with
  | zero =>
    intro i hi hull
    have hge : ¬ i < MAX_EPA_ITERATIONS := by
      simp only [MAX_EPA_ITERATIONS] at hi ⊢
      omega
    rw [EPARecurseRun, EPARecurse]
    simp only [hge, and_false, dite_false]
    exact ⟨trivial, by simp, le_refl _, fun h => h, trivial⟩
  | succ n ih =>
    intro i hi hull
    rw [EPARecurseRun, EPARecurse]
    dsimp only
    split_ifs with hc
    · have hrec : (MAX_EPA_ITERATIONS - (i + 1)).toNat ≤ n := by
        have h2 := hc.2
        simp only [MAX_EPA_ITERATIONS] at hi h2 ⊢
        omega
      obtain ⟨h1, h2, h3, h4, h5⟩ := ih (i + 1) hrec
        (EPAHullLoop (hull.length : Int) hull
          (EPAScanLoop (hull.length : Int) hull (hull.length : Int).toNat).2
          (Support ctx (cpvperp (cpvsub
            (hullAt hull (((EPAScanLoop (hull.length : Int) hull
              (hull.length : Int).toNat).2 + 1).tmod (hull.length : Int))).ab
            (hullAt hull (EPAScanLoop (hull.length : Int) hull
              (hull.length : Int).toNat).2).ab)))
          (hull.length : Int).toNat)
      refine ⟨h1, ?_, ?_, ?_, h5⟩
      · simp only [Nat.cast_add, Nat.cast_one]
        omega
      · simp only
        omega
      · intro _
        apply h4
        have h2 := hc.2
        simp only [MAX_EPA_ITERATIONS] at h2 ⊢
        omega
    · exact ⟨rfl, by simp, le_refl _, fun h => h, rfl⟩

/-- C14: bounded termination. `GJKRecurse` and `EPARecurse` are total functions returning a
`ClosestPoints` value. For every support context and every initial simplex, the run of
`GJKRecurse` started with `i = 1` returns the value of `GJKRecurse`, the counter of the
invocation that returns equals the number of invocations made (each recursive call adds one)
and never exceeds `MAX_GJK_ITERATIONS + 1 = 31`, and an invocation with `i > 30` returns
`ClosestPointsNew` of its simplex at once. The run of `EPARecurse` started with `i = 1` makes
at most `MAX_EPA_ITERATIONS = 30` nested invocations, recurses only while
`i < MAX_EPA_ITERATIONS`, and returns `ClosestPointsNew` of the closest edge of its last
hull. -/
theorem C14_bounded_termination (F : cpEnv K) (ctx : SupportContext K)
    (v0 v1 : MinkowskiPoint K) (hull : List (MinkowskiPoint K)) :
    (GJKRecurseRun F ctx v0 v1 1).points = GJKRecurse F ctx v0 v1 1 ∧
    (GJKRecurseRun F ctx v0 v1 1).i = ((GJKRecurseRun F ctx v0 v1 1).calls : Int) ∧
    (GJKRecurseRun F ctx v0 v1 1).i ≤ MAX_GJK_ITERATIONS + 1 ∧
    MAX_GJK_ITERATIONS + 1 = 31 ∧
    1 ≤ (GJKRecurseRun F ctx v0 v1 1).calls ∧ (GJKRecurseRun F ctx v0 v1 1).calls ≤ 31 ∧
    ((GJKRecurseRun F ctx v0 v1 1).exit = GJKExit.cap ↔ (GJKRecurseRun F ctx v0 v1 1).i = 31) ∧
    (∀ (w0 w1 : MinkowskiPoint K) (i : Int), i > 30 →
      GJKRecurse F ctx w0 w1 i = ClosestPointsNew F w0 w1) ∧
    (EPARecurseRun F ctx hull 1).points = EPARecurse F ctx hull 1 ∧
    (EPARecurseRun F ctx hull 1).i = ((EPARecurseRun F ctx hull 1).calls : Int) ∧
    MAX_EPA_ITERATIONS = 30 ∧
    1 ≤ (EPARecurseRun F ctx hull 1).calls ∧ (EPARecurseRun F ctx hull 1).calls ≤ 30 ∧
    (∀ (h : List (MinkowskiPoint K)) (i : Int), ¬ i < MAX_EPA_ITERATIONS →
      EPARecurse F ctx h i =
        ClosestPointsNew F
          (hullAt h (EPAScanLoop (h.length : Int) h (h.length : Int).toNat).2)
          (hullAt h (((EPAScanLoop (h.length : Int) h (h.length : Int).toNat).2 + 1).tmod
            (h.length : Int)))) ∧
    (EPARecurseRun F ctx hull 1).points =
      ClosestPointsNew F
        (hullAt (EPARecurseRun F ctx hull 1).hull
          (EPAScanLoop ((EPARecurseRun F ctx hull 1).hull.length : Int)
            (EPARecurseRun F ctx hull 1).hull
            ((EPARecurseRun F ctx hull 1).hull.length : Int).toNat).2)
        (hullAt (EPARecurseRun F ctx hull 1).hull
          (((EPAScanLoop ((EPARecurseRun F ctx hull 1).hull.length : Int)
            (EPARecurseRun F ctx hull 1).hull
            ((EPARecurseRun F ctx hull 1).hull.length : Int).toNat).2 + 1).tmod
            ((EPARecurseRun F ctx hull 1).hull.length : Int))) := by
  obtain ⟨g1, g2, g3, g4, g5⟩ :=
    GJKRecurseRun_spec F ctx (MAX_GJK_ITERATIONS + 1 - 1).toNat 1 (le_refl _) v0 v1
  obtain ⟨e1, e2, e3, e4, e5⟩ :=
    EPARecurseRun_spec F ctx (MAX_EPA_ITERATIONS - 1).toNat 1 (le_refl _) hull
  have g4 := g4 (by simp only [MAX_GJK_ITERATIONS]; omega)
  have e4 := e4 (by simp only [MAX_EPA_ITERATIONS]; omega)
  simp only [MAX_GJK_ITERATIONS] at g4 g5
  simp only [MAX_EPA_ITERATIONS] at e4
  refine ⟨g1, by omega, by simp only [MAX_GJK_ITERATIONS]; omega, rfl, g3, by omega, ?_, ?_,
    e1, by omega, rfl, e3, by omega, ?_, e5⟩
  · rw [g5]
    constructor <;> intro h <;> omega
  · intro w0 w1 i hi
    have hgt : i > MAX_GJK_ITERATIONS := hi
    rw [GJKRecurse, dif_pos hgt]
  · intro h i hi
    rw [EPARecurse]
    simp only [hi, and_false, dite_false]

/-! ### C12: feeding the id back -/

theorem toCollisionID_natCast (m : Nat) (h : m < 256) : toCollisionID (m : Int) = m := by
  unfold toCollisionID
  have e : ((m : Int) % 2 ^ 32) = (m : Int) :=
    Int.emod_eq_of_lt (by omega) (by norm_num; omega)
  rw [e]
  simp

/-- C24: in `circle2circleQuery`, for all centres and all radii of any sign, the contact
branch is taken exactly when the guard `|p2 - p1|² < (r1 + r2)²` holds (the count grows by one
then, the info is untouched otherwise), and on that branch `r1 + r2 ≠ 0`, so the division
`r1/(r1 + r2)` is not a division by zero.  In particular two zero-radius circles never produce
a contact, also when their centres coincide. -/
theorem C24_no_division_by_zero (F : cpEnv K) (p1 p2 : cpVect K) (r1 r2 : K) (hash : Nat)
    (info : cpCollisionInfo K) :
    (cpvlengthsq (cpvsub p2 p1) < (r1 + r2) * (r1 + r2) → r1 + r2 ≠ 0) ∧
    ((circle2circleQuery F p1 p2 r1 r2 hash info).count = info.count + 1 ↔
      cpvlengthsq (cpvsub p2 p1) < (r1 + r2) * (r1 + r2)) ∧
    (¬ cpvlengthsq (cpvsub p2 p1) < (r1 + r2) * (r1 + r2) →
      circle2circleQuery F p1 p2 r1 r2 hash info = info) ∧
    ((circle2circleQuery F p1 p2 r1 r2 hash info).count ≠ info.count → r1 + r2 ≠ 0) ∧
    circle2circleQuery F p1 p2 0 0 hash info = info ∧
    circle2circleQuery F p1 p1 0 0 hash info = info ∧
    (∀ c1 c2 : cpCircleShape K, c1.r = 0 → c2.r = 0 → circle2circle F c1 c2 info = info) := by
  have hnn : ∀ q1 q2 : cpVect K, ¬ cpvlengthsq (cpvsub q2 q1) < (0 + 0) * (0 + 0) := by
    intro q1 q2 h
    have := cpvlengthsq_nonneg (cpvsub q2 q1)
    simp only [add_zero, mul_zero] at h
    exact absurd h (not_lt.mpr this)
  have hz : ∀ (q1 q2 : cpVect K) (inf : cpCollisionInfo K),
      circle2circleQuery F q1 q2 0 0 hash inf = inf := by
    intro q1 q2 inf
    unfold circle2circleQuery
    simp only [if_neg (hnn q1 q2)]
  have hg : cpvlengthsq (cpvsub p2 p1) < (r1 + r2) * (r1 + r2) → r1 + r2 ≠ 0 := by
    intro h h0
    rw [h0, mul_zero] at h
    exact absurd h (not_lt.mpr (cpvlengthsq_nonneg _))
  have hiff : (circle2circleQuery F p1 p2 r1 r2 hash info).count = info.count + 1 ↔
      cpvlengthsq (cpvsub p2 p1) < (r1 + r2) * (r1 + r2) := by
    unfold circle2circleQuery
    dsimp only
    by_cases h : cpvlengthsq (cpvsub p2 p1) < (r1 + r2) * (r1 + r2)
    · rw [if_pos h]
      exact ⟨fun _ => h, fun _ => rfl⟩
    · rw [if_neg h]
      exact ⟨fun hc => by omega, fun hc => absurd hc h⟩
  have hneg : ¬ cpvlengthsq (cpvsub p2 p1) < (r1 + r2) * (r1 + r2) →
      circle2circleQuery F p1 p2 r1 r2 hash info = info := by
    intro h
    unfold circle2circleQuery
    simp only [if_neg h]
  refine ⟨hg, hiff, hneg, ?_, hz p1 p2 info, hz p1 p1 info, ?_⟩
  · intro hc
    by_cases h : cpvlengthsq (cpvsub p2 p1) < (r1 + r2) * (r1 + r2)
    · exact hg h
    · rw [hneg h] at hc
      exact absurd rfl hc
  · intro c1 c2 h1 h2
    unfold circle2circle
    rw [h1, h2]
    unfold circle2circleQuery
    simp only [if_neg (hnn c1.tc c2.tc)]

/-- Witness of C24: for unit circles at `(0,0)` and `(1,0)` the guard holds (`1 < 4`) and
`r1 + r2 = 2` is not zero. -/
theorem C24_no_division_by_zero_witness :
    cpvlengthsq (cpvsub (cpv 1 0) (cpv 0 0)) < ((1 : ℚ) + 1) * (1 + 1) ∧ (1 : ℚ) + 1 ≠ 0 :=
  ⟨by decide!,
   (C24_no_division_by_zero ratEnv (cpv 0 0) (cpv 1 0) 1 1 0
      (freshInfo (.circle (circleAt 1 0 0 1)) (.circle (circleAt 2 1 0 1)) 0)).1 (by decide!)⟩

/-! ### C21: the support point of the Minkowski difference -/

/-- C21: for a support context with non-empty vertex arrays and every direction `n`, with
`i` the support index of `-n` in the first array and `j` the support index of `n` in the
second (both below the counts), `Support(ctx, n)` has `a = verts1[i]`, `b = verts2[j]`,
`ab = b - a`, the id `(i << 8) | j` when both indices are below 256, and `ab` is extremal on
the Minkowski difference: `dot(ab, n) ≥ dot(verts2[l] - verts1[k], n)` for all vertex indices
`k`, `l`. -/
theorem C21_Support (ctx : SupportContext K) (n : cpVect K)
    (hc1 : 1 ≤ ctx.count1) (hc2 : 1 ≤ ctx.count2) :
    ∃ i j : Nat,
      cpSupportPointIndex ctx.count1 ctx.verts1 (cpvneg n) = (i : Int) ∧
      cpSupportPointIndex ctx.count2 ctx.verts2 n = (j : Int) ∧
      (i : Int) < ctx.count1 ∧ (j : Int) < ctx.count2 ∧
      (Support ctx n).a = ctx.verts1 (i : Int) ∧
      (Support ctx n).b = ctx.verts2 (j : Int) ∧
      (Support ctx n).ab = cpvsub (Support ctx n).b (Support ctx n).a ∧
      (i < 256 → j < 256 → (Support ctx n).id = (i <<< 8) ||| j) ∧
      ∀ k l : Int, 0 ≤ k → k < ctx.count1 → 0 ≤ l → l < ctx.count2 →
        cpvdot (Support ctx n).ab n ≥ cpvdot (cpvsub (ctx.verts2 l) (ctx.verts1 k)) n := by
  obtain ⟨i, ei, li, mi, -⟩ := cpSupportPointIndex_spec ctx.count1 ctx.verts1 (cpvneg n) hc1
  obtain ⟨j, ej, lj, mj, -⟩ := cpSupportPointIndex_spec ctx.count2 ctx.verts2 n hc2
  have hS : Support ctx n =
      MinkoskiPointNew (SupportPointNew (ctx.verts1 (i : Int)) (toCollisionID (i : Int)))
        (SupportPointNew (ctx.verts2 (j : Int)) (toCollisionID (j : Int))) := by
    unfold Support cpSupportPoint
    simp only [ei, ej]
  refine ⟨i, j, ei, ej, li, lj, ?_, ?_, ?_, ?_, ?_⟩
  · rw [hS]
    rfl
  · rw [hS]
    rfl
  · rw [hS]
    rfl
  · intro hi hj
    rw [hS, MinkoskiPointNew_id]
    simp only [SupportPointNew]
    rw [toCollisionID_natCast i hi, toCollisionID_natCast j hj, Nat.mod_eq_of_lt hi,
      Nat.mod_eq_of_lt hj, shl8_or i j hj]
  · intro k l hk0 hk1 hl0 hl1
    have h1 := mi k hk0 hk1
    have h2 := mj l hl0 hl1
    rw [hS]
    simp only [MinkoskiPointNew, SupportPointNew, cpvdot, cpvsub, cpvneg] at h1 h2 ⊢
    linarith

/-- Witness of C21: on the boxes `[-1,1]²` and `[1/2,5/2]²` (clockwise) the direction `(1, 0)`
gives the support indices 0 and 2, the point `ab = (5/2, 5/2) - (-1, -1)`, the id
`(0 << 8) | 2 = 2`, and `dot(ab, n) = 7/2` bounds `dot(verts2[0] - verts1[2], n) = -1/2`. -/
theorem C21_Support_witness :
    (1 ≤ cornerCtx.count1 ∧ 1 ≤ cornerCtx.count2) ∧
    (Support cornerCtx (cpv 1 0)).ab = cpv (7 / 2) (7 / 2) ∧
    (Support cornerCtx (cpv 1 0)).id = 2 ∧
    cpvdot (Support cornerCtx (cpv 1 0)).ab (cpv 1 0) ≥
      cpvdot (cpvsub (cornerCtx.verts2 0) (cornerCtx.verts1 2)) (cpv 1 0) :=
  ⟨by decide, by decide!, by decide!,
   (C21_Support cornerCtx (cpv 1 0) (by decide) (by decide)).elim
     (fun _ h => h.elim (fun _ h2 => h2.2.2.2.2.2.2.2.2 2 0 (by decide) (by decide)
       (by decide) (by decide)))⟩

/-! ### C22: the support edge of a polygon -/

/-- C22: for a polygon with `numVerts ≥ 1` and every direction `n`, with `i1` the support
vertex index, the C expressions `(i1 - 1 + numVerts) % numVerts` and `(i1 + 1) % numVerts` are
the cyclic neighbours `i0 = (i1 - 1) mod numVerts` and `i2 = (i1 + 1) mod numVerts`, all three
within `0 .. numVerts - 1`.  `SupportEdgeForPoly` returns the edge `(verts[i0], verts[i1])`
with normal `tPlanes[i1].n` when `dot(n, tPlanes[i1].n) > dot(n, tPlanes[i2].n)` and the edge
`(verts[i1], verts[i2])` with normal `tPlanes[i2].n` otherwise; each endpoint carries the hash
`H(poly, its vertex index)`, the radius is the polygon's radius, the support vertex is one of
the endpoints, and the returned normal has the greater dot with `n` of the two. -/
theorem C22_SupportEdgeForPoly (F : cpEnv K) (poly : cpPolyShape K) (n : cpVect K)
    (hc : 1 ≤ poly.numVerts) :
    ∃ i0 i1 i2 : Nat,
      cpSupportPointIndex poly.numVerts poly.tVerts n = (i1 : Int) ∧
      ((i1 : Int) - 1 + poly.numVerts).tmod poly.numVerts = (i0 : Int) ∧
      ((i1 : Int) + 1).tmod poly.numVerts = (i2 : Int) ∧
      (i0 : Int) = ((i1 : Int) - 1) % poly.numVerts ∧
      (i2 : Int) = ((i1 : Int) + 1) % poly.numVerts ∧
      (i0 : Int) < poly.numVerts ∧ (i1 : Int) < poly.numVerts ∧ (i2 : Int) < poly.numVerts ∧
      (cpvdot n (poly.tPlanes (i1 : Int)).n > cpvdot n (poly.tPlanes (i2 : Int)).n →
        SupportEdgeForPoly F poly n =
          ⟨⟨poly.tVerts (i0 : Int), F.CP_HASH_PAIR poly.shape.addr i0⟩,
           ⟨poly.tVerts (i1 : Int), F.CP_HASH_PAIR poly.shape.addr i1⟩, poly.r,
           (poly.tPlanes (i1 : Int)).n⟩) ∧
      (¬ cpvdot n (poly.tPlanes (i1 : Int)).n > cpvdot n (poly.tPlanes (i2 : Int)).n →
        SupportEdgeForPoly F poly n =
          ⟨⟨poly.tVerts (i1 : Int), F.CP_HASH_PAIR poly.shape.addr i1⟩,
           ⟨poly.tVerts (i2 : Int), F.CP_HASH_PAIR poly.shape.addr i2⟩, poly.r,
           (poly.tPlanes (i2 : Int)).n⟩) ∧
      ((SupportEdgeForPoly F poly n).a.p = poly.tVerts (i1 : Int) ∨
        (SupportEdgeForPoly F poly n).b.p = poly.tVerts (i1 : Int)) ∧
      (SupportEdgeForPoly F poly n).r = poly.r ∧
      cpvdot n (SupportEdgeForPoly F poly n).n ≥ cpvdot n (poly.tPlanes (i1 : Int)).n ∧
      cpvdot n (SupportEdgeForPoly F poly n).n ≥ cpvdot n (poly.tPlanes (i2 : Int)).n := by
  obtain ⟨i1, e1, l1, -, -⟩ := cpSupportPointIndex_spec poly.numVerts poly.tVerts n hc
  have hpos : (0 : Int) < poly.numVerts := by omega
  have hN : (0 : Int) ≤ poly.numVerts := by omega
  have t0 : ((i1 : Int) - 1 + poly.numVerts).tmod poly.numVerts =
      ((i1 : Int) - 1) % poly.numVerts := by
    rw [Int.tmod_eq_emod (by omega) hN, Int.add_emod_self]
  have t2 : ((i1 : Int) + 1).tmod poly.numVerts = ((i1 : Int) + 1) % poly.numVerts :=
    Int.tmod_eq_emod (by omega) hN
  have n0 := Int.emod_nonneg ((i1 : Int) - 1) (ne_of_gt hpos)
  have n2 := Int.emod_nonneg ((i1 : Int) + 1) (ne_of_gt hpos)
  have b0 := Int.emod_lt_of_pos ((i1 : Int) - 1) hpos
  have b2 := Int.emod_lt_of_pos ((i1 : Int) + 1) hpos
  have c0 : ((((i1 : Int) - 1) % poly.numVerts).toNat : Int) =
      ((i1 : Int) - 1) % poly.numVerts := Int.toNat_of_nonneg n0
  have c2 : ((((i1 : Int) + 1) % poly.numVerts).toNat : Int) =
      ((i1 : Int) + 1) % poly.numVerts := Int.toNat_of_nonneg n2
  have hpos_eq : cpvdot n (poly.tPlanes (i1 : Int)).n >
        cpvdot n (poly.tPlanes ((((i1 : Int) + 1) % poly.numVerts).toNat : Int)).n →
      SupportEdgeForPoly F poly n =
        ⟨⟨poly.tVerts ((((i1 : Int) - 1) % poly.numVerts).toNat : Int),
            F.CP_HASH_PAIR poly.shape.addr (((i1 : Int) - 1) % poly.numVerts).toNat⟩,
         ⟨poly.tVerts (i1 : Int), F.CP_HASH_PAIR poly.shape.addr i1⟩, poly.r,
         (poly.tPlanes (i1 : Int)).n⟩ := by
    intro h
    rw [c2] at h
    unfold SupportEdgeForPoly
    simp only [e1, t0, t2, c0, if_pos h, Int.toNat_ofNat]
  have hneg_eq : ¬ cpvdot n (poly.tPlanes (i1 : Int)).n >
        cpvdot n (poly.tPlanes ((((i1 : Int) + 1) % poly.numVerts).toNat : Int)).n →
      SupportEdgeForPoly F poly n =
        ⟨⟨poly.tVerts (i1 : Int), F.CP_HASH_PAIR poly.shape.addr i1⟩,
         ⟨poly.tVerts ((((i1 : Int) + 1) % poly.numVerts).toNat : Int),
            F.CP_HASH_PAIR poly.shape.addr (((i1 : Int) + 1) % poly.numVerts).toNat⟩, poly.r,
         (poly.tPlanes ((((i1 : Int) + 1) % poly.numVerts).toNat : Int)).n⟩ := by
    intro h
    rw [c2] at h
    unfold SupportEdgeForPoly
    simp only [e1, t0, t2, c2, if_neg h, Int.toNat_ofNat]
  refine ⟨(((i1 : Int) - 1) % poly.numVerts).toNat, i1,
    (((i1 : Int) + 1) % poly.numVerts).toNat, e1, ?_, ?_, c0, c2, ?_, l1, ?_,
    hpos_eq, hneg_eq, ?_, ?_, ?_, ?_⟩
  · rw [t0, c0]
  · rw [t2, c2]
  · rw [c0]
    exact b0
  · rw [c2]
    exact b2
  · by_cases h : cpvdot n (poly.tPlanes (i1 : Int)).n >
        cpvdot n (poly.tPlanes ((((i1 : Int) + 1) % poly.numVerts).toNat : Int)).n
    · rw [hpos_eq h]
      exact Or.inr rfl
    · rw [hneg_eq h]
      exact Or.inl rfl
  · by_cases h : cpvdot n (poly.tPlanes (i1 : Int)).n >
        cpvdot n (poly.tPlanes ((((i1 : Int) + 1) % poly.numVerts).toNat : Int)).n
    · rw [hpos_eq h]
    · rw [hneg_eq h]
  · by_cases h : cpvdot n (poly.tPlanes (i1 : Int)).n >
        cpvdot n (poly.tPlanes ((((i1 : Int) + 1) % poly.numVerts).toNat : Int)).n
    · rw [hpos_eq h]
    · rw [hneg_eq h]
      exact not_lt.mp h
  · by_cases h : cpvdot n (poly.tPlanes (i1 : Int)).n >
        cpvdot n (poly.tPlanes ((((i1 : Int) + 1) % poly.numVerts).toNat : Int)).n
    · rw [hpos_eq h]
      exact le_of_lt h
    · rw [hneg_eq h]

/-- Witness of C22: on the clockwise box `[-1,1]²` (address 1) the direction `(1, 0)` has the
support vertex 2; the plane normals of vertices 2 and 3 are `(0, 1)` and `(1, 0)`, so the edge
returned is `(verts[2], verts[3])` with normal `(1, 0)`, hashes `H(1, 2)` and `H(1, 3)` and
the radius of the polygon. -/
theorem C22_SupportEdgeForPoly_witness :
    1 ≤ unitBoxCW.numVerts ∧
    cpSupportPointIndex unitBoxCW.numVerts unitBoxCW.tVerts (cpv 1 0) = 2 ∧
    (SupportEdgeForPoly ratEnv unitBoxCW (cpv 1 0)).a.p = cpv 1 1 ∧
    (SupportEdgeForPoly ratEnv unitBoxCW (cpv 1 0)).b.p = cpv 1 (-1) ∧
    (SupportEdgeForPoly ratEnv unitBoxCW (cpv 1 0)).a.hash = hashPair64 1 2 ∧
    (SupportEdgeForPoly ratEnv unitBoxCW (cpv 1 0)).b.hash = hashPair64 1 3 ∧
    (SupportEdgeForPoly ratEnv unitBoxCW (cpv 1 0)).n = cpv 1 0 ∧
    (SupportEdgeForPoly ratEnv unitBoxCW (cpv 1 0)).r = unitBoxCW.r :=
  ⟨by decide, by decide!, by decide!, by decide!, by decide!, by decide!, by decide!,
   (C22_SupportEdgeForPoly ratEnv unitBoxCW (cpv 1 0) (by decide)).elim
     (fun _ h => h.elim (fun _ h => h.elim (fun _ h => h.2.2.2.2.2.2.2.2.2.2.2.1)))⟩

/-! ### C23: the closest point of `circle2segment` -/

theorem cpfclamp01_cases (x : K) :
    (x ≤ 0 ∧ cpfclamp01 x = 0) ∨ (0 ≤ x ∧ x ≤ 1 ∧ cpfclamp01 x = x) ∨
      (1 ≤ x ∧ cpfclamp01 x = 1) := by
  unfold cpfclamp01 cpfmax cpfmin
  by_cases h1 : x < 1
  · by_cases h0 : 0 > x
    · left
      simp only [h1, if_true, h0]
      exact ⟨le_of_lt h0, trivial⟩
    · right
      left
      simp only [h1, if_true, h0, if_false]
      exact ⟨not_lt.mp h0, le_of_lt h1, trivial⟩
  · right
    right
    have h2 : ¬ (0 : K) > 1 := not_lt.mpr zero_le_one
    simp only [h1, if_false, h2]
    exact ⟨not_lt.mp h1, trivial⟩

theorem cpvlengthsq_segment_point (a b c : cpVect K) (s : K) :
    cpvlengthsq (cpvsub (cpvadd a (cpvmult (cpvsub b a) s)) c) =
      cpvlengthsq (cpvsub c a) - 2 * s * cpvdot (cpvsub b a) (cpvsub c a) +
        s * s * cpvlengthsq (cpvsub b a) := by
  simp only [cpvlengthsq, cpvdot, cpvsub, cpvadd, cpvmult]
  ring

/-- The clamped projection parameter of `circle2segment` minimises the squared distance to
the centre over the segment, for `a ≠ b`. -/
theorem closest_t_minimises (a b c : cpVect K) (h : a ≠ b) (s : K) (hs0 : 0 ≤ s)
    (hs1 : s ≤ 1) :
    cpvlengthsq (cpvsub (cpvadd a (cpvmult (cpvsub b a)
        (cpfclamp01 (cpvdot (cpvsub b a) (cpvsub c a) / cpvlengthsq (cpvsub b a))))) c) ≤
      cpvlengthsq (cpvsub (cpvadd a (cpvmult (cpvsub b a) s)) c) := by
  have hL : 0 < cpvlengthsq (cpvsub b a) := cpvlengthsq_sub_pos a b h
  rw [cpvlengthsq_segment_point a b c s, cpvlengthsq_segment_point a b c]
  generalize cpvlengthsq (cpvsub c a) = W
  generalize cpvlengthsq (cpvsub b a) = L at hL ⊢
  generalize cpvdot (cpvsub b a) (cpvsub c a) = d
  have hd : d = (d / L) * L := by field_simp
  generalize hxd : d / L = x at hd
  have key : ∀ t : K, 0 ≤ (s - t) * (s + t - 2 * x) →
      W - 2 * t * d + t * t * L ≤ W - 2 * s * d + s * s * L := by
    intro t hnn
    have h1 : 0 ≤ L * ((s - t) * (s + t - 2 * x)) := mul_nonneg (le_of_lt hL) hnn
    have h2 : L * ((s - t) * (s + t - 2 * x)) =
        (W - 2 * s * d + s * s * L) - (W - 2 * t * d + t * t * L) := by
      rw [hd]
      ring
    linarith
  apply key
  rcases cpfclamp01_cases x with ⟨hx, e⟩ | ⟨hx0, hx1, e⟩ | ⟨hx, e⟩
  · rw [e]
    exact mul_nonneg (by linarith) (by linarith)
  · rw [e]
    have : (s - x) * (s + x - 2 * x) = (s - x) * (s - x) := by ring
    rw [this]
    exact mul_self_nonneg _
  · rw [e]
    have : (s - 1) * (s + 1 - 2 * x) = (1 - s) * (2 * x - s - 1) := by ring
    rw [this]
    exact mul_nonneg (by linarith) (by linarith)

theorem ExactSqrt.mono {F : cpEnv K} (hF : F.ExactSqrt) {x y : K} (hx : 0 ≤ x) (hxy : x ≤ y) :
    F.cpfsqrt x ≤ F.cpfsqrt y := by
  by_contra hc
  have hlt := not_le.mp hc
  have hy : 0 ≤ y := le_trans hx hxy
  have := (ExactSqrt.lt_iff hF hy (hF x hx).1).mp hlt
  rw [(hF x hx).2] at this
  exact absurd hxy (not_le.mpr this)

/-- C23: with an exact square root, for every circle and every segment with endpoints
`a ≠ b`, the parameter `closest_t` that `circle2segment` computes is
`clamp01(dot(b - a, c - a)/|b - a|²)`, it lies in `[0, 1]`, and the point
`closest = a + (b - a)*closest_t` is the point of the segment nearest the centre `c` (no
point `a + (b - a)*s`, `s ∈ [0, 1]`, is strictly closer).  For radii with
`r_circle + r_segment ≥ 0`, in particular for radii `≥ 0`, the query `info1` that
`circle2segment` runs before the tangent rejection emits a contact if and only if
`|closest - c| < r_circle + r_segment`, and leaves the info untouched otherwise.  Whatever
the radii, it emits a contact if and only if `|closest - c|² < (r_circle + r_segment)²`. -/
theorem C23_circle2segment_closest (F : cpEnv K) (hF : F.ExactSqrt)
    (circleShape : cpCircleShape K) (segmentShape : cpSegmentShape K)
    (info : cpCollisionInfo K) (hab : segmentShape.ta ≠ segmentShape.tb) :
    let seg_delta := cpvsub segmentShape.tb segmentShape.ta
    let closest_t := cpfclamp01
      (cpvdot seg_delta (cpvsub circleShape.tc segmentShape.ta) / cpvlengthsq seg_delta)
    let closest := cpvadd segmentShape.ta (cpvmult seg_delta closest_t)
    let info1 := circle2circleQuery F circleShape.tc closest circleShape.r segmentShape.r 0
      info
    (0 ≤ closest_t ∧ closest_t ≤ 1) ∧
    (∀ s : K, 0 ≤ s → s ≤ 1 →
      cpvlengthsq (cpvsub closest circleShape.tc) ≤
        cpvlengthsq (cpvsub (cpvadd segmentShape.ta (cpvmult seg_delta s)) circleShape.tc)) ∧
    (∀ s : K, 0 ≤ s → s ≤ 1 →
      cpvlength F (cpvsub closest circleShape.tc) ≤
        cpvlength F (cpvsub (cpvadd segmentShape.ta (cpvmult seg_delta s)) circleShape.tc)) ∧
    (0 ≤ circleShape.r + segmentShape.r →
      (info1.count = info.count + 1 ↔
        cpvlength F (cpvsub closest circleShape.tc) < circleShape.r + segmentShape.r) ∧
      (¬ cpvlength F (cpvsub closest circleShape.tc) < circleShape.r + segmentShape.r →
        info1 = info)) ∧
    (info1.count = info.count + 1 ↔
      cpvlengthsq (cpvsub closest circleShape.tc) <
        (circleShape.r + segmentShape.r) * (circleShape.r + segmentShape.r)) ∧
    circle2segment F circleShape segmentShape info =
      (if info1.count > 0 then
        if (closest_t ≠ 0 ∨
              cpvdot info1.n
                (cpvrotate segmentShape.a_tangent segmentShape.shape.body.rot) ≥ 0) ∧
            (closest_t ≠ 1 ∨
              cpvdot info1.n
                (cpvrotate segmentShape.b_tangent segmentShape.shape.body.rot) ≥ 0) then
          info1
        else
          { info1 with count := 0 }
      else info1) := by
  intro seg_delta closest_t closest info1
  have hmin : ∀ s : K, 0 ≤ s → s ≤ 1 →
      cpvlengthsq (cpvsub closest circleShape.tc) ≤
        cpvlengthsq (cpvsub (cpvadd segmentShape.ta (cpvmult seg_delta s)) circleShape.tc) :=
    closest_t_minimises segmentShape.ta segmentShape.tb circleShape.tc hab
  have hsq : info1.count = info.count + 1 ↔
      cpvlengthsq (cpvsub closest circleShape.tc) <
        (circleShape.r + segmentShape.r) * (circleShape.r + segmentShape.r) := by
    show (circle2circleQuery F circleShape.tc closest circleShape.r segmentShape.r 0
      info).count = info.count + 1 ↔ _
    unfold circle2circleQuery
    dsimp only
    by_cases h : cpvlengthsq (cpvsub closest circleShape.tc) <
        (circleShape.r + segmentShape.r) * (circleShape.r + segmentShape.r)
    · rw [if_pos h]
      exact ⟨fun _ => h, fun _ => rfl⟩
    · rw [if_neg h]
      exact ⟨fun hc => by omega, fun hc => absurd hc h⟩
  refine ⟨cpfclamp01_bounds _, hmin, ?_, ?_, hsq, ?_⟩
  · intro s hs0 hs1
    exact ExactSqrt.mono hF (cpvlengthsq_nonneg _) (hmin s hs0 hs1)
  · intro hr
    have hq : info1 = _ :=
      circle2circleQuery_eq F hF circleShape.tc closest circleShape.r segmentShape.r 0 info hr
    have hlt := ExactSqrt.lt_iff hF (cpvlengthsq_nonneg (cpvsub closest circleShape.tc)) hr
    constructor
    · rw [hsq]
      exact hlt.symm
    · intro h
      rw [hq, if_neg h]
  · unfold circle2segment
    dsimp only
    rw [cpfclamp01X_divSq_of_ne _ _
      (ne_of_gt (cpvlengthsq_sub_pos segmentShape.ta segmentShape.tb hab))]

/-- Witness of C23 on the reals with the real square root: the circle of centre `(1/2, 1/2)`
and radius 1 and the segment from `(0,0)` to `(1,0)` of radius 0. -/
theorem C23_circle2segment_closest_witness :
    (⟨Real.sqrt, 0, fun _ _ => 0, fun _ _ _ => false⟩ : cpEnv ℝ).ExactSqrt ∧
    (segmentAt 7 0 0 1 0 0 1 (0 : ℝ)).ta ≠ (segmentAt 7 0 0 1 0 0 1 (0 : ℝ)).tb ∧
    (0 ≤ cpfclamp01
        (cpvdot (cpvsub (cpv 1 0) (cpv 0 0)) (cpvsub (cpv (1 / 2) (1 / 2)) (cpv 0 0)) /
          cpvlengthsq (cpvsub (cpv 1 0) (cpv (0 : ℝ) 0))) ∧
      cpfclamp01
        (cpvdot (cpvsub (cpv 1 0) (cpv 0 0)) (cpvsub (cpv (1 / 2) (1 / 2)) (cpv 0 0)) /
          cpvlengthsq (cpvsub (cpv 1 0) (cpv (0 : ℝ) 0))) ≤ 1) := by
  have hne : (segmentAt 7 0 0 1 0 0 1 (0 : ℝ)).ta ≠ (segmentAt 7 0 0 1 0 0 1 (0 : ℝ)).tb := by
    intro h
    have := congrArg cpVect.x h
    simp [segmentAt, cpv] at this
  exact ⟨realSqrt_exact 0 _ _, hne,
    (C23_circle2segment_closest ⟨Real.sqrt, 0, fun _ _ => 0, fun _ _ _ => false⟩
      (realSqrt_exact 0 _ _)
      (circleAt 6 (1 / 2) (1 / 2) 1) (segmentAt 7 0 0 1 0 0 1 0)
      (freshInfo (.circle (circleAt 6 (1 / 2) (1 / 2) 1))
        (.segment (segmentAt 7 0 0 1 0 0 1 0)) 0) hne).1⟩

end Chipmunk
